import Mathlib

/-! A shallow embedding of `hoxml.h`, the hoxml XML tokenizer.

The embedding follows the C source function by function.  Conventions:

* The target is a little-endian LP64 machine (the source itself relies on little-endian
  byte order when it masks `*(uint32_t*)str`): pointers are 8 bytes,
  `sizeof(hoxml_node_t) = 24` and `offsetof(hoxml_node_t, tag) = 17`.
* Whether plain `char` is signed is implementation-defined; every function that reads
  `char` values takes a flag `sc` (`true`: signed, as on x86-64; `false`: unsigned, as on AArch64).
* Pointers are absolute addresses in `Nat`, `0` is `NULL`.  The scratch buffer is the byte
  list `mem`, located at address `buffer`; frame headers are stored in it byte by byte.
* Unsigned machine integers are `Nat` with explicit reduction modulo `2^w`.
* A byte read outside the modelled memory yields `0`; a write outside the scratch buffer is
  dropped.  Both are undefined behaviour in C; the ghost flag `fault` records that a frame
  header or string outside the scratch buffer was dereferenced.
-/

set_option maxRecDepth 100000

/-! ## Definitions of the public header -/

/-- Error and token codes returned by `hoxml_parse` (`hoxml_code_t`). -/
inductive hoxml_code_t
  | HOXML_ERROR_INSUFFICIENT_MEMORY
  | HOXML_ERROR_UNEXPECTED_EOF
  | HOXML_ERROR_SYNTAX
  | HOXML_ERROR_ENCODING
  | HOXML_ERROR_TAG_MISMATCH
  | HOXML_ERROR_INVALID_DOCUMENT_TYPE_DECLARATION
  | HOXML_ERROR_INVALID_DOCUMENT_DECLARATION
  | HOXML_CODE_END_OF_DOCUMENT
  | HOXML_CODE_ELEMENT_BEGIN
  | HOXML_CODE_ELEMENT_END
  | HOXML_CODE_ATTRIBUTE
  | HOXML_CODE_PROCESSING_INSTRUCTION_BEGIN
  | HOXML_CODE_PROCESSING_INSTRUCTION_END
  deriving DecidableEq, Repr

open hoxml_code_t

/-- Numeric value of a code, as in the C enumeration. -/
def hoxml_code_t.toInt : hoxml_code_t → Int
  | HOXML_ERROR_INSUFFICIENT_MEMORY => -7
  | HOXML_ERROR_UNEXPECTED_EOF => -6
  | HOXML_ERROR_SYNTAX => -5
  | HOXML_ERROR_ENCODING => -4
  | HOXML_ERROR_TAG_MISMATCH => -3
  | HOXML_ERROR_INVALID_DOCUMENT_TYPE_DECLARATION => -2
  | HOXML_ERROR_INVALID_DOCUMENT_DECLARATION => -1
  | HOXML_CODE_END_OF_DOCUMENT => 0
  | HOXML_CODE_ELEMENT_BEGIN => 1
  | HOXML_CODE_ELEMENT_END => 2
  | HOXML_CODE_ATTRIBUTE => 3
  | HOXML_CODE_PROCESSING_INSTRUCTION_BEGIN => 4
  | HOXML_CODE_PROCESSING_INSTRUCTION_END => 5

/-- Character encodings (`hoxml_enc_t`), in the order of the C enumeration. -/
inductive hoxml_enc_t
  | HOXML_ENC_UNKNOWN
  | HOXML_ENC_UTF_8
  | HOXML_ENC_UTF_16_LE
  | HOXML_ENC_UTF_16_BE
  deriving DecidableEq, Repr

open hoxml_enc_t

/-- Numeric value of an encoding tag, as in the C enumeration. -/
def hoxml_enc_t.toNat : hoxml_enc_t → Nat
  | HOXML_ENC_UNKNOWN => 0
  | HOXML_ENC_UTF_8 => 1
  | HOXML_ENC_UTF_16_LE => 2
  | HOXML_ENC_UTF_16_BE => 3

/-- Case sensitivity selector of the string utilities (`hoxml_case_t`). -/
inductive hoxml_case_t
  | HOXML_CASE_SENSITIVE
  | HOXML_CASE_INSENSITIVE
  deriving DecidableEq, Repr

open hoxml_case_t

/-- Kind of reference being closed by `;` (`hoxml_ref_type_t`). -/
inductive hoxml_ref_type_t
  | HOXML_REF_TYPE_ENTITY
  | HOXML_REF_TYPE_NUMERIC
  | HOXML_REF_TYPE_HEX
  deriving DecidableEq, Repr

open hoxml_ref_type_t

/-- Parser states (`hoxml_state_t`), in the order of the C enumeration. -/
inductive hoxml_state_t
  | HOXML_STATE_ERROR_INSUFFICIENT_MEMORY
  | HOXML_STATE_ERROR_UNEXPECTED_EOF
  | HOXML_STATE_ERROR_SYNTAX
  | HOXML_STATE_ERROR_ENCODING
  | HOXML_STATE_ERROR_TAG_MISMATCH
  | HOXML_STATE_ERROR_INVALID_DOCUMENT_TYPE_DECLARATION
  | HOXML_STATE_ERROR_INVALID_DOCUMENT_DECLARATION
  | HOXML_STATE_NONE
  | HOXML_STATE_UTF8_BOM1
  | HOXML_STATE_UTF8_BOM2
  | HOXML_STATE_UTF16BE_BOM
  | HOXML_STATE_UTF16LE_BOM
  | HOXML_STATE_TAG_BEGIN
  | HOXML_STATE_TAG_END
  | HOXML_STATE_ELEMENT_NAME1
  | HOXML_STATE_ELEMENT_NAME2
  | HOXML_STATE_ATTRIBUTE_NAME1
  | HOXML_STATE_ATTRIBUTE_NAME2
  | HOXML_STATE_ATTRIBUTE_ASSIGNMENT
  | HOXML_STATE_ATTRIBUTE_VALUE
  | HOXML_STATE_OPEN_TAG
  | HOXML_STATE_COMMENT_CDATA_OR_DTD_BEGIN
  | HOXML_STATE_COMMENT_BEGIN
  | HOXML_STATE_COMMENT
  | HOXML_STATE_COMMENT_END1
  | HOXML_STATE_COMMENT_END2
  | HOXML_STATE_CDATA_BEGIN1
  | HOXML_STATE_CDATA_BEGIN2
  | HOXML_STATE_CDATA_BEGIN3
  | HOXML_STATE_CDATA_BEGIN4
  | HOXML_STATE_CDATA_BEGIN5
  | HOXML_STATE_CDATA_BEGIN6
  | HOXML_STATE_CDATA_CONTENT
  | HOXML_STATE_CDATA_END1
  | HOXML_STATE_CDATA_END2
  | HOXML_STATE_REFERENCE_BEGIN
  | HOXML_STATE_REFERENCE_ENTITY
  | HOXML_STATE_REFERENCE_NUMERIC
  | HOXML_STATE_REFERENCE_HEX
  | HOXML_STATE_PROCESSING_INSTRUCTION_BEGIN
  | HOXML_STATE_PROCESSING_INSTRUCTION_TARGET1
  | HOXML_STATE_PROCESSING_INSTRUCTION_TARGET2
  | HOXML_STATE_PROCESSING_INSTRUCTION_CONTENT
  | HOXML_STATE_PROCESSING_INSTRUCTION_END
  | HOXML_STATE_DTD_BEGIN1
  | HOXML_STATE_DTD_BEGIN2
  | HOXML_STATE_DTD_BEGIN3
  | HOXML_STATE_DTD_BEGIN4
  | HOXML_STATE_DTD_BEGIN5
  | HOXML_STATE_DTD_BEGIN6
  | HOXML_STATE_DTD_BEGIN7
  | HOXML_STATE_DTD_BEGIN8
  | HOXML_STATE_DTD_NAME
  | HOXML_STATE_DTD_CONTENT
  | HOXML_STATE_DTD_OPEN_BRACKET
  | HOXML_STATE_DONE
  | HOXML_POST_STATE_TAG_END
  | HOXML_POST_STATE_ATTRIBUTE_END
  deriving DecidableEq, Repr

open hoxml_state_t

/-- Numeric value of a state, as in the C enumeration (`int8_t`). -/
def hoxml_state_t.toInt : hoxml_state_t → Int
  | HOXML_STATE_ERROR_INSUFFICIENT_MEMORY => -7
  | HOXML_STATE_ERROR_UNEXPECTED_EOF => -6
  | HOXML_STATE_ERROR_SYNTAX => -5
  | HOXML_STATE_ERROR_ENCODING => -4
  | HOXML_STATE_ERROR_TAG_MISMATCH => -3
  | HOXML_STATE_ERROR_INVALID_DOCUMENT_TYPE_DECLARATION => -2
  | HOXML_STATE_ERROR_INVALID_DOCUMENT_DECLARATION => -1
  | HOXML_STATE_NONE => 0
  | HOXML_STATE_UTF8_BOM1 => 1
  | HOXML_STATE_UTF8_BOM2 => 2
  | HOXML_STATE_UTF16BE_BOM => 3
  | HOXML_STATE_UTF16LE_BOM => 4
  | HOXML_STATE_TAG_BEGIN => 5
  | HOXML_STATE_TAG_END => 6
  | HOXML_STATE_ELEMENT_NAME1 => 7
  | HOXML_STATE_ELEMENT_NAME2 => 8
  | HOXML_STATE_ATTRIBUTE_NAME1 => 9
  | HOXML_STATE_ATTRIBUTE_NAME2 => 10
  | HOXML_STATE_ATTRIBUTE_ASSIGNMENT => 11
  | HOXML_STATE_ATTRIBUTE_VALUE => 12
  | HOXML_STATE_OPEN_TAG => 13
  | HOXML_STATE_COMMENT_CDATA_OR_DTD_BEGIN => 14
  | HOXML_STATE_COMMENT_BEGIN => 15
  | HOXML_STATE_COMMENT => 16
  | HOXML_STATE_COMMENT_END1 => 17
  | HOXML_STATE_COMMENT_END2 => 18
  | HOXML_STATE_CDATA_BEGIN1 => 19
  | HOXML_STATE_CDATA_BEGIN2 => 20
  | HOXML_STATE_CDATA_BEGIN3 => 21
  | HOXML_STATE_CDATA_BEGIN4 => 22
  | HOXML_STATE_CDATA_BEGIN5 => 23
  | HOXML_STATE_CDATA_BEGIN6 => 24
  | HOXML_STATE_CDATA_CONTENT => 25
  | HOXML_STATE_CDATA_END1 => 26
  | HOXML_STATE_CDATA_END2 => 27
  | HOXML_STATE_REFERENCE_BEGIN => 28
  | HOXML_STATE_REFERENCE_ENTITY => 29
  | HOXML_STATE_REFERENCE_NUMERIC => 30
  | HOXML_STATE_REFERENCE_HEX => 31
  | HOXML_STATE_PROCESSING_INSTRUCTION_BEGIN => 32
  | HOXML_STATE_PROCESSING_INSTRUCTION_TARGET1 => 33
  | HOXML_STATE_PROCESSING_INSTRUCTION_TARGET2 => 34
  | HOXML_STATE_PROCESSING_INSTRUCTION_CONTENT => 35
  | HOXML_STATE_PROCESSING_INSTRUCTION_END => 36
  | HOXML_STATE_DTD_BEGIN1 => 37
  | HOXML_STATE_DTD_BEGIN2 => 38
  | HOXML_STATE_DTD_BEGIN3 => 39
  | HOXML_STATE_DTD_BEGIN4 => 40
  | HOXML_STATE_DTD_BEGIN5 => 41
  | HOXML_STATE_DTD_BEGIN6 => 42
  | HOXML_STATE_DTD_BEGIN7 => 43
  | HOXML_STATE_DTD_BEGIN8 => 44
  | HOXML_STATE_DTD_NAME => 45
  | HOXML_STATE_DTD_CONTENT => 46
  | HOXML_STATE_DTD_OPEN_BRACKET => 47
  | HOXML_STATE_DONE => 48
  | HOXML_POST_STATE_TAG_END => 49
  | HOXML_POST_STATE_ATTRIBUTE_END => 50

/-- The test `state >= HOXML_STATE_NONE` used after every buffer write. -/
def hoxml_state_t.ge_none (s : hoxml_state_t) : Bool := decide (0 ≤ s.toInt)

/-- The loop condition `state >= HOXML_STATE_NONE && state <= HOXML_STATE_DONE`. -/
def hoxml_state_t.in_loop (s : hoxml_state_t) : Bool :=
  decide (0 ≤ s.toInt) && decide (s.toInt ≤ 48)

/-! Node flags (`enum hoxml_node_flags`). -/

def HOXML_FLAG_END_TAG : Nat := 0x01
def HOXML_FLAG_EMPTY_ELEMENT : Nat := 0x02
def HOXML_FLAG_PROCESSING_INSTRUCTION : Nat := 0x04
def HOXML_FLAG_DOUBLE_QUOTE : Nat := 0x08
def HOXML_FLAG_TERMINATED : Nat := 0x10
def HOXML_FLAG_BEGUN : Nat := 0x20

/-- The value of `sizeof(hoxml_node_t)` on LP64. -/
def HOXML_SIZEOF_NODE : Nat := 24
/-- The value of `offsetof(hoxml_node_t, end)` on LP64. -/
def HOXML_NODE_END : Nat := 8
/-- The value of `offsetof(hoxml_node_t, flags)` on LP64. -/
def HOXML_NODE_FLAGS : Nat := 16
/-- The value of `offsetof(hoxml_node_t, tag)` on LP64. -/
def HOXML_NODE_TAG : Nat := 17

def UINT32_MAX : Nat := 0xFFFFFFFF

/-- A decoded or encoded character (`hoxml_char_t`); `encoded` is the `uint32_t` whose
bytes in memory order (little-endian) are the bytes of the character. -/
structure hoxml_char_t where
  encoded : Nat
  decoded : Nat
  bytes : Nat
  deriving DecidableEq, Repr

/-- The parser context (`hoxml_context_t`).  The fields up to `xml_length` are those of the
C structure (`attribute_` is the field `attribute`, a reserved word here); `mem` is the
content of the scratch buffer at address `buffer`, and `fault` is the ghost flag described
in the header. -/
structure hoxml_context_t where
  tag : Nat
  attribute_ : Nat
  value : Nat
  content : Nat
  line : Nat
  column : Nat
  xml : Nat
  iterator : Nat
  buffer : Nat
  ref_start : Nat
  stack : Nat
  encoding : hoxml_enc_t
  state : hoxml_state_t
  post_state : hoxml_state_t
  return_state : hoxml_state_t
  err_return_state : hoxml_state_t
  stream_length : Nat
  stream : Nat
  buffer_length : Nat
  xml_length : Nat
  mem : List Nat
  fault : Bool
  deriving DecidableEq, Repr

/-! ## Machine-level helpers -/

/-- Byte `i` (memory order, little-endian) of the 32-bit word `w`. -/
def u32_byte (w i : Nat) : Nat := w / 256 ^ i % 256

/-- The four bytes of a 32-bit word in memory order. -/
def u32_bytes (w : Nat) : List Nat := [u32_byte w 0, u32_byte w 1, u32_byte w 2, u32_byte w 3]

/-- The 32-bit word read by `*(uint32_t*)str` (bytes missing from the view read as 0). -/
def load_u32 (str : List Nat) : Nat :=
  str.getD 0 0 + 256 * str.getD 1 0 + 65536 * str.getD 2 0 + 16777216 * str.getD 3 0

/-- The assignment `((uint8_t*)&w)[i] = b`. -/
def set_byte (w i b : Nat) : Nat := w - u32_byte w i * 256 ^ i + (b % 256) * 256 ^ i

/-- The bytes of a 64-bit pointer in memory order. -/
def ptr_bytes (p : Nat) : List Nat :=
  [p % 256, p / 2 ^ 8 % 256, p / 2 ^ 16 % 256, p / 2 ^ 24 % 256,
   p / 2 ^ 32 % 256, p / 2 ^ 40 % 256, p / 2 ^ 48 % 256, p / 2 ^ 56 % 256]

/-- The value of `str[i]` for `const char* str` after integer promotion, as the 32-bit
two's-complement pattern of the resulting `int`. -/
def char_at (sc : Bool) (str : List Nat) (i : Nat) : Nat :=
  let b := str.getD i 0
  if sc && decide (128 ≤ b) then 0xFFFFFF00 + b else b

/-- Arithmetic right shift of a 32-bit two's-complement `int`. -/
def asr32 (x k : Nat) : Nat :=
  if x < 2 ^ 31 then x >>> k else (x >>> k) + 2 ^ 32 - 2 ^ (32 - k)

/-- Left shift of a `uint32_t`. -/
def shl32 (x k : Nat) : Nat := (x <<< k) % 2 ^ 32

/-! ## Character classes (the `HOXML_IS_*` macros) -/

def HOXML_TO_LOWER (c : Nat) : Nat := if 0x41 ≤ c ∧ c ≤ 0x5A then c + 32 else c
def HOXML_IS_NEW_LINE (c : Nat) : Bool := c == 0x0A || c == 0x0D
def HOXML_IS_WHITESPACE (c : Nat) : Bool := c == 0x20 || c == 0x09 || HOXML_IS_NEW_LINE c
def HOXML_IS_ASCII_CHAR (c : Nat) : Bool := decide (0x21 ≤ c) && decide (c ≤ 0x7F)
def HOXML_IS_CHAR_DATA (c : Nat) : Bool := c != 0x3C && c != 0x26
def HOXML_IS_ALPHA (c : Nat) : Bool :=
  (decide (0x61 ≤ c) && decide (c ≤ 0x7A)) || (decide (0x41 ≤ c) && decide (c ≤ 0x5A))
def HOXML_IS_NUMERIC (c : Nat) : Bool := decide (0x30 ≤ c) && decide (c ≤ 0x39)
def HOXML_IS_NAME_START_CHAR (c : Nat) : Bool :=
  HOXML_IS_ALPHA c || c == 0x3A || c == 0x5F || (decide (0xC0 ≤ c) && decide (c ≤ 0xD6)) ||
    (decide (0xD8 ≤ c) && decide (c ≤ 0xF6)) || decide (0xF8 ≤ c)
def HOXML_IS_NAME_CHAR (c : Nat) : Bool :=
  HOXML_IS_NAME_START_CHAR c || c == 0x2D || c == 0x2E || HOXML_IS_NUMERIC c
def HOXML_IS_HEX_CHAR (c : Nat) : Bool :=
  HOXML_IS_NUMERIC c || (decide (0x61 ≤ c) && decide (c ≤ 0x66)) ||
    (decide (0x41 ≤ c) && decide (c ≤ 0x46))
def HOXML_IS_VALUE_CHAR_DATA (f c : Nat) : Bool :=
  HOXML_IS_CHAR_DATA c && (((f &&& HOXML_FLAG_DOUBLE_QUOTE != 0) && c != 0x22) || c != 0x27)

/-! ## Codec -/

/-- Embedding of `hoxml_dec_char`: `str` is the memory starting at the pointer. -/
def hoxml_dec_char (sc : Bool) (str : List Nat) (str_length : Nat) (enc : hoxml_enc_t) :
    hoxml_char_t :=
  let s := char_at sc str
  let bytes : Nat :=
    match enc with
    | HOXML_ENC_UNKNOWN => 1
    | HOXML_ENC_UTF_8 =>
      if asr32 (s 0) 7 &&& 0x01 = 0x00 then 1
      else if asr32 (s 0) 5 &&& 0x07 = 0x06 then 2
      else if asr32 (s 0) 4 &&& 0x0F = 0x0E then 3
      else if asr32 (s 0) 3 &&& 0x1F = 0x1E then 4
      else 0
    | HOXML_ENC_UTF_16_BE =>
      if asr32 (s 0) 2 &&& 0x3F = 0x36 ∧ asr32 (s 2) 2 &&& 0x3F = 0x37 then 4 else 2
    | HOXML_ENC_UTF_16_LE =>
      if asr32 (s 1) 2 &&& 0x3F = 0x36 ∧ asr32 (s 3) 2 &&& 0x3F = 0x37 then 4 else 2
  if bytes > str_length then
    { encoded := 0, decoded := UINT32_MAX, bytes := 0 }
  else
    let decoded : Nat :=
      match enc with
      | HOXML_ENC_UNKNOWN => s 0 &&& 0x000000FF
      | HOXML_ENC_UTF_8 =>
        if bytes = 1 then s 0 &&& 0x7F
        else if bytes = 2 then shl32 (s 0 &&& 0x1F) 6 ||| (s 1 &&& 0x3F)
        else if bytes = 3 then
          shl32 (s 0 &&& 0x0F) 12 ||| shl32 (s 1 &&& 0x3F) 6 ||| (s 2 &&& 0x3F)
        else if bytes = 4 then
          shl32 (s 0 &&& 0x07) 18 ||| shl32 (s 1 &&& 0x3F) 12 ||| shl32 (s 2 &&& 0x3F) 6 |||
            (s 3 &&& 0x3F)
        else 0
      | HOXML_ENC_UTF_16_BE =>
        if bytes = 2 then shl32 (s 0) 8 ||| s 1
        else if bytes = 4 then
          ((shl32 (s 0 &&& 0x03) 18 ||| shl32 (s 1) 16 ||| shl32 (s 2 &&& 0x03) 8 ||| s 3) +
            0x00010000) % 2 ^ 32
        else 0
      | HOXML_ENC_UTF_16_LE =>
        if bytes = 2 then shl32 (s 1) 8 ||| s 0
        else if bytes = 4 then
          ((shl32 (s 1 &&& 0x03) 18 ||| shl32 (s 0) 16 ||| shl32 (s 3 &&& 0x03) 8 ||| s 2) +
            0x00010000) % 2 ^ 32
        else 0
    let encoded : Nat :=
      if bytes = 1 then load_u32 str &&& 0x000000FF
      else if bytes = 2 then load_u32 str &&& 0x0000FFFF
      else if bytes = 3 then load_u32 str &&& 0x00FFFFFF
      else if bytes = 4 then load_u32 str
      else 0
    { encoded := encoded, decoded := decoded, bytes := bytes }

/-- The first `switch` of `hoxml_dec_char`: the byte count determined from the first bytes
of `str`, before it is compared with `str_length`. -/
def hoxml_dec_char_bytes (sc : Bool) (str : List Nat) (enc : hoxml_enc_t) : Nat :=
  let s := char_at sc str
  match enc with
  | HOXML_ENC_UNKNOWN => 1
  | HOXML_ENC_UTF_8 =>
    if asr32 (s 0) 7 &&& 0x01 = 0x00 then 1
    else if asr32 (s 0) 5 &&& 0x07 = 0x06 then 2
    else if asr32 (s 0) 4 &&& 0x0F = 0x0E then 3
    else if asr32 (s 0) 3 &&& 0x1F = 0x1E then 4
    else 0
  | HOXML_ENC_UTF_16_BE =>
    if asr32 (s 0) 2 &&& 0x3F = 0x36 ∧ asr32 (s 2) 2 &&& 0x3F = 0x37 then 4 else 2
  | HOXML_ENC_UTF_16_LE =>
    if asr32 (s 1) 2 &&& 0x3F = 0x36 ∧ asr32 (s 3) 2 &&& 0x3F = 0x37 then 4 else 2

/-- Embedding of `hoxml_enc_char` (`value` is a `uint32_t`). -/
def hoxml_enc_char (value : Nat) (enc : hoxml_enc_t) : hoxml_char_t :=
  match enc with
  | HOXML_ENC_UNKNOWN | HOXML_ENC_UTF_8 =>
    if value ≤ 0x0000007F then
      { encoded := value, decoded := value, bytes := 1 }
    else if 0x000080 ≤ value ∧ value ≤ 0x000007FF then
      let e := set_byte 0 0 (0xC0 ||| ((value &&& 0x0000007C0) >>> 6) % 256)
      let e := set_byte e 1 (0x80 ||| (value &&& 0x0000000FF) % 256)
      { encoded := e, decoded := value, bytes := 2 }
    else if (0x00000800 ≤ value ∧ value ≤ 0x0000D7FF) ∨
        (0x0000E000 ≤ value ∧ value ≤ 0x0000FFFF) then
      let e := set_byte 0 0 (0xE0 ||| ((value &&& 0x0000F000) >>> 12) % 256)
      let e := set_byte e 1 (0x80 ||| ((value &&& 0x00000FC0) >>> 6) % 256)
      let e := set_byte e 2 (0x80 ||| (value &&& 0x0000003F) % 256)
      { encoded := e, decoded := value, bytes := 3 }
    else if 0x00010000 ≤ value ∧ value ≤ 0x0010FFFF then
      let e := set_byte 0 0 (0xF0 ||| ((value &&& 0x001C0000) >>> 18) % 256)
      let e := set_byte e 1 (0x80 ||| ((value &&& 0x0003F000) >>> 12) % 256)
      let e := set_byte e 2 (0x80 ||| ((value &&& 0x00000FC0) >>> 6) % 256)
      let e := set_byte e 3 (0x80 ||| (value &&& 0x0000003F) % 256)
      { encoded := e, decoded := value, bytes := 4 }
    else
      { encoded := 0, decoded := value, bytes := 0 }
  | HOXML_ENC_UTF_16_BE =>
    if value ≤ 0x0000D7FF ∨ (0x0000E000 ≤ value ∧ value ≤ 0x0000FFFF) then
      let e := set_byte 0 0 (((value &&& 0x0000FF00) >>> 8) % 256)
      let e := set_byte e 1 ((value &&& 0x000000FF) % 256)
      { encoded := e, decoded := value, bytes := 2 }
    else if 0x00010000 ≤ value ∧ value ≤ 0x0010FFFF then
      let v := value - 0x00010000
      let e := set_byte 0 0 (0xD8 ||| ((v &&& 0x000C0000) >>> 20) % 256)
      let e := set_byte e 1 (((v &&& 0x0003FC00) >>> 18) % 256)
      let e := set_byte e 2 (0xDC ||| ((v &&& 0x00000300) >>> 8) % 256)
      let e := set_byte e 3 ((v &&& 0x000000FF) % 256)
      { encoded := e, decoded := value, bytes := 4 }
    else
      { encoded := 0, decoded := value, bytes := 0 }
  | HOXML_ENC_UTF_16_LE =>
    if value ≤ 0x0000D7FF ∨ (0x0000E000 ≤ value ∧ value ≤ 0x0000FFFF) then
      let e := set_byte 0 1 (((value &&& 0x0000FF00) >>> 8) % 256)
      let e := set_byte e 0 ((value &&& 0x000000FF) % 256)
      { encoded := e, decoded := value, bytes := 2 }
    else if 0x00010000 ≤ value ∧ value ≤ 0x0010FFFF then
      let v := value - 0x00010000
      let e := set_byte 0 3 (0xD8 ||| ((v &&& 0x000C0000) >>> 20) % 256)
      let e := set_byte e 2 (((v &&& 0x0003FC00) >>> 18) % 256)
      let e := set_byte e 1 (0xDC ||| ((v &&& 0x00000300) >>> 8) % 256)
      let e := set_byte e 0 ((v &&& 0x000000FF) % 256)
      { encoded := e, decoded := value, bytes := 4 }
    else
      { encoded := 0, decoded := value, bytes := 0 }

/-! ## The scratch buffer -/

/-- Whether the `n` bytes at address `a` lie inside the scratch buffer. -/
def in_buffer (c : hoxml_context_t) (a n : Nat) : Bool :=
  decide (c.buffer ≤ a) && decide (a - c.buffer + n ≤ c.mem.length)

/-- Records a dereference of the `n` bytes at address `a`. -/
def touch (c : hoxml_context_t) (a n : Nat) : hoxml_context_t :=
  if in_buffer c a n then c else { c with fault := true }

/-- The byte at address `a`. -/
def rd8 (c : hoxml_context_t) (a : Nat) : Nat :=
  if c.buffer ≤ a then c.mem.getD (a - c.buffer) 0 else 0

/-- The memory from address `a` to the end of the scratch buffer, as a string function sees
it through a `char*`. -/
def mem_at (c : hoxml_context_t) (a : Nat) : List Nat :=
  if c.buffer ≤ a then c.mem.drop (a - c.buffer) else []

/-- The 64-bit little-endian word stored in `m` from index `k` on. -/
def ptr_at (m : List Nat) (k : Nat) : Nat :=
  m.getD k 0 + 2 ^ 8 * m.getD (k + 1) 0 + 2 ^ 16 * m.getD (k + 2) 0 + 2 ^ 24 * m.getD (k + 3) 0 +
    2 ^ 32 * m.getD (k + 4) 0 + 2 ^ 40 * m.getD (k + 5) 0 + 2 ^ 48 * m.getD (k + 6) 0 +
    2 ^ 56 * m.getD (k + 7) 0

/-- The pointer stored at address `a`. -/
def rd_ptr (c : hoxml_context_t) (a : Nat) : Nat :=
  if c.buffer ≤ a then ptr_at c.mem (a - c.buffer) else 0

/-- The list `m` with the bytes `bs` stored from index `k` on. -/
def splice (m : List Nat) (k : Nat) (bs : List Nat) : List Nat :=
  m.take k ++ bs ++ m.drop (k + bs.length)

/-- Stores the bytes `bs` at address `a` (`memcpy` into the scratch buffer). -/
def wr_bytes (c : hoxml_context_t) (a : Nat) (bs : List Nat) : hoxml_context_t :=
  if in_buffer c a bs.length then { c with mem := splice c.mem (a - c.buffer) bs }
  else { c with fault := true }

/-- The call `memset(a, 0, n)` on the scratch buffer. -/
def memset0 (c : hoxml_context_t) (a n : Nat) : hoxml_context_t :=
  if in_buffer c a n then { c with mem := splice c.mem (a - c.buffer) (List.replicate n 0) }
  else { c with fault := true }

/-- Stores the pointer `p` at address `a`. -/
def wr_ptr (c : hoxml_context_t) (a p : Nat) : hoxml_context_t := wr_bytes c a (ptr_bytes p)

/-- The field `node->parent`. -/
def node_parent (c : hoxml_context_t) (node : Nat) : Nat := rd_ptr c node
/-- The field `node->end`. -/
def node_end (c : hoxml_context_t) (node : Nat) : Nat := rd_ptr c (node + HOXML_NODE_END)
/-- The field `node->flags`. -/
def node_flags (c : hoxml_context_t) (node : Nat) : Nat := rd8 c (node + HOXML_NODE_FLAGS)
/-- The assignment `node->end = p`. -/
def set_node_end (c : hoxml_context_t) (node p : Nat) : hoxml_context_t :=
  wr_ptr c (node + HOXML_NODE_END) p
/-- The assignment `node->flags = f`. -/
def set_node_flags (c : hoxml_context_t) (node f : Nat) : hoxml_context_t :=
  wr_bytes c (node + HOXML_NODE_FLAGS) [f % 256]

/-- The C string at address `a`: the bytes before the first zero byte. -/
def cstr (c : hoxml_context_t) (a : Nat) : List Nat := (mem_at c a).takeWhile (fun b => b != 0)

/-- The size in bytes of a terminator, `encoding >= HOXML_ENC_UTF_16_BE ? 2 : 1`. -/
def terminator_bytes (enc : hoxml_enc_t) : Nat := if 3 ≤ enc.toNat then 2 else 1

/-! ## Public API: init and realloc -/

/-- Embedding of `hoxml_init`. -/
def hoxml_init (buffer buffer_length : Nat) : hoxml_context_t :=
  { tag := 0, attribute_ := 0, value := 0, content := 0, line := 1, column := 0,
    xml := 0, iterator := 0, buffer := buffer, ref_start := 0, stack := 0,
    encoding := HOXML_ENC_UNKNOWN, state := HOXML_STATE_NONE, post_state := HOXML_STATE_NONE,
    return_state := HOXML_STATE_NONE, err_return_state := HOXML_STATE_NONE,
    stream_length := 0, stream := 0, buffer_length := buffer_length, xml_length := 0,
    mem := List.replicate buffer_length 0, fault := false }

/-- The pointer `p - n`, modulo `2^64`. -/
def ptr_sub (p n : Nat) : Nat := (p + 2 ^ 64 - n) % 2 ^ 64

/-- Rebasing of a pointer, `buffer + (p - context->buffer)`, in 64-bit arithmetic. -/
def rebase (c : hoxml_context_t) (buffer p : Nat) : Nat := (buffer + p + 2 ^ 64 - c.buffer) % 2 ^ 64

/-- The body of the `while (node != NULL)` loop of `hoxml_realloc` for the frame `node`:
rewrites its `end` and `parent` pointers, in the old buffer. -/
def hoxml_realloc_node (buffer : Nat) (c : hoxml_context_t) (node : Nat) : hoxml_context_t :=
  let c := touch c node HOXML_NODE_TAG
  let c := set_node_end c node (rebase c buffer (node_end c node))
  if node_parent c node ≠ 0 then wr_ptr c node (rebase c buffer (node_parent c node)) else c

/-- The `while (node != NULL)` loop of `hoxml_realloc`, from the head frame to the root;
the next frame is the `parent` read before the frame is rewritten.  `none` when the fuel
does not suffice. -/
def hoxml_realloc_walk (buffer : Nat) : Nat → hoxml_context_t → Nat → Option hoxml_context_t
  | 0, _, _ => none
  | fuel + 1, c, node =>
    if node = 0 then some c
    else hoxml_realloc_walk buffer fuel (hoxml_realloc_node buffer c node) (node_parent c node)

/-- The part of `hoxml_realloc` after the loop.  Each of its statements assigns one field
and reads only that field, the old buffer address and the old length, so the statements
are rendered as one update: the public pointers, `ref_start` and `stack` are rebased
unless `NULL`; the new buffer is zeroed and receives the `buffer_length` bytes of the old
one; the new address and length are installed; the insufficient-memory state is replaced
by `err_return_state`, which is then reset. -/
def hoxml_realloc_finish (c : hoxml_context_t) (buffer buffer_length : Nat) : hoxml_context_t :=
  { c with
    tag := if c.tag ≠ 0 then rebase c buffer c.tag else c.tag
    attribute_ := if c.attribute_ ≠ 0 then rebase c buffer c.attribute_ else c.attribute_
    value := if c.value ≠ 0 then rebase c buffer c.value else c.value
    content := if c.content ≠ 0 then rebase c buffer c.content else c.content
    ref_start := if c.ref_start ≠ 0 then rebase c buffer c.ref_start else c.ref_start
    stack := if c.stack ≠ 0 then rebase c buffer c.stack else c.stack
    mem := (c.mem.take c.buffer_length ++ List.replicate buffer_length 0).take buffer_length
    buffer := buffer
    buffer_length := buffer_length
    state := if c.state = HOXML_STATE_ERROR_INSUFFICIENT_MEMORY then c.err_return_state
      else c.state
    err_return_state := if c.state = HOXML_STATE_ERROR_INSUFFICIENT_MEMORY then HOXML_STATE_NONE
      else c.err_return_state }

/-- Embedding of `hoxml_realloc`; `buffer` is the address of the new buffer.  The walk over
the frames gets `mem.length + 1` units of fuel, one more than a stack of distinct frames
inside the buffer can have; the result is `none` if the walk does not end. -/
def hoxml_realloc (c : hoxml_context_t) (buffer buffer_length : Nat) : Option hoxml_context_t :=
  if buffer_length ≤ c.buffer_length then some c
  else
    match hoxml_realloc_walk buffer (c.mem.length + 1) c c.stack with
    | none => none
    | some c => some (hoxml_realloc_finish c buffer buffer_length)

/-! ## String utilities -/

/-- The loop of `hoxml_strcmp`; `it1` and `it2` are the memory at the two iterators. -/
def hoxml_strcmp_loop (sc : Bool) (enc1 enc2 : hoxml_enc_t) (sensitivity : hoxml_case_t) :
    Nat → List Nat → List Nat → Nat
  | 0, _, _ => 0
  | fuel + 1, it1, it2 =>
    let c1 := hoxml_dec_char sc it1 65535 enc1
    let c2 := hoxml_dec_char sc it2 65535 enc2
    if c1.decoded ≠ 0 ∧ c2.decoded ≠ 0 then
      if (sensitivity = HOXML_CASE_INSENSITIVE ∧
            HOXML_TO_LOWER c1.decoded ≠ HOXML_TO_LOWER c2.decoded) ∨
          (sensitivity = HOXML_CASE_SENSITIVE ∧ c1.decoded ≠ c2.decoded) then 0
      else hoxml_strcmp_loop sc enc1 enc2 sensitivity fuel (it1.drop c1.bytes) (it2.drop c2.bytes)
    else if it2.getD 0 0 = 0 then 1 else 0

/-- Embedding of `hoxml_strcmp`.  Every iteration of the loop consumes at least one byte of
`str1`, so `str1.length + 1` iterations always suffice. -/
def hoxml_strcmp (sc : Bool) (str1 : List Nat) (enc1 : hoxml_enc_t) (str2 : List Nat)
    (enc2 : hoxml_enc_t) (sensitivity : hoxml_case_t) : Nat :=
  hoxml_strcmp_loop sc enc1 enc2 sensitivity (str1.length + 1) str1 str2

/-- The loop of `hoxml_strlen`: the iterator advances by one byte per iteration. -/
def hoxml_strlen_loop (sc : Bool) (enc : hoxml_enc_t) : Nat → List Nat → Nat → Nat
  | 0, _, len => len
  | fuel + 1, it, len =>
    let c := hoxml_dec_char sc it 65535 enc
    if c.decoded ≠ 0 then hoxml_strlen_loop sc enc fuel (it.drop 1) ((len + 1) % 2 ^ 32) else len

/-- Embedding of `hoxml_strlen`. -/
def hoxml_strlen (sc : Bool) (str : List Nat) (enc : hoxml_enc_t) : Nat :=
  hoxml_strlen_loop sc enc (str.length + 1) str 0

/-- The loop of `hoxml_strstr`; `off` is `it_haystack - haystack`. -/
def hoxml_strstr_loop (sc : Bool) (enc_haystack : hoxml_enc_t) (needle : List Nat)
    (enc_needle : hoxml_enc_t) (sensitivity : hoxml_case_t) : Nat → List Nat → Nat → Option Nat
  | 0, _, _ => none
  | fuel + 1, it, off =>
    let c := hoxml_dec_char sc it 65535 enc_haystack
    let cn := hoxml_dec_char sc needle 65535 enc_needle
    if c.decoded ≠ 0 then
      if c.decoded = cn.decoded ∧
          hoxml_strcmp sc it enc_haystack needle enc_needle sensitivity ≠ 0 then some off
      else hoxml_strstr_loop sc enc_haystack needle enc_needle sensitivity fuel (it.drop c.bytes)
        (off + c.bytes)
    else none

/-- Embedding of `hoxml_strstr`: the offset of the match from `haystack`, or `none` for
`NULL`. -/
def hoxml_strstr (sc : Bool) (haystack : List Nat) (enc_haystack : hoxml_enc_t)
    (needle : List Nat) (enc_needle : hoxml_enc_t) (sensitivity : hoxml_case_t) : Option Nat :=
  hoxml_strstr_loop sc enc_haystack needle enc_needle sensitivity (haystack.length + 1) haystack 0

/-- The loop of `hoxml_to_ascii`; `ascii` is the part of the static array filled so far. -/
def hoxml_to_ascii_loop (sc : Bool) (enc : hoxml_enc_t) : Nat → List Nat → List Nat → List Nat
  | 0, _, ascii => ascii
  | fuel + 1, it, ascii =>
    let c := hoxml_dec_char sc it 65535 enc
    if c.decoded ≠ 0 then
      hoxml_to_ascii_loop sc enc fuel (it.drop c.bytes) (ascii ++ [c.decoded % 256])
    else ascii

/-- Embedding of `hoxml_to_ascii`: the characters stored in the 16-byte static array. -/
def hoxml_to_ascii (sc : Bool) (str : List Nat) (enc : hoxml_enc_t) : List Nat :=
  hoxml_to_ascii_loop sc enc 16 str []

/-- The value of the character `d` as a digit, if it is one. -/
def digit_value (d : Nat) : Option Nat :=
  if 0x30 ≤ d ∧ d ≤ 0x39 then some (d - 0x30)
  else if 0x61 ≤ d ∧ d ≤ 0x7A then some (d - 0x61 + 10)
  else if 0x41 ≤ d ∧ d ≤ 0x5A then some (d - 0x41 + 10)
  else none

/-- Accumulation of the digits of `strtoul`, saturating at `ULONG_MAX`. -/
def strtoul_digits (base : Nat) : List Nat → Nat → Nat
  | [], acc => acc
  | d :: ds, acc =>
    match digit_value d with
    | some v => if v < base then strtoul_digits base ds (min (acc * base + v) (2 ^ 64 - 1)) else acc
    | none => acc

/-- The white-space characters of `isspace` in the C locale. -/
def c_isspace (d : Nat) : Bool := d == 0x20 || (decide (0x09 ≤ d) && decide (d ≤ 0x0D))

/-- Whether `d` is a digit of the given base. -/
def is_digit_of (base d : Nat) : Bool :=
  match digit_value d with
  | some v => decide (v < base)
  | none => false

/-- The C library function `strtoul(s, NULL, base)` on LP64 (`s` without its terminator):
leading white space, an optional sign, for base 16 an optional `0x`, then the longest run
of digits; `ULONG_MAX` on overflow, `0` when there is no digit, negated modulo `2^64`
after a minus sign. -/
def strtoul (s : List Nat) (base : Nat) : Nat :=
  let s := s.dropWhile c_isspace
  let neg := s.head? == some 0x2D
  let s := if s.head? == some 0x2D || s.head? == some 0x2B then s.drop 1 else s
  let s := if base = 16 ∧ s.head? = some 0x30 ∧ ((s.drop 1).head? = some 0x78 ∨ (s.drop 1).head? = some 0x58) ∧
      ((s.drop 2).head?.map (is_digit_of 16) = some true) then s.drop 2 else s
  let v := strtoul_digits base s 0
  if neg ∧ v < 2 ^ 64 - 1 then (2 ^ 64 - v) % 2 ^ 64 else v

/-! String literals of the source, as bytes. -/

def lit_xml : List Nat := [0x78, 0x6D, 0x6C]
def lit_lt : List Nat := [0x6C, 0x74]
def lit_gt : List Nat := [0x67, 0x74]
def lit_amp : List Nat := [0x61, 0x6D, 0x70]
def lit_apos : List Nat := [0x61, 0x70, 0x6F, 0x73]
def lit_quot : List Nat := [0x71, 0x75, 0x6F, 0x74]
def lit_encoding_eq : List Nat := [0x65, 0x6E, 0x63, 0x6F, 0x64, 0x69, 0x6E, 0x67, 0x3D]
def lit_dquote : List Nat := [0x22]
def lit_squote : List Nat := [0x27]
def lit_dq_utf8 : List Nat := [0x22, 0x55, 0x54, 0x46, 0x2D, 0x38, 0x22]
def lit_sq_utf8 : List Nat := [0x27, 0x55, 0x54, 0x46, 0x2D, 0x38, 0x27]
def lit_dq_utf16 : List Nat := [0x22, 0x55, 0x54, 0x46, 0x2D, 0x31, 0x36, 0x22]
def lit_sq_utf16 : List Nat := [0x27, 0x55, 0x54, 0x46, 0x2D, 0x31, 0x36, 0x27]

/-! ## Buffer/stack manager -/

/-- Embedding of `hoxml_push_stack`. -/
def hoxml_push_stack (c : hoxml_context_t) : hoxml_context_t :=
  let c := if c.stack ≠ 0 then touch c c.stack HOXML_NODE_TAG else c
  if (c.stack = 0 ∧ HOXML_SIZEOF_NODE ≥ c.buffer_length) ∨
      (c.stack ≠ 0 ∧
        node_end c c.stack + 1 + HOXML_SIZEOF_NODE ≥ c.buffer + c.buffer_length) then
    { c with err_return_state := c.state, state := HOXML_STATE_ERROR_INSUFFICIENT_MEMORY }
  else
    let node := if c.stack = 0 then c.buffer else node_end c c.stack + 1
    let c := if node ≠ 0 then
        set_node_end (wr_ptr c node c.stack) node (node + HOXML_NODE_TAG - 1)
      else c
    { c with stack := node }

/-- Embedding of `hoxml_pop_stack`. -/
def hoxml_pop_stack (c : hoxml_context_t) : hoxml_context_t :=
  let node := c.stack
  if node ≠ 0 then
    let c := touch c node HOXML_NODE_TAG
    let c := { c with tag := 0, attribute_ := 0, value := 0, content := 0 }
    let c := { c with stack := node_parent c node }
    memset0 c node (ptr_sub (node_end c node) node)
  else c

/-- Embedding of `hoxml_append_char`. -/
def hoxml_append_char (c : hoxml_context_t) (ch : hoxml_char_t) : hoxml_context_t :=
  let c := touch c c.stack HOXML_NODE_TAG
  let c := set_node_flags c c.stack (node_flags c c.stack &&& (0xFF ^^^ HOXML_FLAG_TERMINATED))
  if node_end c c.stack + ch.bytes ≥ c.buffer + c.buffer_length then
    { c with err_return_state := c.state, state := HOXML_STATE_ERROR_INSUFFICIENT_MEMORY }
  else
    let c := wr_bytes c (node_end c c.stack + 1) ((u32_bytes ch.encoded).take ch.bytes)
    set_node_end c c.stack (node_end c c.stack + ch.bytes)

/-- Embedding of `hoxml_append_terminator`. -/
def hoxml_append_terminator (c : hoxml_context_t) : hoxml_context_t :=
  let c := touch c c.stack HOXML_NODE_TAG
  if node_flags c c.stack &&& HOXML_FLAG_TERMINATED ≠ 0 then c
  else
    let c := set_node_flags c c.stack (node_flags c c.stack ||| HOXML_FLAG_TERMINATED)
    let bytes := terminator_bytes c.encoding
    if node_end c c.stack + bytes ≥ c.buffer + c.buffer_length then
      { c with err_return_state := c.state, state := HOXML_STATE_ERROR_INSUFFICIENT_MEMORY }
    else
      let c := memset0 c (node_end c c.stack + 1) bytes
      set_node_end c c.stack (node_end c c.stack + bytes)

/-- Embedding of `hoxml_end_ref`. -/
def hoxml_end_ref (sc : Bool) (c : hoxml_context_t) (type : hoxml_ref_type_t) :
    hoxml_context_t :=
  let c := touch c c.ref_start 1
  let r := mem_at c c.ref_start
  let enc := c.encoding
  let zero : hoxml_char_t := { encoded := 0, decoded := 0, bytes := 0 }
  let syn : hoxml_context_t := { c with state := HOXML_STATE_ERROR_SYNTAX }
  let p : hoxml_context_t × hoxml_char_t :=
    match type with
    | HOXML_REF_TYPE_ENTITY =>
      if hoxml_strcmp sc r enc lit_lt HOXML_ENC_UNKNOWN HOXML_CASE_SENSITIVE ≠ 0 then
        (c, hoxml_enc_char 0x3C enc)
      else if hoxml_strcmp sc r enc lit_gt HOXML_ENC_UNKNOWN HOXML_CASE_SENSITIVE ≠ 0 then
        (c, hoxml_enc_char 0x3E enc)
      else if hoxml_strcmp sc r enc lit_amp HOXML_ENC_UNKNOWN HOXML_CASE_SENSITIVE ≠ 0 then
        (c, hoxml_enc_char 0x26 enc)
      else if hoxml_strcmp sc r enc lit_apos HOXML_ENC_UNKNOWN HOXML_CASE_SENSITIVE ≠ 0 then
        (c, hoxml_enc_char 0x27 enc)
      else if hoxml_strcmp sc r enc lit_quot HOXML_ENC_UNKNOWN HOXML_CASE_SENSITIVE ≠ 0 then
        (c, hoxml_enc_char 0x22 enc)
      else (syn, zero)
    | HOXML_REF_TYPE_NUMERIC =>
      let value := strtoul (hoxml_to_ascii sc r enc) 10
      if value ≠ 0 then (c, hoxml_enc_char (value % 2 ^ 32) enc) else (syn, zero)
    | HOXML_REF_TYPE_HEX =>
      let value := strtoul (hoxml_to_ascii sc r enc) 16
      if value ≠ 0 then (c, hoxml_enc_char (value % 2 ^ 32) enc) else (syn, zero)
  let c := p.1
  let ch := p.2
  if ch.bytes = 0 then c
  else
    let c := touch c c.stack HOXML_NODE_TAG
    let c := memset0 c c.ref_start (ptr_sub (node_end c c.stack) c.ref_start)
    let c := set_node_end c c.stack (ptr_sub c.ref_start 1)
    let c := { c with ref_start := 0 }
    let c := hoxml_append_char c ch
    { c with state := c.return_state, return_state := HOXML_STATE_NONE }

/-- Embedding of `hoxml_begin_tag`. -/
def hoxml_begin_tag (c : hoxml_context_t) : hoxml_context_t :=
  let c := hoxml_push_stack c
  if c.state.ge_none then { c with return_state := c.state, state := HOXML_STATE_TAG_BEGIN }
  else c

/-- Embedding of `hoxml_end_tag`. -/
def hoxml_end_tag (sc : Bool) (c : hoxml_context_t) : hoxml_code_t × hoxml_context_t :=
  let c := { c with state := HOXML_STATE_OPEN_TAG, post_state := HOXML_POST_STATE_TAG_END }
  let node := c.stack
  let c := touch c node HOXML_NODE_TAG
  let parent := node_parent c node
  if node_flags c node &&& HOXML_FLAG_END_TAG ≠ 0 then
    if parent = 0 ∨
        hoxml_strcmp sc (mem_at c (node + HOXML_NODE_TAG)) c.encoding
          (mem_at c (parent + HOXML_NODE_TAG)) c.encoding HOXML_CASE_SENSITIVE = 0 then
      (HOXML_ERROR_TAG_MISMATCH, { c with state := HOXML_STATE_ERROR_TAG_MISMATCH })
    else
      let c := hoxml_pop_stack c
      let c := { c with tag := parent + HOXML_NODE_TAG }
      let c := { c with content := c.tag + hoxml_strlen sc (mem_at c c.tag) c.encoding }
      let c := { c with content := c.content + terminator_bytes c.encoding }
      (HOXML_CODE_ELEMENT_END, c)
  else if node_flags c node &&& HOXML_FLAG_EMPTY_ELEMENT ≠ 0 then (HOXML_CODE_ELEMENT_END, c)
  else if node_flags c node &&& HOXML_FLAG_PROCESSING_INSTRUCTION ≠ 0 then
    (HOXML_CODE_PROCESSING_INSTRUCTION_END, c)
  else (HOXML_CODE_ELEMENT_BEGIN, { c with post_state := HOXML_STATE_NONE })

/-- Embedding of `hoxml_post_state_cleanup`; the first component is the returned flag. -/
def hoxml_post_state_cleanup (sc : Bool) (c : hoxml_context_t) : Nat × hoxml_context_t :=
  if c.post_state ≠ HOXML_STATE_NONE then
    match c.post_state with
    | HOXML_POST_STATE_TAG_END =>
      let c := touch c c.stack HOXML_NODE_TAG
      let is_decl : Bool :=
        decide (node_flags c c.stack &&& HOXML_FLAG_PROCESSING_INSTRUCTION ≠ 0) &&
          decide (hoxml_strcmp sc (mem_at c (c.stack + HOXML_NODE_TAG)) c.encoding lit_xml
            HOXML_ENC_UNKNOWN HOXML_CASE_INSENSITIVE ≠ 0)
      let c := if is_decl then { c with state := HOXML_STATE_NONE } else c
      let c := hoxml_pop_stack c
      if c.stack = 0 ∧ is_decl = false then (1, c)
      else (0, { c with post_state := HOXML_STATE_NONE })
    | HOXML_POST_STATE_ATTRIBUTE_END =>
      let c := touch c c.stack HOXML_NODE_TAG
      let c := memset0 c c.attribute_ (ptr_sub (node_end c c.stack) c.attribute_)
      let c := set_node_end c c.stack (ptr_sub c.attribute_ 1)
      let c := { c with attribute_ := 0, value := 0 }
      (0, { c with post_state := HOXML_STATE_NONE })
    | _ => (0, { c with post_state := HOXML_STATE_NONE })
  else (0, c)

/-! ## State machine -/

/-- Outcome of one iteration of the loop of `hoxml_parse`: the `switch` either falls out
(`next`) or returns a code (`ret`). -/
inductive hoxml_step_t
  | next (c : hoxml_context_t)
  | ret (code : hoxml_code_t) (c : hoxml_context_t)
  deriving DecidableEq, Repr

open hoxml_step_t

/-- The statement `context->column--` on a `uint32_t`. -/
def dec_column (c : hoxml_context_t) : hoxml_context_t :=
  { c with column := (c.column + 2 ^ 32 - 1) % 2 ^ 32 }

/-- The assignment `context->state = s`. -/
def set_state (c : hoxml_context_t) (s : hoxml_state_t) : hoxml_context_t := { c with state := s }

/-- The statement `context->stack->flags |= f`. -/
def or_flags (c : hoxml_context_t) (f : Nat) : hoxml_context_t :=
  let c := touch c c.stack HOXML_NODE_TAG
  set_node_flags c c.stack (node_flags c c.stack ||| f)

/-- The flags of the head frame, `context->stack->flags`. -/
def head_flags (c : hoxml_context_t) : Nat := node_flags c c.stack

/-- Whether bit `f` is set in the flags of the head frame. -/
def head_has (c : hoxml_context_t) (f : Nat) : Bool := head_flags c &&& f != 0

/-- A letter-matching state: go to `s` on the code point `want`, else syntax error. -/
def expect (c : hoxml_context_t) (d want : Nat) (s : hoxml_state_t) : hoxml_step_t :=
  if d = want then next (set_state c s) else next (set_state c HOXML_STATE_ERROR_SYNTAX)

/-- The reconciliation of the declared encoding with the byte-order mark, in the state
`HOXML_STATE_PROCESSING_INSTRUCTION_CONTENT` on `?`: `ret` when the source returns from
`hoxml_parse` there, `next` otherwise. -/
def check_declaration (sc : Bool) (c : hoxml_context_t) : hoxml_step_t :=
  let c := touch c c.content 1
  let content := mem_at c c.content
  let enc := c.encoding
  match hoxml_strstr sc content enc lit_encoding_eq HOXML_ENC_UNKNOWN HOXML_CASE_SENSITIVE with
  | none => next c
  | some o =>
    let declaration := content.drop o
    let found : Option Nat :=
      match hoxml_strstr sc declaration enc lit_dquote HOXML_ENC_UNKNOWN HOXML_CASE_SENSITIVE with
      | some q => some q
      | none => hoxml_strstr sc declaration enc lit_squote HOXML_ENC_UNKNOWN HOXML_CASE_SENSITIVE
    match found with
    | none => next c
    | some q =>
      let encoding := declaration.drop q
      let is (l : List Nat) : Bool :=
        hoxml_strcmp sc encoding enc l HOXML_ENC_UNKNOWN HOXML_CASE_INSENSITIVE != 0
      match enc with
      | HOXML_ENC_UNKNOWN =>
        if is lit_dq_utf8 || is lit_sq_utf8 then next { c with encoding := HOXML_ENC_UTF_8 }
        else if is lit_dq_utf16 || is lit_sq_utf16 then
          ret HOXML_ERROR_ENCODING (set_state c HOXML_STATE_ERROR_ENCODING)
        else next c
      | HOXML_ENC_UTF_8 =>
        if !is lit_dq_utf8 && !is lit_sq_utf8 then
          ret HOXML_ERROR_ENCODING (set_state c HOXML_STATE_ERROR_ENCODING)
        else next c
      | HOXML_ENC_UTF_16_LE | HOXML_ENC_UTF_16_BE =>
        if !is lit_dq_utf16 && !is lit_sq_utf16 then ret HOXML_ERROR_ENCODING c
        else next c

/-- The `switch (context->state)` inside the loop of `hoxml_parse`, for the decoded
character `ch`. -/
def hoxml_parse_switch (sc : Bool) (c : hoxml_context_t) (ch : hoxml_char_t) : hoxml_step_t :=
  let d := ch.decoded
  let syn := next (set_state c HOXML_STATE_ERROR_SYNTAX)
  match c.state with
  | HOXML_STATE_NONE =>
    if d = 0x3C then next (hoxml_begin_tag c)
    else if d = 0xEF then next (dec_column (set_state c HOXML_STATE_UTF8_BOM1))
    else if d = 0xFE then next (dec_column (set_state c HOXML_STATE_UTF16BE_BOM))
    else if d = 0xFF then next (dec_column (set_state c HOXML_STATE_UTF16LE_BOM))
    else if !HOXML_IS_WHITESPACE d then syn
    else next c
  | HOXML_STATE_UTF8_BOM1 =>
    let c := dec_column c
    if d = 0xBB then next (set_state c HOXML_STATE_UTF8_BOM2)
    else next (set_state c HOXML_STATE_ERROR_SYNTAX)
  | HOXML_STATE_UTF8_BOM2 =>
    let c := dec_column c
    if d = 0xBF then next { c with state := HOXML_STATE_NONE, encoding := HOXML_ENC_UTF_8 }
    else next (set_state c HOXML_STATE_ERROR_SYNTAX)
  | HOXML_STATE_UTF16BE_BOM =>
    let c := dec_column c
    if d = 0xFF then next { c with state := HOXML_STATE_NONE, encoding := HOXML_ENC_UTF_16_BE }
    else next (set_state c HOXML_STATE_ERROR_SYNTAX)
  | HOXML_STATE_UTF16LE_BOM =>
    let c := dec_column c
    if d = 0xFE then next { c with state := HOXML_STATE_NONE, encoding := HOXML_ENC_UTF_16_LE }
    else next (set_state c HOXML_STATE_ERROR_SYNTAX)
  | HOXML_STATE_TAG_BEGIN =>
    if d = 0x3F then
      next (or_flags (set_state c HOXML_STATE_PROCESSING_INSTRUCTION_BEGIN)
        HOXML_FLAG_PROCESSING_INSTRUCTION)
    else if d = 0x2F then next (or_flags c HOXML_FLAG_END_TAG)
    else if d = 0x21 then next (set_state c HOXML_STATE_COMMENT_CDATA_OR_DTD_BEGIN)
    else if HOXML_IS_NAME_START_CHAR d then
      let c := hoxml_append_char c ch
      if c.state.ge_none then
        next { c with state := HOXML_STATE_ELEMENT_NAME1, tag := c.stack + HOXML_NODE_TAG }
      else next c
    else syn
  | HOXML_STATE_ELEMENT_NAME1 =>
    if d = 0x3E then
      let c := hoxml_append_terminator c
      if c.state.ge_none then ret (hoxml_end_tag sc c).1 (hoxml_end_tag sc c).2 else next c
    else if d = 0x2F then
      if head_has c HOXML_FLAG_END_TAG then next (set_state (touch c c.stack HOXML_NODE_TAG)
        HOXML_STATE_ERROR_SYNTAX)
      else
        let c := hoxml_append_terminator c
        if c.state.ge_none then
          ret HOXML_CODE_ELEMENT_BEGIN (or_flags c HOXML_FLAG_EMPTY_ELEMENT)
        else next c
    else if HOXML_IS_WHITESPACE d then
      let c := hoxml_append_terminator c
      if c.state.ge_none then
        ret HOXML_CODE_ELEMENT_BEGIN
          (or_flags (set_state c HOXML_STATE_ELEMENT_NAME2) HOXML_FLAG_BEGUN)
      else next c
    else if HOXML_IS_NAME_CHAR d then next (hoxml_append_char c ch)
    else syn
  | HOXML_STATE_ELEMENT_NAME2 =>
    if d = 0x3E then
      let c := hoxml_append_terminator c
      if c.state.ge_none then
        if head_has c HOXML_FLAG_BEGUN && !head_has c HOXML_FLAG_EMPTY_ELEMENT then
          next (hoxml_post_state_cleanup sc (hoxml_end_tag sc c).2).2
        else ret (hoxml_end_tag sc c).1 (hoxml_end_tag sc c).2
      else next c
    else if d = 0x2F then
      if head_has c HOXML_FLAG_END_TAG then next (set_state (touch c c.stack HOXML_NODE_TAG)
        HOXML_STATE_ERROR_SYNTAX)
      else next (or_flags c HOXML_FLAG_EMPTY_ELEMENT)
    else if HOXML_IS_NAME_START_CHAR d then
      let c := hoxml_append_char c ch
      if c.state.ge_none then
        next { c with state := HOXML_STATE_ATTRIBUTE_NAME1, attribute_ := node_end c c.stack }
      else next c
    else if !HOXML_IS_WHITESPACE d then syn
    else next c
  | HOXML_STATE_ATTRIBUTE_NAME1 =>
    if d = 0x3D then
      let c := hoxml_append_terminator c
      if c.state.ge_none then next (set_state c HOXML_STATE_ATTRIBUTE_ASSIGNMENT) else next c
    else if HOXML_IS_NAME_CHAR d then next (hoxml_append_char c ch)
    else if HOXML_IS_WHITESPACE d then
      let c := hoxml_append_terminator c
      if c.state.ge_none then next (set_state c HOXML_STATE_ATTRIBUTE_NAME2) else next c
    else syn
  | HOXML_STATE_ATTRIBUTE_NAME2 =>
    if d = 0x3D then next (set_state c HOXML_STATE_ATTRIBUTE_ASSIGNMENT)
    else if !HOXML_IS_WHITESPACE d then syn
    else next c
  | HOXML_STATE_ATTRIBUTE_ASSIGNMENT =>
    if d = 0x22 ∨ d = 0x27 then
      let c := set_state c HOXML_STATE_ATTRIBUTE_VALUE
      let c := touch c c.stack HOXML_NODE_TAG
      let c := if d = 0x22 then or_flags c HOXML_FLAG_DOUBLE_QUOTE
        else set_node_flags c c.stack (head_flags c &&& (0xFF ^^^ HOXML_FLAG_DOUBLE_QUOTE))
      next { c with value := node_end c c.stack + 1 }
    else if !HOXML_IS_WHITESPACE d then syn
    else next c
  | HOXML_STATE_ATTRIBUTE_VALUE =>
    let c := touch c c.stack HOXML_NODE_TAG
    if (head_has c HOXML_FLAG_DOUBLE_QUOTE && d == 0x22) ||
        (!head_has c HOXML_FLAG_DOUBLE_QUOTE && d == 0x27) then
      let c := hoxml_append_terminator c
      if c.state.ge_none then
        ret HOXML_CODE_ATTRIBUTE
          { c with state := HOXML_STATE_ELEMENT_NAME2,
                   post_state := HOXML_POST_STATE_ATTRIBUTE_END }
      else next c
    else if d = 0x26 then
      next { c with state := HOXML_STATE_REFERENCE_BEGIN,
                    return_state := HOXML_STATE_ATTRIBUTE_VALUE }
    else if HOXML_IS_VALUE_CHAR_DATA (head_flags c) d then next (hoxml_append_char c ch)
    else next (set_state c HOXML_STATE_ERROR_SYNTAX)
  | HOXML_STATE_OPEN_TAG =>
    if d = 0x3C then next (hoxml_begin_tag c)
    else if d = 0x26 then
      next { c with state := HOXML_STATE_REFERENCE_BEGIN, return_state := HOXML_STATE_OPEN_TAG }
    else if HOXML_IS_CHAR_DATA d then next (hoxml_append_char c ch)
    else syn
  | HOXML_STATE_COMMENT_CDATA_OR_DTD_BEGIN =>
    if d = 0x2D then next (set_state c HOXML_STATE_COMMENT_BEGIN)
    else if d = 0x5B then next (set_state c HOXML_STATE_CDATA_BEGIN1)
    else if d = 0x44 then
      if c.return_state ≠ HOXML_STATE_NONE then
        ret HOXML_ERROR_INVALID_DOCUMENT_TYPE_DECLARATION
          (set_state c HOXML_STATE_ERROR_INVALID_DOCUMENT_TYPE_DECLARATION)
      else next (set_state c HOXML_STATE_DTD_BEGIN1)
    else syn
  | HOXML_STATE_COMMENT_BEGIN => expect (hoxml_pop_stack c) d 0x2D HOXML_STATE_COMMENT
  | HOXML_STATE_COMMENT =>
    if d = 0x2D then next (set_state c HOXML_STATE_COMMENT_END1)
    else next (set_state c HOXML_STATE_COMMENT)
  | HOXML_STATE_COMMENT_END1 =>
    if d = 0x2D then next (set_state c HOXML_STATE_COMMENT_END2)
    else next (set_state c HOXML_STATE_COMMENT)
  | HOXML_STATE_COMMENT_END2 =>
    if d = 0x3E then next (set_state c c.return_state) else syn
  | HOXML_STATE_CDATA_BEGIN1 => expect (hoxml_pop_stack c) d 0x43 HOXML_STATE_CDATA_BEGIN2
  | HOXML_STATE_CDATA_BEGIN2 => expect c d 0x44 HOXML_STATE_CDATA_BEGIN3
  | HOXML_STATE_CDATA_BEGIN3 => expect c d 0x41 HOXML_STATE_CDATA_BEGIN4
  | HOXML_STATE_CDATA_BEGIN4 => expect c d 0x54 HOXML_STATE_CDATA_BEGIN5
  | HOXML_STATE_CDATA_BEGIN5 => expect c d 0x41 HOXML_STATE_CDATA_BEGIN6
  | HOXML_STATE_CDATA_BEGIN6 => expect c d 0x5B HOXML_STATE_CDATA_CONTENT
  | HOXML_STATE_CDATA_CONTENT =>
    let c := hoxml_append_char c ch
    if c.state.ge_none then
      if d = 0x5D then next (set_state c HOXML_STATE_CDATA_END1) else next c
    else next c
  | HOXML_STATE_CDATA_END1 =>
    let c := hoxml_append_char c ch
    if c.state.ge_none then
      if d = 0x5D then next (set_state c HOXML_STATE_CDATA_END2)
      else next (set_state c HOXML_STATE_CDATA_CONTENT)
    else next c
  | HOXML_STATE_CDATA_END2 =>
    if d = 0x3E then
      let c := set_state c HOXML_STATE_OPEN_TAG
      let bytes := if 3 ≤ c.encoding.toNat then 4 else 2
      let c := touch c c.stack HOXML_NODE_TAG
      let c := memset0 c (ptr_sub (node_end c c.stack) bytes + 1) bytes
      next (set_node_end c c.stack (ptr_sub (node_end c c.stack) bytes))
    else
      let c := hoxml_append_char c ch
      if c.state.ge_none then next (set_state c HOXML_STATE_CDATA_CONTENT) else next c
  | HOXML_STATE_REFERENCE_BEGIN =>
    let c := touch c c.stack HOXML_NODE_TAG
    let c := { c with ref_start := node_end c c.stack + 1 }
    if d = 0x23 then next (set_state c HOXML_STATE_REFERENCE_NUMERIC)
    else if d = 0x61 ∨ d = 0x67 ∨ d = 0x6C ∨ d = 0x71 then
      let c := hoxml_append_char c ch
      if c.state.ge_none then next (set_state c HOXML_STATE_REFERENCE_ENTITY) else next c
    else next (set_state c HOXML_STATE_ERROR_SYNTAX)
  | HOXML_STATE_REFERENCE_ENTITY =>
    if d = 0x3B then next (hoxml_end_ref sc c HOXML_REF_TYPE_ENTITY)
    else if HOXML_IS_ASCII_CHAR d then next (hoxml_append_char c ch)
    else syn
  | HOXML_STATE_REFERENCE_NUMERIC =>
    if d = 0x78 then next (set_state c HOXML_STATE_REFERENCE_HEX)
    else if d = 0x3B then next (hoxml_end_ref sc c HOXML_REF_TYPE_NUMERIC)
    else if HOXML_IS_NUMERIC d then next (hoxml_append_char c ch)
    else syn
  | HOXML_STATE_REFERENCE_HEX =>
    if d = 0x3B then next (hoxml_end_ref sc c HOXML_REF_TYPE_HEX)
    else if HOXML_IS_HEX_CHAR d then next (hoxml_append_char c ch)
    else syn
  | HOXML_STATE_PROCESSING_INSTRUCTION_BEGIN =>
    if HOXML_IS_NAME_START_CHAR d then
      let c := hoxml_append_char c ch
      if c.state.ge_none then
        next { c with state := HOXML_STATE_PROCESSING_INSTRUCTION_TARGET1,
                      tag := c.stack + HOXML_NODE_TAG }
      else next c
    else syn
  | HOXML_STATE_PROCESSING_INSTRUCTION_TARGET1 =>
    if HOXML_IS_WHITESPACE d then
      let c := touch c c.stack HOXML_NODE_TAG
      if hoxml_strcmp sc (mem_at c (c.stack + HOXML_NODE_TAG)) c.encoding lit_xml
            HOXML_ENC_UNKNOWN HOXML_CASE_INSENSITIVE ≠ 0 ∧ node_parent c c.stack ≠ 0 then
        ret HOXML_ERROR_INVALID_DOCUMENT_DECLARATION
          (set_state c HOXML_STATE_ERROR_INVALID_DOCUMENT_DECLARATION)
      else
        let c := hoxml_append_terminator c
        if c.state.ge_none then
          ret HOXML_CODE_PROCESSING_INSTRUCTION_BEGIN
            (set_state c HOXML_STATE_PROCESSING_INSTRUCTION_CONTENT)
        else next c
    else if d = 0x3F then
      let c := hoxml_append_terminator c
      if c.state.ge_none then next (set_state c HOXML_STATE_PROCESSING_INSTRUCTION_END)
      else next c
    else if HOXML_IS_NAME_CHAR d then next (hoxml_append_char c ch)
    else syn
  | HOXML_STATE_PROCESSING_INSTRUCTION_CONTENT =>
    if d = 0x3F then
      match check_declaration sc c with
      | ret code c => ret code c
      | next c =>
        let c := hoxml_append_terminator c
        if c.state.ge_none then next (set_state c HOXML_STATE_PROCESSING_INSTRUCTION_END)
        else next c
    else
      let c := if c.content = 0 then
          { touch c c.stack HOXML_NODE_TAG with content := node_end c c.stack + 1 }
        else c
      next (hoxml_append_char c ch)
  | HOXML_STATE_DTD_BEGIN1 => expect (hoxml_pop_stack c) d 0x4F HOXML_STATE_DTD_BEGIN2
  | HOXML_STATE_DTD_BEGIN2 => expect c d 0x43 HOXML_STATE_DTD_BEGIN3
  | HOXML_STATE_DTD_BEGIN3 => expect c d 0x54 HOXML_STATE_DTD_BEGIN4
  | HOXML_STATE_DTD_BEGIN4 => expect c d 0x59 HOXML_STATE_DTD_BEGIN5
  | HOXML_STATE_DTD_BEGIN5 => expect c d 0x50 HOXML_STATE_DTD_BEGIN6
  | HOXML_STATE_DTD_BEGIN6 => expect c d 0x45 HOXML_STATE_DTD_BEGIN7
  | HOXML_STATE_DTD_BEGIN7 =>
    if HOXML_IS_WHITESPACE d then next (set_state c HOXML_STATE_DTD_BEGIN8) else syn
  | HOXML_STATE_DTD_BEGIN8 =>
    if HOXML_IS_NAME_START_CHAR d then next (set_state c HOXML_STATE_DTD_NAME)
    else if !HOXML_IS_WHITESPACE d then syn
    else next c
  | HOXML_STATE_DTD_NAME =>
    if HOXML_IS_WHITESPACE d then next (set_state c HOXML_STATE_DTD_CONTENT)
    else if !HOXML_IS_NAME_CHAR d then syn
    else next c
  | HOXML_STATE_DTD_CONTENT =>
    if d = 0x5B then next (set_state c HOXML_STATE_DTD_OPEN_BRACKET)
    else if d = 0x3E then next (set_state c HOXML_STATE_NONE)
    else if !HOXML_IS_CHAR_DATA d then syn
    else next c
  | HOXML_STATE_DTD_OPEN_BRACKET =>
    if d = 0x5D then next (set_state c HOXML_STATE_DTD_CONTENT) else next c
  | HOXML_STATE_PROCESSING_INSTRUCTION_END =>
    if d = 0x3E then ret (hoxml_end_tag sc c).1 (hoxml_end_tag sc c).2 else syn
  | _ => next c

/-! ## Public API: parse -/

/-- The byte at address `a` of the input, where `data` is the slice located at address
`xml`; the bytes that follow the slice read as zero. -/
def xml_rd (xml : Nat) (data : List Nat) (a : Nat) : Nat :=
  if xml ≤ a then data.getD (a - xml) 0 else 0

/-- The `n` input bytes at address `a`. -/
def xml_bytes (xml : Nat) (data : List Nat) (a n : Nat) : List Nat :=
  (List.range n).map (fun i => xml_rd xml data (a + i))

/-- The call `memcpy((char*)&stream + off, src, ...)`: stores the bytes `src` into the
32-bit word `stream` from byte `off` on (bytes that would fall outside the word are
dropped). -/
def store_stream (stream off : Nat) : List Nat → Nat
  | [] => stream
  | b :: bs => store_stream (if off < 4 then set_byte stream off b else stream) (off + 1) bs

/-- The carry-over word after the copy at the top of the loop of `hoxml_parse` (and in the
unexpected-eof case): `bytes_to_copy` bytes of input appended after the `stream_length`
carried bytes, or a plain 4-byte load. -/
def fill_stream (stream stream_length bytes_to_copy xml : Nat) (data : List Nat) (a : Nat) : Nat :=
  if bytes_to_copy < 4 then store_stream stream stream_length (xml_bytes xml data a bytes_to_copy)
  else load_u32 (xml_bytes xml data a 4)

/-- The loop `while (state >= HOXML_STATE_NONE && state <= HOXML_STATE_DONE)` of
`hoxml_parse` together with the code that follows it; `bytes_to_iterate` is the local
variable of that name.  `none` when the fuel does not suffice. -/
def hoxml_parse_loop (sc : Bool) (xml : Nat) (data : List Nat) :
    Nat → hoxml_context_t → Nat → Option (hoxml_code_t × hoxml_context_t)
  | 0, _, _ => none
  | fuel + 1, c, bytes_to_iterate =>
    if c.state.in_loop then
      let bytes_remaining := ptr_sub c.xml_length (ptr_sub c.iterator c.xml)
      let bytes_to_copy :=
        ((if bytes_remaining ≤ 4 then bytes_remaining else 4) + 256 - c.stream_length) % 256
      let c := { c with
        stream := fill_stream c.stream c.stream_length bytes_to_copy xml data c.iterator }
      let ch := hoxml_dec_char sc (u32_bytes c.stream) bytes_remaining c.encoding
      if ch.decoded = 0 ∨ ch.decoded = UINT32_MAX then
        some (HOXML_ERROR_UNEXPECTED_EOF,
          { c with stream_length := bytes_to_copy, err_return_state := c.state,
                   state := HOXML_STATE_ERROR_UNEXPECTED_EOF })
      else
        let c := if HOXML_IS_NEW_LINE ch.decoded then
            { c with line := (c.line + 1) % 2 ^ 32, column := 0 }
          else { c with column := (c.column + 1) % 2 ^ 32 }
        let bytes_to_iterate := (ch.bytes + 256 - c.stream_length) % 256
        let c := { c with iterator := c.iterator + bytes_to_iterate, stream_length := 0 }
        match hoxml_parse_switch sc c ch with
        | ret code c => some (code, c)
        | next c => hoxml_parse_loop sc xml data fuel c bytes_to_iterate
    else if c.state = HOXML_STATE_ERROR_INSUFFICIENT_MEMORY then
      some (HOXML_ERROR_INSUFFICIENT_MEMORY,
        dec_column { c with iterator := ptr_sub c.iterator bytes_to_iterate })
    else some (HOXML_ERROR_SYNTAX, c)

/-- The part of `hoxml_parse` after the first `switch`: post-state cleanup, adoption of a
new input pointer, and the loop.  The loop gets `xml_length + 4` units of fuel: after its
first iteration every iteration consumes at least one byte of input. -/
def hoxml_parse_body (sc : Bool) (c : hoxml_context_t) (xml : Nat) (data : List Nat) :
    Option (hoxml_code_t × hoxml_context_t) :=
  let r := hoxml_post_state_cleanup sc c
  if r.1 ≠ 0 then some (HOXML_CODE_END_OF_DOCUMENT, r.2)
  else
    let c := r.2
    let c := if c.xml ≠ xml then { c with xml := xml, xml_length := data.length, iterator := xml }
      else c
    hoxml_parse_loop sc xml data (c.xml_length + 4) c 0

/-- Embedding of `hoxml_parse`: `xml` is the address of the input slice, `data` its bytes
(`xml_length = data.length`). -/
def hoxml_parse (sc : Bool) (c : hoxml_context_t) (xml : Nat) (data : List Nat) :
    Option (hoxml_code_t × hoxml_context_t) :=
  if xml = 0 ∨ data.length = 0 then some (HOXML_ERROR_UNEXPECTED_EOF, c)
  else
    match c.state with
    | HOXML_STATE_ERROR_UNEXPECTED_EOF =>
      let bytes_to_copy := ptr_sub (if data.length ≤ 4 then data.length else 4) c.stream_length
      let stream := fill_stream c.stream c.stream_length bytes_to_copy xml data xml
      let ch := hoxml_dec_char sc (u32_bytes stream) data.length c.encoding
      if ch.decoded = 0 ∨ ch.decoded = UINT32_MAX then some (HOXML_ERROR_UNEXPECTED_EOF, c)
      else
        hoxml_parse_body sc
          { c with state := c.err_return_state, err_return_state := HOXML_STATE_NONE } xml data
    | HOXML_STATE_DONE => some (HOXML_CODE_END_OF_DOCUMENT, c)
    | HOXML_STATE_ERROR_INSUFFICIENT_MEMORY => some (HOXML_ERROR_INSUFFICIENT_MEMORY, c)
    | HOXML_STATE_ERROR_SYNTAX => some (HOXML_ERROR_SYNTAX, c)
    | HOXML_STATE_ERROR_ENCODING => some (HOXML_ERROR_ENCODING, c)
    | HOXML_STATE_ERROR_TAG_MISMATCH => some (HOXML_ERROR_TAG_MISMATCH, c)
    | HOXML_STATE_ERROR_INVALID_DOCUMENT_DECLARATION =>
      some (HOXML_ERROR_INVALID_DOCUMENT_DECLARATION, c)
    | _ => hoxml_parse_body sc c xml data

/-! ## The host side: what is observed, and the calling protocols -/

/-- What the host reads after a call of `hoxml_parse`: the returned code and the C strings
at the four public pointers (`none` for `NULL`). -/
structure hoxml_token_t where
  code : hoxml_code_t
  tag : Option (List Nat)
  attribute_ : Option (List Nat)
  value : Option (List Nat)
  content : Option (List Nat)
  deriving DecidableEq, Repr

/-- The C string at the public pointer `p`, `none` for `NULL`. -/
def observe_string (c : hoxml_context_t) (p : Nat) : Option (List Nat) :=
  if p = 0 then none else some (cstr c p)

/-- The observation of the context `c` after a call that returned `code`. -/
def observe (code : hoxml_code_t) (c : hoxml_context_t) : hoxml_token_t :=
  { code := code, tag := observe_string c c.tag, attribute_ := observe_string c c.attribute_,
    value := observe_string c c.value, content := observe_string c c.content }

/-- A sequence of calls of `hoxml_parse`, the `i`-th with the slice `data` at address `xml`
given by the `i`-th pair: the observations after each call and the final context. -/
def hoxml_parse_calls (sc : Bool) :
    hoxml_context_t → List (Nat × List Nat) → Option (List hoxml_token_t × hoxml_context_t)
  | c, [] => some ([], c)
  | c, (xml, data) :: rest =>
    match hoxml_parse sc c xml data with
    | none => none
    | some (code, c1) =>
      match hoxml_parse_calls sc c1 rest with
      | none => none
      | some (ts, c2) => some (observe code c1 :: ts, c2)

/-- The other one of the two addresses `a` and `b`. -/
def other_address (a b cur : Nat) : Nat := if cur = a then b else a

/-- The two input areas of the host (`content` and `content_copy` of the test driver). -/
def HOST_XML_A : Nat := 0x5000
def HOST_XML_B : Nat := 0x6000
/-- The two areas between which the host's scratch buffer moves on reallocation. -/
def HOST_BUFFER_A : Nat := 0x10000
def HOST_BUFFER_B : Nat := 0x20000

/-- The host loop of `hoxml-test.c`: `hoxml_parse` is called on the current slice until it
returns unexpected-eof, upon which the next chunk is passed at the other input address;
on insufficient-memory the buffer is replaced by one of twice the length through
`hoxml_realloc`; any other error and end-of-document end the run.  The result is the
list of observations at the tokens and at the code that ended the run (unexpected-eof when
the chunks are used up). -/
def hoxml_host (sc : Bool) :
    Nat → hoxml_context_t → Nat → List Nat → List (List Nat) → List hoxml_token_t
  | 0, _, _, _, _ => []
  | fuel + 1, c, xml, data, chunks =>
    match hoxml_parse sc c xml data with
    | none => []
    | some (code, c1) =>
      if code = HOXML_ERROR_UNEXPECTED_EOF then
        match chunks with
        | [] => [observe code c1]
        | d :: ds => hoxml_host sc fuel c1 (other_address HOST_XML_A HOST_XML_B xml) d ds
      else if code = HOXML_ERROR_INSUFFICIENT_MEMORY then
        match hoxml_realloc c1 (other_address HOST_BUFFER_A HOST_BUFFER_B c1.buffer)
            (2 * c1.buffer_length) with
        | none => []
        | some c2 => hoxml_host sc fuel c2 xml data chunks
      else if code.toInt ≤ 0 then [observe code c1]
      else observe code c1 :: hoxml_host sc fuel c1 xml data chunks

/-! ## Well-formed contexts -/

/-- The frames of the stack: following `parent` from `node` visits exactly `frames` and ends
at `NULL`; the header of every frame lies in the buffer below `bound` (the address of the
frame above it, or the end of the buffer for the head), and its `end` pointer lies between
its flag byte and the last byte of the buffer. -/
def frames_ok (c : hoxml_context_t) : Nat → Nat → List Nat → Bool
  | _, node, [] => node == 0
  | bound, node, n :: rest =>
    node == n && n != 0 && decide (c.buffer ≤ n) && decide (n + HOXML_NODE_TAG ≤ bound) &&
      decide (n + HOXML_NODE_FLAGS ≤ node_end c n) &&
      decide (node_end c n < c.buffer + c.mem.length) &&
      frames_ok c n (node_parent c n) rest

/-- The public pointer `p` is absent, or points into the buffer to a C string that, with
its terminator, does not overlap the `parent` and `end` fields of any frame. -/
def string_ok (c : hoxml_context_t) (frames : List Nat) (p : Nat) : Bool :=
  p == 0 || (decide (c.buffer ≤ p) && decide (p < c.buffer + c.mem.length) &&
    frames.all (fun n => decide (n + HOXML_NODE_FLAGS ≤ p) ||
      decide (p + (cstr c p).length < n)))

/-- A well-formed context with the stack `frames` (head first): the buffer is an object of
`buffer_length` bytes inside the 64-bit address space, the stack is well-formed, and the
four public pointers satisfy `string_ok`. -/
def hoxml_wf (c : hoxml_context_t) (frames : List Nat) : Prop :=
  c.mem.length = c.buffer_length ∧ c.buffer + c.buffer_length ≤ 2 ^ 64 ∧
    frames_ok c (c.buffer + c.mem.length) c.stack frames = true ∧
    string_ok c frames c.tag = true ∧ string_ok c frames c.attribute_ = true ∧
    string_ok c frames c.value = true ∧ string_ok c frames c.content = true

instance (c : hoxml_context_t) (frames : List Nat) : Decidable (hoxml_wf c frames) := by
  unfold hoxml_wf; exact inferInstance

/-- The content of the old buffer after the loop body of `hoxml_realloc` has rewritten the
`end` pointer and, when it is not `NULL`, the `parent` pointer of the frame `n`. -/
def hoxml_realloc_node_mem (buffer : Nat) (c : hoxml_context_t) (n : Nat) : List Nat :=
  if node_parent c n = 0 then
    splice c.mem (n - c.buffer + 8) (ptr_bytes (rebase c buffer (node_end c n)))
  else
    splice (splice c.mem (n - c.buffer + 8) (ptr_bytes (rebase c buffer (node_end c n))))
      (n - c.buffer) (ptr_bytes (rebase c buffer (node_parent c n)))

/-- Where the pointer `p` of the context `c` has to point after the buffer moved to the
address `buffer`: to the same offset, `NULL` staying `NULL`. -/
def moved (c : hoxml_context_t) (buffer p : Nat) : Nat :=
  if p = 0 then 0 else buffer + (p - c.buffer)

/-! ## Documents and slices used below -/

/-- The bytes `FF FE 3C 00 61 00 2F 00 3E 00`: a utf-16-le byte-order mark and `<a/>`. -/
def doc_utf16le_a : List Nat := [0xFF, 0xFE, 0x3C, 0x00, 0x61, 0x00, 0x2F, 0x00, 0x3E, 0x00]

/-- The document `<abcdefgh>text</abcdefgh>`. -/
def doc_abcdefgh : List Nat :=
  [0x3C, 0x61, 0x62, 0x63, 0x64, 0x65, 0x66, 0x67, 0x68, 0x3E, 0x74, 0x65, 0x78, 0x74,
   0x3C, 0x2F, 0x61, 0x62, 0x63, 0x64, 0x65, 0x66, 0x67, 0x68, 0x3E]

/-- The name `abcdefgh` as bytes. -/
def name_abcdefgh : List Nat := [0x61, 0x62, 0x63, 0x64, 0x65, 0x66, 0x67, 0x68]

/-- The input `<a></ab>`. -/
def doc_a_ab : List Nat := [0x3C, 0x61, 0x3E, 0x3C, 0x2F, 0x61, 0x62, 0x3E]

/-- The input `<a><!D`. -/
def doc_a_dtd : List Nat := [0x3C, 0x61, 0x3E, 0x3C, 0x21, 0x44]

/-- The slice `<a>`. -/
def slice_open_a : List Nat := [0x3C, 0x61, 0x3E]

/-- The slice `</a>`. -/
def slice_close_a : List Nat := [0x3C, 0x2F, 0x61, 0x3E]

/-- The input `<abcdefg>` followed by a line feed. -/
def doc_abcdefg_lf : List Nat := [0x3C, 0x61, 0x62, 0x63, 0x64, 0x65, 0x66, 0x67, 0x3E, 0x0A]

/-- The input `<r><a x="1"`. -/
def doc_r_a_x : List Nat := [0x3C, 0x72, 0x3E, 0x3C, 0x61, 0x20, 0x78, 0x3D, 0x22, 0x31, 0x22]

/-- The context after the given calls of `hoxml_parse` (the starting context if a call
does not return). -/
def context_after (sc : Bool) (c : hoxml_context_t) (calls : List (Nat × List Nat)) :
    hoxml_context_t :=
  match hoxml_parse_calls sc c calls with
  | some r => r.2
  | none => c

/-- The context at the attribute token of `<r><a x="1"`: two frames, and `tag`,
`attribute` and `value` present. -/
def ctx_at_attribute : hoxml_context_t :=
  context_after true (hoxml_init HOST_BUFFER_A 64)
    [(HOST_XML_A, doc_r_a_x), (HOST_XML_A, doc_r_a_x), (HOST_XML_A, doc_r_a_x)]

/-- The context after `hoxml_parse` returned insufficient-memory on `<abcdefgh>` with a
buffer of 25 bytes. -/
def ctx_insufficient : hoxml_context_t :=
  context_after true (hoxml_init HOST_BUFFER_A 25) [(HOST_XML_A, doc_abcdefgh)]

/-- An observation with a tag and no other string. -/
def tag_token (code : hoxml_code_t) (tag : List Nat) : hoxml_token_t :=
  { code := code, tag := some tag, attribute_ := none, value := none, content := none }

/-- An observation with no string at all. -/
def bare_token (code : hoxml_code_t) : hoxml_token_t :=
  { code := code, tag := none, attribute_ := none, value := none, content := none }

/-- The utf-8 document `EF BB BF` `<a é="1"/>`, where `é` is `C3 A9`. -/
def doc_attr_utf8 : List Nat :=
  [0xEF, 0xBB, 0xBF, 0x3C, 0x61, 0x20, 0xC3, 0xA9, 0x3D, 0x22, 0x31, 0x22, 0x2F, 0x3E]

/-- The document `<a x="1" y='2'/>`. -/
def doc_attr_xy : List Nat :=
  [0x3C, 0x61, 0x20, 0x78, 0x3D, 0x22, 0x31, 0x22, 0x20, 0x79, 0x3D, 0x27, 0x32, 0x27, 0x2F,
   0x3E]

/-- The utf-8 document `EF BB BF` `<é>x</é>`, where `é` is `C3 A9`. -/
def doc_content_utf8 : List Nat :=
  [0xEF, 0xBB, 0xBF, 0x3C, 0xC3, 0xA9, 0x3E, 0x78, 0x3C, 0x2F, 0xC3, 0xA9, 0x3E]

/-- The document `<a>&#0065;&#66;</a>`. -/
def doc_two_refs : List Nat :=
  [0x3C, 0x61, 0x3E, 0x26, 0x23, 0x30, 0x30, 0x36, 0x35, 0x3B, 0x26, 0x23, 0x36, 0x36, 0x3B,
   0x3C, 0x2F, 0x61, 0x3E]

/-- The document `<a>&ltx;</a>`. -/
def doc_ref_ltx : List Nat :=
  [0x3C, 0x61, 0x3E, 0x26, 0x6C, 0x74, 0x78, 0x3B, 0x3C, 0x2F, 0x61, 0x3E]

/-- The document `<a>&#xD800;0;</a>`. -/
def doc_ref_surrogate : List Nat :=
  [0x3C, 0x61, 0x3E, 0x26, 0x23, 0x78, 0x44, 0x38, 0x30, 0x30, 0x3B, 0x30, 0x3B, 0x3C, 0x2F,
   0x61, 0x3E]

/-- The document `<a>&#x100000041;</a>`. -/
def doc_ref_large : List Nat :=
  [0x3C, 0x61, 0x3E, 0x26, 0x23, 0x78, 0x31, 0x30, 0x30, 0x30, 0x30, 0x30, 0x30, 0x34, 0x31,
   0x3B, 0x3C, 0x2F, 0x61, 0x3E]

/-- The document `<a><?xml?></a>`. -/
def doc_xml_pi_inside : List Nat :=
  [0x3C, 0x61, 0x3E, 0x3C, 0x3F, 0x78, 0x6D, 0x6C, 0x3F, 0x3E, 0x3C, 0x2F, 0x61, 0x3E]

/-- The document `<a><?xml version="1.0"?></a>`. -/
def doc_xml_decl_inside : List Nat :=
  [0x3C, 0x61, 0x3E, 0x3C, 0x3F, 0x78, 0x6D, 0x6C, 0x20, 0x76, 0x65, 0x72, 0x73, 0x69, 0x6F,
   0x6E, 0x3D, 0x22, 0x31, 0x2E, 0x30, 0x22, 0x3F, 0x3E, 0x3C, 0x2F, 0x61, 0x3E]

/-- The document `<?pi?><r/>`. -/
def doc_pi_before_root : List Nat :=
  [0x3C, 0x3F, 0x70, 0x69, 0x3F, 0x3E, 0x3C, 0x72, 0x2F, 0x3E]

/-- The document `<?xml version='1.0' encoding='UTF-8' standalone="yes"?><r/>`. -/
def doc_decl_mixed_quotes : List Nat :=
  [0x3C, 0x3F, 0x78, 0x6D, 0x6C, 0x20, 0x76, 0x65, 0x72, 0x73, 0x69, 0x6F, 0x6E, 0x3D, 0x27,
   0x31, 0x2E, 0x30, 0x27, 0x20, 0x65, 0x6E, 0x63, 0x6F, 0x64, 0x69, 0x6E, 0x67, 0x3D, 0x27,
   0x55, 0x54, 0x46, 0x2D, 0x38, 0x27, 0x20, 0x73, 0x74, 0x61, 0x6E, 0x64, 0x61, 0x6C, 0x6F,
   0x6E, 0x65, 0x3D, 0x22, 0x79, 0x65, 0x73, 0x22, 0x3F, 0x3E, 0x3C, 0x72, 0x2F, 0x3E]

/-- The document `<?xml version="1.0" encoding="UTF-8"?><r><b>A</b><b>B</b></r>`. -/
def doc_scenario_1 : List Nat :=
  [0x3C, 0x3F, 0x78, 0x6D, 0x6C, 0x20, 0x76, 0x65, 0x72, 0x73, 0x69, 0x6F, 0x6E, 0x3D, 0x22,
   0x31, 0x2E, 0x30, 0x22, 0x20, 0x65, 0x6E, 0x63, 0x6F, 0x64, 0x69, 0x6E, 0x67, 0x3D, 0x22,
   0x55, 0x54, 0x46, 0x2D, 0x38, 0x22, 0x3F, 0x3E, 0x3C, 0x72, 0x3E, 0x3C, 0x62, 0x3E, 0x41,
   0x3C, 0x2F, 0x62, 0x3E, 0x3C, 0x62, 0x3E, 0x42, 0x3C, 0x2F, 0x62, 0x3E, 0x3C, 0x2F, 0x72,
   0x3E]

/-- The string `version='1.0' encoding='UTF-8' standalone="yes"`. -/
def str_decl_mixed_quotes : List Nat :=
  [0x76, 0x65, 0x72, 0x73, 0x69, 0x6F, 0x6E, 0x3D, 0x27, 0x31, 0x2E, 0x30, 0x27, 0x20, 0x65,
   0x6E, 0x63, 0x6F, 0x64, 0x69, 0x6E, 0x67, 0x3D, 0x27, 0x55, 0x54, 0x46, 0x2D, 0x38, 0x27,
   0x20, 0x73, 0x74, 0x61, 0x6E, 0x64, 0x61, 0x6C, 0x6F, 0x6E, 0x65, 0x3D, 0x22, 0x79, 0x65,
   0x73, 0x22]

/-- The string `version="1.0" encoding="UTF-8"`. -/
def str_decl_scenario_1 : List Nat :=
  [0x76, 0x65, 0x72, 0x73, 0x69, 0x6F, 0x6E, 0x3D, 0x22, 0x31, 0x2E, 0x30, 0x22, 0x20, 0x65,
   0x6E, 0x63, 0x6F, 0x64, 0x69, 0x6E, 0x67, 0x3D, 0x22, 0x55, 0x54, 0x46, 0x2D, 0x38, 0x22]

/-- The document `<!DOCTYPE r ><r/>`. -/
def doc_doctype_first : List Nat :=
  [0x3C, 0x21, 0x44, 0x4F, 0x43, 0x54, 0x59, 0x50, 0x45, 0x20, 0x72, 0x20, 0x3E, 0x3C, 0x72, 0x2F,
   0x3E]

/-- The context after `hoxml_parse` returned element-begin on `<a><!D`: the element `a` is
open and the state is the open-tag state. -/
def ctx_open_a : hoxml_context_t :=
  context_after true (hoxml_init HOST_BUFFER_A 64) [(HOST_XML_A, doc_a_dtd)]

/-- The decoded character `<`. -/
def char_lt : hoxml_char_t := { encoded := 0x3C, decoded := 0x3C, bytes := 1 }
/-- The decoded character `!`. -/
def char_bang : hoxml_char_t := { encoded := 0x21, decoded := 0x21, bytes := 1 }
/-- The decoded character `D`. -/
def char_D : hoxml_char_t := { encoded := 0x44, decoded := 0x44, bytes := 1 }

/-- The document `<a><b></c></a>`. -/
def doc_mismatch_c : List Nat :=
  [0x3C, 0x61, 0x3E, 0x3C, 0x62, 0x3E, 0x3C, 0x2F, 0x63, 0x3E, 0x3C, 0x2F, 0x61, 0x3E]

/-- The document `<a>&lt;&#65;&#x42;</a>`. -/
def doc_refs_lt_a_b : List Nat :=
  [0x3C, 0x61, 0x3E, 0x26, 0x6C, 0x74, 0x3B, 0x26, 0x23, 0x36, 0x35, 0x3B, 0x26, 0x23, 0x78, 0x34,
   0x32, 0x3B, 0x3C, 0x2F, 0x61, 0x3E]

/-- The document `<a><![CDATA[<b>&]]></a>`. -/
def doc_cdata : List Nat :=
  [0x3C, 0x61, 0x3E, 0x3C, 0x21, 0x5B, 0x43, 0x44, 0x41, 0x54, 0x41, 0x5B, 0x3C, 0x62, 0x3E, 0x26,
   0x5D, 0x5D, 0x3E, 0x3C, 0x2F, 0x61, 0x3E]

/-- The document `<a><!-- </a> --></a>`. -/
def doc_comment : List Nat :=
  [0x3C, 0x61, 0x3E, 0x3C, 0x21, 0x2D, 0x2D, 0x20, 0x3C, 0x2F, 0x61, 0x3E, 0x20, 0x2D, 0x2D, 0x3E,
   0x3C, 0x2F, 0x61, 0x3E]

/-- The input `<a><!-- </a> -->`: the document `doc_comment` up to the end of the comment. -/
def slice_comment : List Nat :=
  [0x3C, 0x61, 0x3E, 0x3C, 0x21, 0x2D, 0x2D, 0x20, 0x3C, 0x2F, 0x61, 0x3E, 0x20, 0x2D, 0x2D, 0x3E]

/-- The utf-8 document `EF BB BF` `<a>&#233;</a>`. -/
def doc_ref_233 : List Nat :=
  [0xEF, 0xBB, 0xBF, 0x3C, 0x61, 0x3E, 0x26, 0x23, 0x32, 0x33, 0x33, 0x3B, 0x3C, 0x2F, 0x61, 0x3E]

/-- The utf-16-le byte-order mark `FF FE`. -/
def bom_utf16le : List Nat := [0xFF, 0xFE]

/-- The utf-8 string `C3 A9 61` (`é`, `a`) with its terminator. -/
def str_utf8_e9_a : List Nat := [0xC3, 0xA9, 0x61, 0x00]

/-- The utf-16-le string `ab` with its terminator. -/
def str_utf16le_ab : List Nat := [0x61, 0x00, 0x62, 0x00, 0x00, 0x00]

/-- The utf-16-be string `ab` with its terminator. -/
def str_utf16be_ab : List Nat := [0x00, 0x61, 0x00, 0x62, 0x00, 0x00]

/-- The string `C3 A9` (`é` in utf-8). -/
def str_utf8_e9 : List Nat := [0xC3, 0xA9]

/-! ## A stack of one frame, and the empty element -/

/-- The scratch buffer `m` of `L` bytes at address `B` holds exactly one frame, at its
start: no parent, the flags `f`, the string bytes `s` with `end` at the last of them, and
zero bytes after the string. -/
def root_frame_mem (m : List Nat) (B L f : Nat) (s : List Nat) : Prop :=
  m.length = L ∧ ptr_at m 0 = 0 ∧ ptr_at m 8 = B + 16 + s.length ∧ m.getD 16 0 = f ∧
    (∀ i, i < s.length → m.getD (17 + i) 0 = s.getD i 0) ∧
    (∀ i, 17 + s.length ≤ i → m.getD i 0 = 0)

/-- The document `<x/>` for the name `x`. -/
def empty_element_doc (x : List Nat) : List Nat := 0x3C :: (x ++ [0x2F, 0x3E])

/-- Whether the bytes `x` are a name in a document without byte-order mark, where every
byte is one character: a name-start character followed by name characters. -/
def is_byte_name : List Nat → Bool
  | [] => false
  | b :: rest =>
    decide (b < 256) && HOXML_IS_NAME_START_CHAR b &&
      rest.all (fun b => decide (b < 256) && HOXML_IS_NAME_CHAR b)

/-- The context `c` is the one in which `hoxml_parse` returns element-begin at the `/` of
`<x/>`, the slice at address `xml`, with the buffer of `L` bytes at address `B`: the
frame of `x` is the only one, its name is terminated and the empty-element flag is set,
`tag` points to the name and the other public pointers are `NULL`. -/
def at_empty_element (c : hoxml_context_t) (B L xml : Nat) (x : List Nat) : Prop :=
  c.state = HOXML_STATE_ELEMENT_NAME1 ∧ c.post_state = HOXML_STATE_NONE ∧ c.stack = c.buffer ∧
    c.buffer = B ∧ c.buffer_length = L ∧ root_frame_mem c.mem B L 0x12 (x ++ [0]) ∧
    c.encoding = HOXML_ENC_UNKNOWN ∧ c.stream_length = 0 ∧ c.xml = xml ∧
    c.xml_length = x.length + 3 ∧ c.iterator = xml + (x.length + 2) ∧ c.tag = B + 17 ∧
    c.attribute_ = 0 ∧ c.value = 0 ∧ c.content = 0

/-- The name `a`, `E9`, `-` (three one-byte characters without byte-order mark). -/
def name_a_e9_dash : List Nat := [0x61, 0xE9, 0x2D]

/-! ## The byte counts of the encoder as the specification states them -/

/-- The number of bytes of the UTF-8 form of the scalar `v` as the specification states it:
1, 2, 3, 4 for the four standard ranges without the surrogates, 0 for any other value. -/
def spec_utf8_bytes (v : Nat) : Nat :=
  if v ≤ 0x7F then 1
  else if 0x80 ≤ v ∧ v ≤ 0x7FF then 2
  else if (0x800 ≤ v ∧ v ≤ 0xD7FF) ∨ (0xE000 ≤ v ∧ v ≤ 0xFFFF) then 3
  else if 0x10000 ≤ v ∧ v ≤ 0x10FFFF then 4
  else 0

/-- The number of bytes of the UTF-16 form of the scalar `v` as the specification states
it: 2 outside the surrogate range up to `0xFFFF`, 4 for `[0x10000, 0x10FFFF]`, 0 for any
other value. -/
def spec_utf16_bytes (v : Nat) : Nat :=
  if v ≤ 0xD7FF ∨ (0xE000 ≤ v ∧ v ≤ 0xFFFF) then 2
  else if 0x10000 ≤ v ∧ v ≤ 0x10FFFF then 4
  else 0

/-! ## Contexts and documents for the buffer manager and the end of the document -/

/-- The string `ltx` with its terminator. -/
def str_ltx : List Nat :=
  [0x6C, 0x74, 0x78, 0x00]

/-- The utf-16-be string `a` with its terminator. -/
def str_utf16be_a : List Nat :=
  [0x00, 0x61, 0x00, 0x00]

/-- The utf-16-le slice `FF FE` `<a`, which ends inside the name. -/
def slice_utf16le_name_a : List Nat :=
  [0xFF, 0xFE, 0x3C, 0x00, 0x61, 0x00]

/-- The utf-16-be slice `FE FF` `<a`, which ends inside the name. -/
def slice_utf16be_name_a : List Nat :=
  [0xFE, 0xFF, 0x00, 0x3C, 0x00, 0x61]

/-- The slice `<abcdefgh`, which ends inside the name. -/
def slice_name_abcdefgh : List Nat :=
  [0x3C, 0x61, 0x62, 0x63, 0x64, 0x65, 0x66, 0x67, 0x68]

/-- The slice `<a>x`, which ends inside the content of `a`. -/
def slice_a_x : List Nat :=
  [0x3C, 0x61, 0x3E, 0x78]

/-- The document `<r><a>xx7</a><b>&#65;</b></r>`. -/
def doc_stale_after_pop : List Nat :=
  [0x3C, 0x72, 0x3E, 0x3C, 0x61, 0x3E, 0x78, 0x78, 0x37, 0x3C, 0x2F, 0x61, 0x3E, 0x3C, 0x62,
   0x3E, 0x26, 0x23, 0x36, 0x35, 0x3B, 0x3C, 0x2F, 0x62, 0x3E, 0x3C, 0x2F, 0x72, 0x3E]

/-- The document `<a><![CDATA[x]]]></a>`: the text of the section is `x]`. -/
def doc_cdata_bracket : List Nat :=
  [0x3C, 0x61, 0x3E, 0x3C, 0x21, 0x5B, 0x43, 0x44, 0x41, 0x54, 0x41, 0x5B, 0x78, 0x5D, 0x5D,
   0x5D, 0x3E, 0x3C, 0x2F, 0x61, 0x3E]

/-- The utf-16-le document `FF FE` `<a><![CDATA[x]]></a>`. -/
def doc_cdata_utf16le : List Nat :=
  [0xFF, 0xFE, 0x3C, 0x00, 0x61, 0x00, 0x3E, 0x00, 0x3C, 0x00, 0x21, 0x00, 0x5B, 0x00, 0x43,
   0x00, 0x44, 0x00, 0x41, 0x00, 0x54, 0x00, 0x41, 0x00, 0x5B, 0x00, 0x78, 0x00, 0x5D, 0x00,
   0x5D, 0x00, 0x3E, 0x00, 0x3C, 0x00, 0x2F, 0x00, 0x61, 0x00, 0x3E, 0x00]

/-- The utf-16-be document `FE FF` `<a><![CDATA[x]]></a>`. -/
def doc_cdata_utf16be : List Nat :=
  [0xFE, 0xFF, 0x00, 0x3C, 0x00, 0x61, 0x00, 0x3E, 0x00, 0x3C, 0x00, 0x21, 0x00, 0x5B, 0x00,
   0x43, 0x00, 0x44, 0x00, 0x41, 0x00, 0x54, 0x00, 0x41, 0x00, 0x5B, 0x00, 0x78, 0x00, 0x5D,
   0x00, 0x5D, 0x00, 0x3E, 0x00, 0x3C, 0x00, 0x2F, 0x00, 0x61, 0x00, 0x3E]

/-- The document `<a>&#9;</a>`. -/
def doc_ref_tab : List Nat :=
  [0x3C, 0x61, 0x3E, 0x26, 0x23, 0x39, 0x3B, 0x3C, 0x2F, 0x61, 0x3E]

/-- The slice `<a>&#65;&#`, which ends before the `;` of a reference without digits. -/
def slice_empty_ref : List Nat :=
  [0x3C, 0x61, 0x3E, 0x26, 0x23, 0x36, 0x35, 0x3B, 0x26, 0x23]

/-- The document `<a>&#65;&#;</a>`. -/
def doc_empty_ref : List Nat :=
  [0x3C, 0x61, 0x3E, 0x26, 0x23, 0x36, 0x35, 0x3B, 0x26, 0x23, 0x3B, 0x3C, 0x2F, 0x61, 0x3E]

/-- The document `<x></x/>`. -/
def doc_end_tag_slash : List Nat :=
  [0x3C, 0x78, 0x3E, 0x3C, 0x2F, 0x78, 0x2F, 0x3E]

/-- The document `<x></x />`. -/
def doc_end_tag_space_slash : List Nat :=
  [0x3C, 0x78, 0x3E, 0x3C, 0x2F, 0x78, 0x20, 0x2F, 0x3E]

/-- The slice `<x></x`, which ends inside the name of the end tag. -/
def slice_end_tag_x : List Nat :=
  [0x3C, 0x78, 0x3E, 0x3C, 0x2F, 0x78]

/-- The document `<a></a >`. -/
def doc_end_tag_space : List Nat :=
  [0x3C, 0x61, 0x3E, 0x3C, 0x2F, 0x61, 0x20, 0x3E]

/-- The document `<a ></a>`. -/
def doc_start_tag_space : List Nat :=
  [0x3C, 0x61, 0x20, 0x3E, 0x3C, 0x2F, 0x61, 0x3E]

/-- The document `<a>x</a>`. -/
def doc_a_x : List Nat :=
  [0x3C, 0x61, 0x3E, 0x78, 0x3C, 0x2F, 0x61, 0x3E]

/-- The slice `<a>&#0065;`, which ends after the reference. -/
def slice_ref_0065 : List Nat :=
  [0x3C, 0x61, 0x3E, 0x26, 0x23, 0x30, 0x30, 0x36, 0x35, 0x3B]

/-- The document `<a/>`. -/
def doc_empty_a : List Nat :=
  [0x3C, 0x61, 0x2F, 0x3E]

/-- The document `<ab></a>`. -/
def doc_ab_a : List Nat :=
  [0x3C, 0x61, 0x62, 0x3E, 0x3C, 0x2F, 0x61, 0x3E]

/-- The utf-16-be document `FE FF` `<ab></a>`. -/
def doc_utf16be_ab_a : List Nat :=
  [0xFE, 0xFF, 0x00, 0x3C, 0x00, 0x61, 0x00, 0x62, 0x00, 0x3E, 0x00, 0x3C, 0x00, 0x2F, 0x00,
   0x61, 0x00, 0x3E]

/-- The string `lt` with its terminator. -/
def str_lt : List Nat := [0x6C, 0x74, 0x00]

/-- The character `/` as the decoder returns it in the unknown encoding. -/
def char_slash : hoxml_char_t := { encoded := 0x2F, decoded := 0x2F, bytes := 1 }

/-- The context as the next call of `hoxml_parse` with new input resumes it after
unexpected-EOF: `state = err_return_state` and `err_return_state = HOXML_STATE_NONE`. -/
def resumed (c : hoxml_context_t) : hoxml_context_t :=
  { c with state := c.err_return_state, err_return_state := HOXML_STATE_NONE }

/-- The resumed context after `calls` calls of `hoxml_parse` on `slice`, each of which
reads up to a token or to the end of the slice, with a buffer of `n` bytes. -/
def ctx_after_slice (sc : Bool) (n : Nat) (slice : List Nat) (calls : Nat) : hoxml_context_t :=
  resumed (context_after sc (hoxml_init HOST_BUFFER_A n)
    (List.replicate calls (HOST_XML_A, slice)))

/-- The invariant as the specification states it: every byte of the scratch buffer after
the end of the head frame, or every byte of the buffer when the stack is empty, is zero. -/
def spec_zero_after_head (c : hoxml_context_t) : Bool :=
  (mem_at c (if c.stack = 0 then c.buffer else node_end c c.stack + 1)).all (fun b => b == 0)

/-! ## Theorems -/

/-! ## Lemmas on the scratch buffer -/

theorem splice_length (m bs : List Nat) (k : Nat) (h : k + bs.length ≤ m.length) :
    (splice m k bs).length = m.length := by
  simp only [splice, List.length_append, List.length_take, List.length_drop]
  omega

theorem splice_getD (m bs : List Nat) (k i : Nat) (h : k + bs.length ≤ m.length) :
    (splice m k bs).getD i 0 =
      if i < k then m.getD i 0 else if i < k + bs.length then bs.getD (i - k) 0
      else m.getD i 0 := by
  have hk : (m.take k).length = k := by rw [List.length_take]; omega
  simp only [splice, List.getD_eq_getElem?_getD]
  split_ifs with h1 h2
  · rw [List.append_assoc, List.getElem?_append_left (by omega), List.getElem?_take, if_pos h1]
  · rw [List.getElem?_append_left (by rw [List.length_append]; omega),
      List.getElem?_append_right (by omega), hk]
  · rw [List.getElem?_append_right (by rw [List.length_append]; omega), List.getElem?_drop,
      List.length_append, hk]
    congr 2
    omega

theorem ptr_bytes_length (p : Nat) : (ptr_bytes p).length = 8 := rfl

theorem ptr_at_congr (m m' : List Nat) (k : Nat)
    (h : ∀ i, k ≤ i → i < k + 8 → m'.getD i 0 = m.getD i 0) : ptr_at m' k = ptr_at m k := by
  unfold ptr_at
  rw [h k (by omega) (by omega), h (k + 1) (by omega) (by omega), h (k + 2) (by omega) (by omega),
    h (k + 3) (by omega) (by omega), h (k + 4) (by omega) (by omega),
    h (k + 5) (by omega) (by omega), h (k + 6) (by omega) (by omega),
    h (k + 7) (by omega) (by omega)]

theorem ptr_at_splice_same (m : List Nat) (k p : Nat) (h : k + 8 ≤ m.length) (hp : p < 2 ^ 64) :
    ptr_at (splice m k (ptr_bytes p)) k = p := by
  have e : ∀ j, j < 8 → (splice m k (ptr_bytes p)).getD (k + j) 0 = (ptr_bytes p).getD j 0 := by
    intro j hj
    rw [splice_getD m (ptr_bytes p) k (k + j) (by rw [ptr_bytes_length]; exact h),
      if_neg (by omega), if_pos (by rw [ptr_bytes_length]; omega)]
    congr 1
    omega
  unfold ptr_at
  have e0 := e 0 (by omega)
  rw [Nat.add_zero] at e0
  rw [e0, e 1 (by omega), e 2 (by omega), e 3 (by omega), e 4 (by omega), e 5 (by omega),
    e 6 (by omega), e 7 (by omega)]
  simp only [ptr_bytes, List.getD_cons_zero, List.getD_cons_succ]
  norm_num at hp ⊢
  omega

theorem wr_bytes_of_in (c : hoxml_context_t) (a : Nat) (bs : List Nat) (h : c.buffer ≤ a)
    (h2 : a - c.buffer + bs.length ≤ c.mem.length) :
    wr_bytes c a bs = { c with mem := splice c.mem (a - c.buffer) bs } := by
  simp [wr_bytes, in_buffer, h, h2]

theorem touch_of_in (c : hoxml_context_t) (a n : Nat) (h : c.buffer ≤ a)
    (h2 : a - c.buffer + n ≤ c.mem.length) : touch c a n = c := by
  simp [touch, in_buffer, h, h2]

theorem rebase_lt (c : hoxml_context_t) (buffer p : Nat) : rebase c buffer p < 2 ^ 64 :=
  Nat.mod_lt _ (by norm_num)

/-- Storing the pointer `v1` at index `k + 8` and then `v2` at index `k`. -/
theorem splice_two_ptrs (m : List Nat) (k v1 v2 : Nat) (hk : k + 16 ≤ m.length)
    (h1 : v1 < 2 ^ 64) (h2 : v2 < 2 ^ 64) :
    (splice m (k + 8) (ptr_bytes v1)).length = m.length ∧
    (∀ i, (i < k + 8 ∨ k + 16 ≤ i) → (splice m (k + 8) (ptr_bytes v1)).getD i 0 = m.getD i 0) ∧
    ptr_at (splice m (k + 8) (ptr_bytes v1)) (k + 8) = v1 ∧
    ptr_at (splice m (k + 8) (ptr_bytes v1)) k = ptr_at m k ∧
    (splice (splice m (k + 8) (ptr_bytes v1)) k (ptr_bytes v2)).length = m.length ∧
    (∀ i, (i < k ∨ k + 16 ≤ i) →
      (splice (splice m (k + 8) (ptr_bytes v1)) k (ptr_bytes v2)).getD i 0 = m.getD i 0) ∧
    ptr_at (splice (splice m (k + 8) (ptr_bytes v1)) k (ptr_bytes v2)) (k + 8) = v1 ∧
    ptr_at (splice (splice m (k + 8) (ptr_bytes v1)) k (ptr_bytes v2)) k = v2 := by
  have hlen1 : (splice m (k + 8) (ptr_bytes v1)).length = m.length :=
    splice_length _ _ _ (by rw [ptr_bytes_length]; omega)
  have hget1 : ∀ i, (i < k + 8 ∨ k + 16 ≤ i) →
      (splice m (k + 8) (ptr_bytes v1)).getD i 0 = m.getD i 0 := by
    intro i hi
    rw [splice_getD _ _ _ _ (by rw [ptr_bytes_length]; omega)]
    rcases hi with hi | hi
    · rw [if_pos (by omega)]
    · rw [if_neg (by omega), if_neg (by rw [ptr_bytes_length]; omega)]
  have hend1 : ptr_at (splice m (k + 8) (ptr_bytes v1)) (k + 8) = v1 :=
    ptr_at_splice_same _ _ _ (by omega) h1
  have hget2 : ∀ i, (i < k ∨ k + 8 ≤ i) →
      (splice (splice m (k + 8) (ptr_bytes v1)) k (ptr_bytes v2)).getD i 0 =
        (splice m (k + 8) (ptr_bytes v1)).getD i 0 := by
    intro i hi
    rw [splice_getD _ _ k _ (by rw [ptr_bytes_length, hlen1]; omega)]
    rcases hi with hi | hi
    · rw [if_pos (by omega)]
    · rw [if_neg (by omega), if_neg (by rw [ptr_bytes_length]; omega)]
  refine ⟨hlen1, hget1, hend1, ?_, ?_, ?_, ?_, ?_⟩
  · exact ptr_at_congr _ _ _ (fun i hi1 hi2 => hget1 i (Or.inl (by omega)))
  · rw [splice_length _ _ _ (by rw [ptr_bytes_length, hlen1]; omega), hlen1]
  · intro i hi
    rw [hget2 i (by omega), hget1 i (by omega)]
  · exact (ptr_at_congr _ _ _ (fun i hi1 hi2 => hget2 i (Or.inr (by omega)))).trans hend1
  · exact ptr_at_splice_same _ _ _ (by rw [hlen1]; omega) h2

/-- The loop body of `hoxml_realloc` on a frame whose header is in the buffer only changes
the buffer content. -/
theorem hoxml_realloc_node_eq (buffer : Nat) (c : hoxml_context_t) (n : Nat)
    (hb : c.buffer ≤ n) (hk : n - c.buffer + 17 ≤ c.mem.length) :
    hoxml_realloc_node buffer c n = { c with mem := hoxml_realloc_node_mem buffer c n } := by
  have hb8 : c.buffer ≤ n + 8 := by omega
  have hsub : n + 8 - c.buffer = n - c.buffer + 8 := by omega
  obtain ⟨hlen1, -, -, hpar1, -⟩ := splice_two_ptrs c.mem (n - c.buffer)
    (rebase c buffer (node_end c n)) 0 (by omega) (rebase_lt _ _ _) (by norm_num)
  unfold hoxml_realloc_node
  rw [touch_of_in c n HOXML_NODE_TAG hb (by simpa [HOXML_NODE_TAG] using hk)]
  have h1 : set_node_end c n (rebase c buffer (node_end c n)) =
      { c with mem := splice c.mem (n - c.buffer + 8) (ptr_bytes (rebase c buffer (node_end c n))) } := by
    unfold set_node_end wr_ptr
    rw [wr_bytes_of_in _ _ _ (by simpa [HOXML_NODE_END] using hb8)
      (by simp only [HOXML_NODE_END, ptr_bytes_length]; omega)]
    simp only [HOXML_NODE_END, hsub]
  have hpar : node_parent { c with mem := splice c.mem (n - c.buffer + 8) (ptr_bytes (rebase c buffer (node_end c n))) } n = node_parent c n := by
    simp only [node_parent, rd_ptr, hb, if_true]
    exact hpar1
  simp only [h1, hpar, hoxml_realloc_node_mem]
  by_cases hp : node_parent c n = 0
  · simp only [hp, ne_eq, not_true_eq_false, if_false, if_true]
  · simp only [hp, ne_eq, not_false_eq_true, if_false, if_true]
    unfold wr_ptr
    rw [wr_bytes_of_in _ _ _ (by simpa using hb) (by simp only [ptr_bytes_length, hlen1]; omega)]
    rfl

/-- The facts about the buffer content after the loop body of `hoxml_realloc`. -/
theorem hoxml_realloc_node_mem_spec (buffer : Nat) (c : hoxml_context_t) (n : Nat)
    (hb : c.buffer ≤ n) (hk : n - c.buffer + 16 ≤ c.mem.length) :
    (hoxml_realloc_node_mem buffer c n).length = c.mem.length ∧
    (∀ i, (i < n - c.buffer ∨ n - c.buffer + 16 ≤ i) →
      (hoxml_realloc_node_mem buffer c n).getD i 0 = c.mem.getD i 0) ∧
    ptr_at (hoxml_realloc_node_mem buffer c n) (n - c.buffer + 8) =
      rebase c buffer (node_end c n) ∧
    ptr_at (hoxml_realloc_node_mem buffer c n) (n - c.buffer) =
      (if node_parent c n = 0 then 0 else rebase c buffer (node_parent c n)) := by
  obtain ⟨hlen1, hget1, hend1, hpar1, hlen2, hget2, hend2, hpar2⟩ :=
    splice_two_ptrs c.mem (n - c.buffer) (rebase c buffer (node_end c n))
      (rebase c buffer (node_parent c n)) hk (rebase_lt _ _ _) (rebase_lt _ _ _)
  unfold hoxml_realloc_node_mem
  by_cases hp : node_parent c n = 0
  · simp only [hp, if_true]
    refine ⟨hlen1, fun i hi => hget1 i (by omega), hend1, ?_⟩
    rw [hpar1]
    simpa [node_parent, rd_ptr, hb] using hp
  · simp only [hp, if_false]
    exact ⟨hlen2, hget2, hend2, hpar2⟩

/-! ## Lemmas on the stack of frames -/

theorem frames_ok_cons (c : hoxml_context_t) (bound node n : Nat) (rest : List Nat) :
    frames_ok c bound node (n :: rest) = true ↔
      node = n ∧ n ≠ 0 ∧ c.buffer ≤ n ∧ n + 17 ≤ bound ∧ n + 16 ≤ node_end c n ∧
        node_end c n < c.buffer + c.mem.length ∧ frames_ok c n (node_parent c n) rest = true := by
  simp only [frames_ok, Bool.and_eq_true, beq_iff_eq, bne_iff_ne, decide_eq_true_eq,
    HOXML_NODE_TAG, HOXML_NODE_FLAGS, ne_eq, and_assoc]

/-- Every frame of a well-formed stack has its header in the buffer below the bound. -/
theorem frames_ok_mem (c : hoxml_context_t) : ∀ (frames : List Nat) (bound node : Nat),
    frames_ok c bound node frames = true → ∀ n ∈ frames, c.buffer ≤ n ∧ n + 17 ≤ bound ∧ n ≠ 0 := by
  intro frames
  induction frames with
  | nil => intro _ _ _ n hn; cases hn
  | cons a rest ih =>
    intro bound node h n hn
    rw [frames_ok_cons] at h
    obtain ⟨-, h0, hb, hbound, -, -, hrest⟩ := h
    rcases List.mem_cons.mp hn with rfl | hn
    · exact ⟨hb, hbound, h0⟩
    · have := ih a _ hrest n hn
      exact ⟨this.1, by omega, this.2.2⟩

/-- The node from which a well-formed stack starts is `NULL` or the first frame. -/
theorem frames_ok_node (c : hoxml_context_t) (frames : List Nat) (bound node : Nat)
    (h : frames_ok c bound node frames = true) :
    node = 0 ∨ (node ∈ frames ∧ c.buffer ≤ node ∧ node + 17 ≤ bound) := by
  cases frames with
  | nil => left; simpa [frames_ok] using h
  | cons a rest =>
    rw [frames_ok_cons] at h
    obtain ⟨rfl, -, hb, hbound, -⟩ := h
    exact Or.inr ⟨List.mem_cons_self _ _, hb, hbound⟩

/-- Well-formedness of a stack only depends on the buffer content below the bound. -/
theorem frames_ok_congr (c : hoxml_context_t) (m : List Nat) (hlen : m.length = c.mem.length) :
    ∀ (frames : List Nat) (bound node : Nat),
    (∀ i, i + c.buffer < bound → m.getD i 0 = c.mem.getD i 0) →
    frames_ok c bound node frames = true →
    frames_ok { c with mem := m } bound node frames = true := by
  intro frames
  induction frames with
  | nil => intro _ _ _ h; simpa [frames_ok] using h
  | cons a rest ih =>
    intro bound node hagree h
    rw [frames_ok_cons] at h ⊢
    obtain ⟨h1, h0, hb, hbound, hend1, hend2, hrest⟩ := h
    have he : node_end { c with mem := m } a = node_end c a := by
      simp only [node_end, rd_ptr, HOXML_NODE_END]
      rw [if_pos (by omega), if_pos (by omega)]
      exact ptr_at_congr _ _ _ (fun i hi1 hi2 => hagree i (by omega))
    have hp : node_parent { c with mem := m } a = node_parent c a := by
      simp only [node_parent, rd_ptr]
      rw [if_pos hb, if_pos hb]
      exact ptr_at_congr _ _ _ (fun i hi1 hi2 => hagree i (by omega))
    refine ⟨h1, h0, hb, hbound, by rw [he]; exact hend1, by rw [he]; simpa [hlen] using hend2, ?_⟩
    rw [hp]
    exact ih a _ (fun i hi => hagree i (by omega)) hrest

/-- The loop of `hoxml_realloc` on a well-formed stack ends within `frames.length + 1`
iterations, changes nothing but the buffer content, and there only the `end` and `parent`
fields of the frames, which it rebases. -/
theorem hoxml_realloc_walk_spec (buffer : Nat) :
    ∀ (frames : List Nat) (c : hoxml_context_t) (bound node fuel : Nat),
    frames_ok c bound node frames = true → bound ≤ c.buffer + c.mem.length →
    frames.length < fuel →
    ∃ m, hoxml_realloc_walk buffer fuel c node = some { c with mem := m } ∧
      m.length = c.mem.length ∧
      (∀ i, (∀ n ∈ frames, i < n - c.buffer ∨ n - c.buffer + 16 ≤ i) →
        m.getD i 0 = c.mem.getD i 0) ∧
      (∀ n ∈ frames, ptr_at m (n - c.buffer + 8) = rebase c buffer (node_end c n) ∧
        ptr_at m (n - c.buffer) =
          (if node_parent c n = 0 then 0 else rebase c buffer (node_parent c n))) := by
  intro frames
  induction frames with
  | nil =>
    intro c bound node fuel h _ hfuel
    have hnode : node = 0 := by simpa [frames_ok] using h
    obtain ⟨f, rfl⟩ : ∃ f, fuel = f + 1 := ⟨fuel - 1, by simp at hfuel; omega⟩
    refine ⟨c.mem, ?_, rfl, fun i _ => rfl, fun n hn => by cases hn⟩
    simp [hoxml_realloc_walk, hnode]
  | cons a rest ih =>
    intro c bound node fuel h hbound hfuel
    obtain ⟨f, rfl⟩ : ∃ f, fuel = f + 1 := ⟨fuel - 1, by simp at hfuel; omega⟩
    have hall := frames_ok_mem c _ _ _ h
    rw [frames_ok_cons] at h
    obtain ⟨rfl, h0, hb, hbd, hend1, hend2, hrest⟩ := h
    have hk : node - c.buffer + 17 ≤ c.mem.length := by omega
    obtain ⟨hlen1, hget1, hpe1, hpp1⟩ :=
      hoxml_realloc_node_mem_spec buffer c node hb (by omega)
    have hrest1 : frames_ok { c with mem := hoxml_realloc_node_mem buffer c node } node
        (node_parent c node) rest = true :=
      frames_ok_congr c _ hlen1 rest node _ (fun i hi => hget1 i (Or.inl (by omega))) hrest
    have hbelow := frames_ok_mem c _ _ _ hrest
    obtain ⟨m, hwalk, hlen, hget, hptr⟩ :=
      ih { c with mem := hoxml_realloc_node_mem buffer c node } node (node_parent c node) f
        hrest1 (by simp only [hlen1]; omega) (by simpa using hfuel)
    refine ⟨m, ?_, by rw [hlen, hlen1], ?_, ?_⟩
    · rw [hoxml_realloc_walk, if_neg h0, hoxml_realloc_node_eq buffer c node hb hk]
      exact hwalk
    · intro i hi
      rw [hget i (fun n hn => hi n (List.mem_cons_of_mem _ hn))]
      exact hget1 i (hi node (List.mem_cons_self _ _))
    · intro n hn
      rcases List.mem_cons.mp hn with rfl | hn
      · constructor
        · rw [← hpe1]
          exact ptr_at_congr _ _ _ (fun i hi1 hi2 => hget i (fun x hx => by
            have := hbelow x hx
            right; simp only; omega))
        · rw [← hpp1]
          exact ptr_at_congr _ _ _ (fun i hi1 hi2 => hget i (fun x hx => by
            have := hbelow x hx
            right; simp only; omega))
      · have hn' := hbelow n hn
        obtain ⟨e1, e2⟩ := hptr n hn
        have he : node_end { c with mem := hoxml_realloc_node_mem buffer c node } n =
            node_end c n := by
          simp only [node_end, rd_ptr, HOXML_NODE_END]
          rw [if_pos (by omega), if_pos (by omega)]
          exact ptr_at_congr _ _ _ (fun i hi1 hi2 => hget1 i (Or.inl (by omega)))
        have hp : node_parent { c with mem := hoxml_realloc_node_mem buffer c node } n =
            node_parent c n := by
          simp only [node_parent, rd_ptr]
          rw [if_pos hn'.1, if_pos hn'.1]
          exact ptr_at_congr _ _ _ (fun i hi1 hi2 => hget1 i (Or.inl (by omega)))
        rw [he] at e1
        rw [hp] at e2
        exact ⟨e1, e2⟩

theorem copy_getD (m : List Nat) (n0 n i : Nat) (h0 : m.length = n0) (hn : n0 ≤ n) :
    ((m.take n0 ++ List.replicate n 0).take n).getD i 0 = m.getD i 0 := by
  rw [← h0, List.take_length]
  simp only [List.getD_eq_getElem?_getD, List.getElem?_take]
  by_cases hi : i < m.length
  · rw [if_pos (by omega), List.getElem?_append_left hi]
  · have e : m[i]? = none := List.getElem?_eq_none (by omega)
    rw [e]
    split_ifs
    · rw [List.getElem?_append_right (by omega), List.getElem?_replicate]
      split_ifs <;> rfl
    · rfl

theorem copy_length (m : List Nat) (n0 n : Nat) :
    ((m.take n0 ++ List.replicate n 0).take n).length = n := by
  simp only [List.length_take, List.length_append, List.length_replicate]
  omega

theorem getD_drop_nat (m : List Nat) (k j : Nat) : (m.drop k).getD j 0 = m.getD (k + j) 0 := by
  simp only [List.getD_eq_getElem?_getD, List.getElem?_drop]

/-- Two lists that agree on the C string at the start of the first one, terminator
included, have the same C string at their start. -/
theorem takeWhile_congr : ∀ (a b : List Nat),
    (∀ j, j ≤ (a.takeWhile (fun x => x != 0)).length → b.getD j 0 = a.getD j 0) →
    b.takeWhile (fun x => x != 0) = a.takeWhile (fun x => x != 0) := by
  intro a
  induction a with
  | nil =>
    intro b h
    have h0 := h 0 (by simp)
    cases b with
    | nil => rfl
    | cons y b' =>
      have hy : y = 0 := by simpa using h0
      simp [List.takeWhile_cons, hy]
  | cons x a' ih =>
    intro b h
    by_cases hx : x = 0
    · have h0 := h 0 (by simp)
      cases b with
      | nil => simp [List.takeWhile_cons, hx]
      | cons y b' =>
        have hy : y = 0 := by simpa [hx] using h0
        simp [List.takeWhile_cons, hx, hy]
    · have hlen : ((x :: a').takeWhile (fun x => x != 0)).length =
          (a'.takeWhile (fun x => x != 0)).length + 1 := by
        simp [List.takeWhile_cons, hx]
      have h0 := h 0 (by omega)
      cases b with
      | nil => exact absurd (by simpa using h0 : (0 : Nat) = x).symm hx
      | cons y b' =>
        have hy : y = x := by simpa using h0
        subst hy
        have := ih b' (fun j hj => by
          have := h (j + 1) (by omega)
          simpa using this)
        simp [List.takeWhile_cons, hx, this]

/-- A well-formed stack of `k` frames needs `17 k` bytes below its bound. -/
theorem frames_ok_length (c : hoxml_context_t) : ∀ (frames : List Nat) (bound node : Nat),
    frames_ok c bound node frames = true → c.buffer ≤ bound →
    frames.length * 17 + c.buffer ≤ bound := by
  intro frames
  induction frames with
  | nil => intro bound _ _ hb; simpa using hb
  | cons a rest ih =>
    intro bound node h _
    rw [frames_ok_cons] at h
    obtain ⟨-, -, hb, hbound, -, -, hrest⟩ := h
    have := ih a _ hrest hb
    simp only [List.length_cons]
    omega

/-- The links of every frame of a well-formed stack point into the buffer. -/
theorem frames_ok_links (c : hoxml_context_t) : ∀ (frames : List Nat) (bound node : Nat),
    frames_ok c bound node frames = true → ∀ n ∈ frames,
      (node_parent c n = 0 ∨ (c.buffer ≤ node_parent c n ∧ node_parent c n + 17 ≤ n)) ∧
      n + 16 ≤ node_end c n ∧ node_end c n < c.buffer + c.mem.length := by
  intro frames
  induction frames with
  | nil => intro _ _ _ n hn; cases hn
  | cons a rest ih =>
    intro bound node h n hn
    rw [frames_ok_cons] at h
    obtain ⟨-, -, -, -, hend1, hend2, hrest⟩ := h
    rcases List.mem_cons.mp hn with rfl | hn
    · refine ⟨?_, hend1, hend2⟩
      rcases frames_ok_node c rest n _ hrest with h0 | ⟨-, h1, h2⟩
      · exact Or.inl h0
      · exact Or.inr ⟨h1, h2⟩
    · exact ih a _ hrest n hn

/-- A pointer into the old buffer is rebased to the same offset in the new one. -/
theorem rebase_eq_moved (c : hoxml_context_t) (buffer p : Nat) (h0 : p ≠ 0) (hb : c.buffer ≤ p)
    (hp : p < 2 ^ 64) (hnew : buffer + (p - c.buffer) < 2 ^ 64) :
    rebase c buffer p = moved c buffer p := by
  unfold rebase moved
  rw [if_neg h0]
  norm_num at hp hnew ⊢
  omega

/-- On a well-formed stack `hoxml_realloc` with a longer buffer returns; the loop has
produced a buffer content `m` that differs from the old one only in the rebased links. -/
theorem hoxml_realloc_some (c : hoxml_context_t) (frames : List Nat) (buffer buffer_length : Nat)
    (hok : frames_ok c (c.buffer + c.mem.length) c.stack frames = true)
    (hlen : c.buffer_length < buffer_length) :
    ∃ m, hoxml_realloc c buffer buffer_length =
        some (hoxml_realloc_finish { c with mem := m } buffer buffer_length) ∧
      m.length = c.mem.length ∧
      (∀ i, (∀ n ∈ frames, i < n - c.buffer ∨ n - c.buffer + 16 ≤ i) →
        m.getD i 0 = c.mem.getD i 0) ∧
      (∀ n ∈ frames, ptr_at m (n - c.buffer + 8) = rebase c buffer (node_end c n) ∧
        ptr_at m (n - c.buffer) =
          (if node_parent c n = 0 then 0 else rebase c buffer (node_parent c n))) := by
  have hfuel : frames.length < c.mem.length + 1 := by
    have := frames_ok_length c _ _ _ hok (by omega)
    omega
  obtain ⟨m, hwalk, hm⟩ := hoxml_realloc_walk_spec buffer frames c _ _ _ hok (le_refl _) hfuel
  refine ⟨m, ?_, hm⟩
  unfold hoxml_realloc
  rw [if_neg (by omega), hwalk]

theorem hoxml_realloc_finish_buffer (c : hoxml_context_t) (buffer buffer_length : Nat) :
    (hoxml_realloc_finish c buffer buffer_length).buffer = buffer := rfl

theorem hoxml_realloc_finish_mem (c : hoxml_context_t) (m : List Nat)
    (buffer buffer_length : Nat) :
    (hoxml_realloc_finish { c with mem := m } buffer buffer_length).mem =
      (m.take c.buffer_length ++ List.replicate buffer_length 0).take buffer_length := rfl

/-- A public pointer of a well-formed context is rebased to the same offset, and the
C string it points to is the same in the new buffer. -/
theorem string_moved (c : hoxml_context_t) (frames : List Nat) (buffer buffer_length : Nat)
    (m : List Nat) (p : Nat) (hmem : c.mem.length = c.buffer_length)
    (hlen : c.buffer_length < buffer_length) (hpos : 0 < buffer)
    (hold : c.buffer + c.buffer_length ≤ 2 ^ 64) (hnew : buffer + buffer_length ≤ 2 ^ 64)
    (hm : m.length = c.mem.length)
    (hget : ∀ i, (∀ n ∈ frames, i < n - c.buffer ∨ n - c.buffer + 16 ≤ i) →
      m.getD i 0 = c.mem.getD i 0)
    (hfr : ∀ n ∈ frames, c.buffer ≤ n) (hs : string_ok c frames p = true) :
    (if p ≠ 0 then rebase c buffer p else p) = moved c buffer p ∧
    observe_string (hoxml_realloc_finish { c with mem := m } buffer buffer_length)
      (moved c buffer p) = observe_string c p := by
  by_cases hp : p = 0
  · subst hp
    simp [moved, observe_string]
  · simp only [string_ok, Bool.or_eq_true, beq_iff_eq, Bool.and_eq_true, decide_eq_true_eq,
      List.all_eq_true, HOXML_NODE_FLAGS] at hs
    rcases hs with hs | ⟨⟨hb, hlt⟩, hall⟩
    · exact absurd hs hp
    · have hp64 : p < 2 ^ 64 := by omega
      have hn64 : buffer + (p - c.buffer) < 2 ^ 64 := by omega
      refine ⟨by rw [if_pos hp]; exact rebase_eq_moved c buffer p hp hb hp64 hn64, ?_⟩
      have hmv : moved c buffer p = buffer + (p - c.buffer) := by simp [moved, hp]
      have hmv0 : buffer + (p - c.buffer) ≠ 0 := by omega
      rw [hmv]
      simp only [observe_string, if_neg hp, if_neg hmv0, cstr, mem_at]
      rw [if_pos hb]
      rw [hoxml_realloc_finish_buffer, hoxml_realloc_finish_mem, if_pos (by omega),
        Nat.add_sub_cancel_left]
      congr 1
      apply takeWhile_congr
      intro j hj
      rw [getD_drop_nat, getD_drop_nat, copy_getD m c.buffer_length buffer_length _ (by rw [hm, hmem]) (by omega)]
      apply hget
      intro n hn
      have hbn := hfr n hn
      rcases hall n hn with h1 | h1
      · right; omega
      · left
        have : cstr c p = List.takeWhile (fun b => b != 0) (List.drop (p - c.buffer) c.mem) := by
          simp [cstr, mem_at, hb]
        rw [this] at h1
        omega

/-! ## Lemmas on the control fields -/

theorem touch_state (c : hoxml_context_t) (a n : Nat) : (touch c a n).state = c.state := by
  unfold touch; split <;> rfl

theorem wr_bytes_state (c : hoxml_context_t) (a : Nat) (bs : List Nat) :
    (wr_bytes c a bs).state = c.state := by
  unfold wr_bytes; split <;> rfl

theorem touch_return_state (c : hoxml_context_t) (a n : Nat) :
    (touch c a n).return_state = c.return_state := by
  unfold touch; split <;> rfl

theorem wr_bytes_return_state (c : hoxml_context_t) (a : Nat) (bs : List Nat) :
    (wr_bytes c a bs).return_state = c.return_state := by
  unfold wr_bytes; split <;> rfl

/-- A push either fails with the insufficient-memory state or leaves the state as it was. -/
theorem hoxml_push_stack_state (c : hoxml_context_t) :
    (hoxml_push_stack c).state = HOXML_STATE_ERROR_INSUFFICIENT_MEMORY ∨
      (hoxml_push_stack c).state = c.state := by
  unfold hoxml_push_stack
  simp only []
  have h0 : (if c.stack ≠ 0 then touch c c.stack HOXML_NODE_TAG else c).state = c.state := by
    split
    · exact touch_state _ _ _
    · rfl
  generalize (if c.stack ≠ 0 then touch c c.stack HOXML_NODE_TAG else c) = c0 at h0 ⊢
  split
  · left; rfl
  · right
    rw [← h0]
    generalize (if c0.stack = 0 then c0.buffer else node_end c0 c0.stack + 1) = node
    show (if node ≠ 0 then set_node_end (wr_ptr c0 node c0.stack) node (node + HOXML_NODE_TAG - 1)
      else c0).state = c0.state
    split
    · simp only [set_node_end, wr_ptr, wr_bytes_state]
    · rfl

/-- After a successful `hoxml_begin_tag` the return state is the state in which `<` was
read. -/
theorem hoxml_begin_tag_return_state (c : hoxml_context_t)
    (h : (hoxml_begin_tag c).state = HOXML_STATE_TAG_BEGIN)
    (hs : c.state ≠ HOXML_STATE_TAG_BEGIN) :
    (hoxml_begin_tag c).return_state = c.state := by
  unfold hoxml_begin_tag at h ⊢
  simp only [] at h ⊢
  rcases hoxml_push_stack_state c with hp | hp
  · rw [if_neg (by rw [hp]; decide)] at h
    rw [hp] at h
    exact absurd h (by decide)
  · split
    · exact hp
    · rename_i hge
      rw [if_neg hge, hp] at h
      exact absurd h hs

/-! ## Lemmas on the decoder and the carry-over word -/

theorem set_byte_zero_mod (w b : Nat) : set_byte w 0 b % 256 = b % 256 := by
  unfold set_byte u32_byte
  simp only [pow_zero, Nat.div_one, Nat.mul_one]
  have := Nat.mod_le w 256
  omega

theorem set_byte_succ_mod (w i b : Nat) (hi : 0 < i) : set_byte w i b % 256 = w % 256 := by
  unfold set_byte u32_byte
  obtain ⟨j, rfl⟩ : ∃ j, i = j + 1 := ⟨i - 1, by omega⟩
  have hp : 256 ^ (j + 1) = 256 * 256 ^ j := by rw [pow_succ]; ring
  have h1 : w / 256 ^ (j + 1) % 256 * 256 ^ (j + 1) ≤ w :=
    le_trans (Nat.mul_le_mul_right _ (Nat.mod_le _ _)) (Nat.div_mul_le_self w _)
  rw [hp] at h1 ⊢
  have e1 : w / (256 * 256 ^ j) % 256 * (256 * 256 ^ j) =
      256 * (w / (256 * 256 ^ j) % 256 * 256 ^ j) := by ring
  have e2 : b % 256 * (256 * 256 ^ j) = 256 * (b % 256 * 256 ^ j) := by ring
  rw [e1] at h1 ⊢
  rw [e2]
  generalize w / (256 * 256 ^ j) % 256 * 256 ^ j = u at h1 ⊢
  generalize b % 256 * 256 ^ j = v
  omega

theorem store_stream_mod : ∀ (bs : List Nat) (s off : Nat), 0 < off →
    store_stream s off bs % 256 = s % 256 := by
  intro bs
  induction bs with
  | nil => intro s off _; rfl
  | cons b bs ih =>
    intro s off h
    show store_stream (if off < 4 then set_byte s off b else s) (off + 1) bs % 256 = s % 256
    rw [ih _ _ (Nat.succ_pos off)]
    split
    · exact set_byte_succ_mod s off b h
    · rfl

theorem xml_bytes_succ (xml : Nat) (data : List Nat) (a n : Nat) :
    xml_bytes xml data a (n + 1) =
      xml_rd xml data a :: (List.range n).map (fun i => xml_rd xml data (a + (i + 1))) := by
  unfold xml_bytes
  rw [List.range_succ_eq_map]
  simp [List.map_map, Function.comp_def]

/-- The first byte of the carry-over word is the input byte at the iterator when nothing is
carried and at least one byte is copied. -/
theorem fill_stream_mod (s k xml : Nat) (data : List Nat) (a : Nat) (hk : 1 ≤ k) :
    fill_stream s 0 k xml data a % 256 = xml_rd xml data a % 256 := by
  unfold fill_stream
  split
  · obtain ⟨n, rfl⟩ : ∃ n, k = n + 1 := ⟨k - 1, by omega⟩
    rw [xml_bytes_succ]
    show store_stream (if 0 < 4 then set_byte s 0 (xml_rd xml data a) else s) (0 + 1) _ % 256 = _
    rw [store_stream_mod _ _ _ (by decide), if_pos (by decide), set_byte_zero_mod]
  · rw [xml_bytes_succ]
    unfold load_u32
    simp only [List.getD_cons_zero]
    omega

/-- Without a byte-order mark every byte is one character: its code point and its encoded
form are the first byte of the word. -/
theorem hoxml_dec_char_unknown (sc : Bool) (w n : Nat) (h : 1 ≤ n) :
    hoxml_dec_char sc (u32_bytes w) n HOXML_ENC_UNKNOWN =
      { encoded := w % 256, decoded := w % 256, bytes := 1 } := by
  have h255 : ∀ x : Nat, x &&& 0x000000FF = x % 256 := fun x =>
    Nat.and_pow_two_sub_one_eq_mod x 8
  have hb : (u32_bytes w).getD 0 0 = w % 256 := by simp [u32_bytes, u32_byte]
  unfold hoxml_dec_char
  simp only [if_neg (show ¬ (1 > n) by omega), if_true, h255]
  congr 1
  · unfold load_u32
    rw [hb]
    omega
  · unfold char_at
    simp only [hb]
    split <;> omega

/-- One iteration of the loop of `hoxml_parse` in a document without byte-order mark, with
nothing carried over, at the input byte `b` at offset `k`, which is neither zero nor a new
line: the byte is decoded as the character `b`, the iterator advances by one, and the
`switch` is run. -/
theorem hoxml_parse_loop_step (sc : Bool) (xml : Nat) (data : List Nat) (fuel : Nat)
    (c : hoxml_context_t) (bti k b : Nat)
    (hst : c.state.in_loop = true) (hsl : c.stream_length = 0)
    (henc : c.encoding = HOXML_ENC_UNKNOWN) (hxml : c.xml = xml) (hit : c.iterator = xml + k)
    (hlen : c.xml_length = data.length) (hk : k < data.length) (hN : data.length < 2 ^ 64)
    (hb : data.getD k 0 = b) (hb0 : 0 < b) (hb1 : b < 256) (hnl : HOXML_IS_NEW_LINE b = false) :
    ∃ s col, hoxml_parse_loop sc xml data (fuel + 1) c bti =
      match hoxml_parse_switch sc
          { c with stream := s, column := col, iterator := xml + k + 1, stream_length := 0 }
          { encoded := b, decoded := b, bytes := 1 } with
      | ret code c => some (code, c)
      | next c => hoxml_parse_loop sc xml data fuel c 1 := by
  have hrem : ptr_sub c.xml_length (ptr_sub (xml + k) c.xml) = data.length - k := by
    unfold ptr_sub
    rw [hxml, hlen]
    omega
  have hcopy : 1 ≤ ((if data.length - k ≤ 4 then data.length - k else 4) + 256 - 0) % 256 := by
    split
    · omega
    · decide
  refine ⟨fill_stream c.stream 0
    (((if data.length - k ≤ 4 then data.length - k else 4) + 256 - 0) % 256) xml data (xml + k),
    (c.column + 1) % 2 ^ 32, ?_⟩
  have hmod := fill_stream_mod c.stream
    (((if data.length - k ≤ 4 then data.length - k else 4) + 256 - 0) % 256) xml data (xml + k)
    hcopy
  have hrd : xml_rd xml data (xml + k) = b := by
    unfold xml_rd
    rw [if_pos (by omega), Nat.add_sub_cancel_left, hb]
  rw [hrd, Nat.mod_eq_of_lt hb1] at hmod
  rw [hoxml_parse_loop]
  simp only [hst, if_true, hrem, hsl, henc, hit]
  rw [hoxml_dec_char_unknown sc _ _ (show 1 ≤ data.length - k by omega), hmod]
  simp only [hnl, UINT32_MAX]
  rw [if_neg (by omega)]
  simp only [Bool.false_eq_true, if_false]

/-! ## Lemmas on a stack of one frame -/

theorem memset0_of_in (c : hoxml_context_t) (a n : Nat) (h : c.buffer ≤ a)
    (h2 : a - c.buffer + n ≤ c.mem.length) :
    memset0 c a n = { c with mem := splice c.mem (a - c.buffer) (List.replicate n 0) } := by
  unfold memset0 in_buffer
  simp [h, h2]

theorem rd_ptr_of_in (c : hoxml_context_t) (k : Nat) :
    rd_ptr c (c.buffer + k) = ptr_at c.mem k := by
  unfold rd_ptr
  rw [if_pos (by omega), Nat.add_sub_cancel_left]

theorem rd8_of_in (c : hoxml_context_t) (k : Nat) :
    rd8 c (c.buffer + k) = c.mem.getD k 0 := by
  unfold rd8
  rw [if_pos (by omega), Nat.add_sub_cancel_left]

/-- The push of the first frame into a zeroed buffer of at least 25 bytes. -/
theorem hoxml_push_stack_root (c : hoxml_context_t) (hs : c.stack = 0) (hb : 0 < c.buffer)
    (hl : c.mem.length = c.buffer_length) (hL : 25 ≤ c.buffer_length)
    (h64 : c.buffer + c.buffer_length ≤ 2 ^ 64) (hz : ∀ i, c.mem.getD i 0 = 0) :
    ∃ m, hoxml_push_stack c = { c with stack := c.buffer, mem := m } ∧
      root_frame_mem m c.buffer c.buffer_length 0 [] := by
  have e1 : wr_ptr c c.buffer c.stack = { c with mem := splice c.mem 0 (ptr_bytes 0) } := by
    unfold wr_ptr
    rw [wr_bytes_of_in c c.buffer _ (le_refl _) (by rw [ptr_bytes_length]; omega), hs,
      Nat.sub_self]
  have l1 : (splice c.mem 0 (ptr_bytes 0)).length = c.mem.length :=
    splice_length _ _ _ (by rw [ptr_bytes_length]; omega)
  have e2 : set_node_end { c with mem := splice c.mem 0 (ptr_bytes 0) } c.buffer
      (c.buffer + HOXML_NODE_TAG - 1) =
      { c with mem := splice (splice c.mem 0 (ptr_bytes 0)) 8 (ptr_bytes (c.buffer + 16)) } := by
    unfold set_node_end wr_ptr
    rw [wr_bytes_of_in _ _ _ (by show c.buffer ≤ c.buffer + HOXML_NODE_END; omega)
      (by show c.buffer + HOXML_NODE_END - c.buffer + (ptr_bytes _).length ≤
            (splice c.mem 0 (ptr_bytes 0)).length
          rw [l1, ptr_bytes_length, Nat.add_sub_cancel_left]
          show 8 + 8 ≤ c.mem.length
          omega)]
    simp only [Nat.add_sub_cancel_left]
    rfl
  refine ⟨splice (splice c.mem 0 (ptr_bytes 0)) 8 (ptr_bytes (c.buffer + 16)), ?_, ?_⟩
  · unfold hoxml_push_stack
    have h0 : (if c.stack ≠ 0 then touch c c.stack HOXML_NODE_TAG else c) = c :=
      if_neg (by simp [hs])
    have hnode : (if c.stack = 0 then c.buffer else node_end c c.stack + 1) = c.buffer :=
      if_pos hs
    have hc : ¬ ((c.stack = 0 ∧ HOXML_SIZEOF_NODE ≥ c.buffer_length) ∨
        (c.stack ≠ 0 ∧
          node_end c c.stack + 1 + HOXML_SIZEOF_NODE ≥ c.buffer + c.buffer_length)) := by
      have : ¬ (HOXML_SIZEOF_NODE ≥ c.buffer_length) := by
        show ¬ (24 ≥ c.buffer_length)
        omega
      simp [hs, this]
    simp only [h0, hnode]
    rw [if_neg hc, if_pos (by omega), e1, e2]
  · have g : ∀ i, (splice (splice c.mem 0 (ptr_bytes 0)) 8 (ptr_bytes (c.buffer + 16))).getD i 0 =
        if i < 8 then (splice c.mem 0 (ptr_bytes 0)).getD i 0
        else if i < 8 + 8 then (ptr_bytes (c.buffer + 16)).getD (i - 8) 0
        else (splice c.mem 0 (ptr_bytes 0)).getD i 0 := fun i =>
      splice_getD _ _ 8 i (by rw [l1, ptr_bytes_length]; omega)
    have g0 : ∀ i, 8 ≤ i → (splice c.mem 0 (ptr_bytes 0)).getD i 0 = 0 := by
      intro i hi
      rw [splice_getD _ _ 0 i (by rw [ptr_bytes_length]; omega), if_neg (by omega),
        if_neg (by rw [ptr_bytes_length]; omega)]
      exact hz i
    refine ⟨?_, ?_, ?_, ?_, ?_, ?_⟩
    · rw [splice_length _ _ _ (by rw [l1, ptr_bytes_length]; omega), l1, hl]
    · rw [ptr_at_congr (splice c.mem 0 (ptr_bytes 0)) _ 0
        (fun i _ h2 => by rw [g i, if_pos (by omega)])]
      exact ptr_at_splice_same _ 0 0 (by omega) (by decide)
    · exact ptr_at_splice_same _ 8 _ (by rw [l1]; omega) (by omega)
    · rw [g 16, if_neg (by omega), if_neg (by omega)]
      exact g0 16 (by omega)
    · intro i hi
      exact absurd hi (by simp)
    · intro i hi
      simp only [List.length_nil] at hi
      rw [g i, if_neg (by omega), if_neg (by omega)]
      exact g0 i (by omega)

theorem root_touch (c : hoxml_context_t) (hs : c.stack = c.buffer) (hL : 17 ≤ c.mem.length) :
    touch c c.stack HOXML_NODE_TAG = c :=
  touch_of_in c c.stack _ (by omega) (by rw [hs, Nat.sub_self]; show 0 + 17 ≤ _; omega)

theorem root_node_flags (c : hoxml_context_t) (hs : c.stack = c.buffer) :
    node_flags c c.stack = c.mem.getD 16 0 := by
  unfold node_flags
  rw [hs]
  exact rd8_of_in c 16

theorem root_node_end (c : hoxml_context_t) (hs : c.stack = c.buffer) :
    node_end c c.stack = ptr_at c.mem 8 := by
  unfold node_end
  rw [hs]
  exact rd_ptr_of_in c 8

theorem root_node_parent (c : hoxml_context_t) (hs : c.stack = c.buffer) :
    node_parent c c.stack = ptr_at c.mem 0 := by
  unfold node_parent
  rw [hs]
  exact rd_ptr_of_in c 0

theorem root_set_node_flags (c : hoxml_context_t) (g : Nat) (hs : c.stack = c.buffer)
    (hL : 17 ≤ c.mem.length) :
    set_node_flags c c.stack g = { c with mem := splice c.mem 16 [g % 256] } := by
  unfold set_node_flags
  rw [wr_bytes_of_in c _ _ (by omega)
    (by rw [hs, Nat.add_sub_cancel_left]; show 16 + 1 ≤ _; omega)]
  rw [hs, Nat.add_sub_cancel_left]
  rfl

theorem root_set_node_end (c : hoxml_context_t) (p : Nat) (hs : c.stack = c.buffer)
    (hL : 17 ≤ c.mem.length) :
    set_node_end c c.stack p = { c with mem := splice c.mem 8 (ptr_bytes p) } := by
  unfold set_node_end wr_ptr
  rw [wr_bytes_of_in c _ _ (by omega)
    (by rw [hs, Nat.add_sub_cancel_left, ptr_bytes_length]; show 8 + 8 ≤ _; omega)]
  rw [hs, Nat.add_sub_cancel_left]
  rfl

theorem wr_bytes_at (c : hoxml_context_t) (k : Nat) (bs : List Nat)
    (h : k + bs.length ≤ c.mem.length) :
    wr_bytes c (c.buffer + k) bs = { c with mem := splice c.mem k bs } := by
  rw [wr_bytes_of_in c _ _ (by omega) (by rw [Nat.add_sub_cancel_left]; exact h),
    Nat.add_sub_cancel_left]

/-- Writing the flags byte of the only frame. -/
theorem root_frame_mem_flags (m : List Nat) (B L f g : Nat) (s : List Nat)
    (h : root_frame_mem m B L f s) (hL : 17 ≤ L) :
    root_frame_mem (splice m 16 [g]) B L g s := by
  obtain ⟨h1, h2, h3, h4, h5, h6⟩ := h
  have g1 : ∀ i, (splice m 16 [g]).getD i 0 =
      if i < 16 then m.getD i 0 else if i < 16 + 1 then [g].getD (i - 16) 0 else m.getD i 0 :=
    fun i => splice_getD m [g] 16 i (by show 16 + 1 ≤ _; omega)
  refine ⟨?_, ?_, ?_, ?_, ?_, ?_⟩
  · rw [splice_length _ _ _ (by show 16 + 1 ≤ _; omega), h1]
  · rw [ptr_at_congr m _ 0 (fun i _ hi => by rw [g1 i, if_pos (by omega)]), h2]
  · rw [ptr_at_congr m _ 8 (fun i _ hi => by rw [g1 i, if_pos (by omega)]), h3]
  · rw [g1 16, if_neg (by omega), if_pos (by omega)]
    rfl
  · intro i hi
    rw [g1, if_neg (by omega), if_neg (by omega)]
    exact h5 i hi
  · intro i hi
    rw [g1, if_neg (by omega), if_neg (by omega)]
    exact h6 i hi

/-- Appending one byte to the string of the only frame and advancing `end`. -/
theorem root_frame_mem_append (m : List Nat) (B L f b : Nat) (s : List Nat)
    (h : root_frame_mem m B L f s) (hroom : s.length + 18 ≤ L) (h64 : B + L ≤ 2 ^ 64) :
    root_frame_mem
      (splice (splice m (17 + s.length) [b]) 8 (ptr_bytes (B + 16 + s.length + 1))) B L f
      (s ++ [b]) := by
  obtain ⟨h1, h2, h3, h4, h5, h6⟩ := h
  have l1 : (splice m (17 + s.length) [b]).length = m.length :=
    splice_length _ _ _ (by show 17 + s.length + 1 ≤ _; omega)
  have g1 : ∀ i, (splice m (17 + s.length) [b]).getD i 0 =
      if i < 17 + s.length then m.getD i 0
      else if i < 17 + s.length + 1 then [b].getD (i - (17 + s.length)) 0 else m.getD i 0 :=
    fun i => splice_getD m [b] _ i (by show 17 + s.length + 1 ≤ _; omega)
  have g2 : ∀ i,
      (splice (splice m (17 + s.length) [b]) 8 (ptr_bytes (B + 16 + s.length + 1))).getD i 0 =
      if i < 8 then (splice m (17 + s.length) [b]).getD i 0
      else if i < 8 + 8 then (ptr_bytes (B + 16 + s.length + 1)).getD (i - 8) 0
      else (splice m (17 + s.length) [b]).getD i 0 :=
    fun i => splice_getD _ _ 8 i (by rw [l1, ptr_bytes_length]; omega)
  refine ⟨?_, ?_, ?_, ?_, ?_, ?_⟩
  · rw [splice_length _ _ _ (by rw [l1, ptr_bytes_length]; omega), l1, h1]
  · rw [ptr_at_congr m _ 0 (fun i _ hi => by
      rw [g2 i, if_pos (by omega), g1 i, if_pos (by omega)]), h2]
  · rw [ptr_at_splice_same _ 8 _ (by rw [l1]; omega) (by omega), List.length_append]
    simp only [List.length_singleton]
    omega
  · rw [g2 16, if_neg (by omega), if_neg (by omega), g1 16, if_pos (by omega), h4]
  · intro i hi
    rw [List.length_append, List.length_singleton] at hi
    rw [g2, if_neg (by omega), if_neg (by omega), g1]
    by_cases hlt : i < s.length
    · rw [if_pos (by omega), h5 i hlt, List.getD_append _ _ _ _ hlt]
    · have hi' : i = s.length := by omega
      subst hi'
      rw [if_neg (by omega), if_pos (by omega), List.getD_append_right _ _ _ _ (le_refl _)]
      simp
  · intro i hi
    rw [List.length_append, List.length_singleton] at hi
    rw [g2, if_neg (by omega), if_neg (by omega), g1, if_neg (by omega), if_neg (by omega)]
    exact h6 i (by omega)

theorem root_node_end_mem (c : hoxml_context_t) (m : List Nat) (hs : c.stack = c.buffer) :
    node_end { c with mem := m } c.stack = ptr_at m 8 :=
  root_node_end { c with mem := m } hs

theorem root_node_flags_mem (c : hoxml_context_t) (m : List Nat) (hs : c.stack = c.buffer) :
    node_flags { c with mem := m } c.stack = m.getD 16 0 :=
  root_node_flags { c with mem := m } hs

theorem root_set_node_end_mem (c : hoxml_context_t) (m : List Nat) (p : Nat)
    (hs : c.stack = c.buffer) (hL : 17 ≤ m.length) :
    set_node_end { c with mem := m } c.stack p = { c with mem := splice m 8 (ptr_bytes p) } :=
  root_set_node_end { c with mem := m } p hs hL

theorem root_set_node_flags_mem (c : hoxml_context_t) (m : List Nat) (g : Nat)
    (hs : c.stack = c.buffer) (hL : 17 ≤ m.length) :
    set_node_flags { c with mem := m } c.stack g = { c with mem := splice m 16 [g % 256] } :=
  root_set_node_flags { c with mem := m } g hs hL

theorem wr_bytes_at_mem (c : hoxml_context_t) (m : List Nat) (k : Nat) (bs : List Nat)
    (h : k + bs.length ≤ m.length) :
    wr_bytes { c with mem := m } (c.buffer + k) bs = { c with mem := splice m k bs } :=
  wr_bytes_at { c with mem := m } k bs h

theorem memset0_at_mem (c : hoxml_context_t) (m : List Nat) (k n : Nat)
    (h : k + n ≤ m.length) :
    memset0 { c with mem := m } (c.buffer + k) n =
      { c with mem := splice m k (List.replicate n 0) } := by
  rw [memset0_of_in _ _ _ (by show c.buffer ≤ c.buffer + k; omega)
    (by show c.buffer + k - c.buffer + n ≤ m.length; rw [Nat.add_sub_cancel_left]; exact h)]
  show ({ c with mem := splice m (c.buffer + k - c.buffer) (List.replicate n 0) } :
    hoxml_context_t) = _
  rw [Nat.add_sub_cancel_left]

/-- The exact effect of `hoxml_append_char` for a one-byte character on a stack of one
frame with room for the byte: only the buffer content changes. -/
theorem hoxml_append_char_root (c : hoxml_context_t) (ch : hoxml_char_t) (f b : Nat)
    (s : List Nat) (hs : c.stack = c.buffer)
    (hm : root_frame_mem c.mem c.buffer c.buffer_length f s)
    (hroom : s.length + 18 ≤ c.buffer_length) (h64 : c.buffer + c.buffer_length ≤ 2 ^ 64)
    (hbytes : ch.bytes = 1) (henc : ch.encoded = b) (hb : b < 256) :
    ∃ m, hoxml_append_char c ch = { c with mem := m } ∧
      root_frame_mem m c.buffer c.buffer_length
        ((f &&& (0xFF ^^^ HOXML_FLAG_TERMINATED)) % 256) (s ++ [b]) := by
  have hlen : c.mem.length = c.buffer_length := hm.1
  have hm1 := root_frame_mem_flags c.mem c.buffer c.buffer_length f
    ((f &&& (0xFF ^^^ HOXML_FLAG_TERMINATED)) % 256) s hm (by omega)
  have hm2 := root_frame_mem_append _ c.buffer c.buffer_length _ b s hm1 hroom h64
  refine ⟨_, ?_, hm2⟩
  have e1 := root_touch c hs (by omega)
  have e2 := root_node_flags c hs
  rw [hm.2.2.2.1] at e2
  have e3 := root_set_node_flags c (f &&& (0xFF ^^^ HOXML_FLAG_TERMINATED)) hs (by omega)
  generalize (f &&& (0xFF ^^^ HOXML_FLAG_TERMINATED)) % 256 = g at hm1 hm2 e3 ⊢
  have l1 : (splice c.mem 16 [g]).length = c.buffer_length := hm1.1
  have l2 : (splice (splice c.mem 16 [g]) (17 + s.length) [b]).length = c.buffer_length := by
    rw [splice_length _ _ _ (by rw [l1]; show 17 + s.length + 1 ≤ _; omega), l1]
  have e4 : node_end { c with mem := splice c.mem 16 [g] } c.stack =
      c.buffer + 16 + s.length := by
    rw [root_node_end_mem c _ hs]
    exact hm1.2.2.1
  have e5 : (u32_bytes ch.encoded).take 1 = [b] := by
    rw [henc]
    simp [u32_bytes, u32_byte, Nat.mod_eq_of_lt hb]
  have e6 : wr_bytes { c with mem := splice c.mem 16 [g] } (c.buffer + 16 + s.length + 1) [b] =
      { c with mem := splice (splice c.mem 16 [g]) (17 + s.length) [b] } := by
    have e6' : c.buffer + 16 + s.length + 1 = c.buffer + (17 + s.length) := by omega
    rw [e6']
    exact wr_bytes_at_mem c (splice c.mem 16 [g]) (17 + s.length) [b]
      (by rw [l1]; show 17 + s.length + 1 ≤ _; omega)
  have e7 : node_end { c with mem := splice (splice c.mem 16 [g]) (17 + s.length) [b] }
      c.stack = c.buffer + 16 + s.length := by
    rw [root_node_end_mem c _ hs]
    rw [ptr_at_congr (splice c.mem 16 [g]) _ 8
      (fun i _ hi => by
        rw [splice_getD _ _ _ i (by rw [l1]; show 17 + s.length + 1 ≤ _; omega),
          if_pos (by omega)])]
    exact hm1.2.2.1
  have e8 := root_set_node_end_mem c (splice (splice c.mem 16 [g]) (17 + s.length) [b])
    (c.buffer + 16 + s.length + 1) hs (by omega)
  unfold hoxml_append_char
  simp only [e1, e2, e3, e4, e5, hbytes]
  rw [if_neg (by omega)]
  simp only [e6, e7, e8]

/-- The exact effect of `hoxml_append_terminator` in a document without byte-order mark on a
stack of one frame whose string is not terminated, with room for the terminator. -/
theorem hoxml_append_terminator_root (c : hoxml_context_t) (f : Nat) (s : List Nat)
    (hs : c.stack = c.buffer) (hm : root_frame_mem c.mem c.buffer c.buffer_length f s)
    (hroom : s.length + 18 ≤ c.buffer_length) (h64 : c.buffer + c.buffer_length ≤ 2 ^ 64)
    (henc : c.encoding = HOXML_ENC_UNKNOWN) (hf : f &&& HOXML_FLAG_TERMINATED = 0) :
    ∃ m, hoxml_append_terminator c = { c with mem := m } ∧
      root_frame_mem m c.buffer c.buffer_length ((f ||| HOXML_FLAG_TERMINATED) % 256)
        (s ++ [0]) := by
  have hlen : c.mem.length = c.buffer_length := hm.1
  have hm1 := root_frame_mem_flags c.mem c.buffer c.buffer_length f
    ((f ||| HOXML_FLAG_TERMINATED) % 256) s hm (by omega)
  have hm2 := root_frame_mem_append _ c.buffer c.buffer_length _ 0 s hm1 hroom h64
  refine ⟨_, ?_, hm2⟩
  have e1 := root_touch c hs (by omega)
  have e2 := root_node_flags c hs
  rw [hm.2.2.2.1] at e2
  have e3 := root_set_node_flags c (f ||| HOXML_FLAG_TERMINATED) hs (by omega)
  generalize (f ||| HOXML_FLAG_TERMINATED) % 256 = g at hm1 hm2 e3 ⊢
  have l1 : (splice c.mem 16 [g]).length = c.buffer_length := hm1.1
  have l2 : (splice (splice c.mem 16 [g]) (17 + s.length) [0]).length = c.buffer_length := by
    rw [splice_length _ _ _ (by rw [l1]; show 17 + s.length + 1 ≤ _; omega), l1]
  have e4 : node_end { c with mem := splice c.mem 16 [g] } c.stack =
      c.buffer + 16 + s.length := by
    rw [root_node_end_mem c _ hs]
    exact hm1.2.2.1
  have e5 : terminator_bytes c.encoding = 1 := by
    rw [henc]
    rfl
  have e6 : memset0 { c with mem := splice c.mem 16 [g] } (c.buffer + 16 + s.length + 1) 1 =
      { c with mem := splice (splice c.mem 16 [g]) (17 + s.length) [0] } := by
    have e6' : c.buffer + 16 + s.length + 1 = c.buffer + (17 + s.length) := by omega
    rw [e6']
    exact memset0_at_mem c (splice c.mem 16 [g]) (17 + s.length) 1
      (by rw [l1]; omega)
  have e7 : node_end { c with mem := splice (splice c.mem 16 [g]) (17 + s.length) [0] }
      c.stack = c.buffer + 16 + s.length := by
    rw [root_node_end_mem c _ hs]
    rw [ptr_at_congr (splice c.mem 16 [g]) _ 8
      (fun i _ hi => by
        rw [splice_getD _ _ _ i (by rw [l1]; show 17 + s.length + 1 ≤ _; omega),
          if_pos (by omega)])]
    exact hm1.2.2.1
  have e8 := root_set_node_end_mem c (splice (splice c.mem 16 [g]) (17 + s.length) [0])
    (c.buffer + 16 + s.length + 1) hs (by omega)
  unfold hoxml_append_terminator
  simp only [e1, e2]
  rw [if_neg (by rw [hf]; exact fun h => h rfl)]
  simp only [e3, e4, e5]
  rw [if_neg (by omega)]
  simp only [e6, e7, e8]

/-- A terminated string is left as it is by `hoxml_append_terminator`. -/
theorem hoxml_append_terminator_done (c : hoxml_context_t) (f : Nat) (s : List Nat)
    (hs : c.stack = c.buffer) (hm : root_frame_mem c.mem c.buffer c.buffer_length f s)
    (hL : 17 ≤ c.buffer_length) (hf : f &&& HOXML_FLAG_TERMINATED ≠ 0) :
    hoxml_append_terminator c = c := by
  have e1 := root_touch c hs (by rw [hm.1]; exact hL)
  have e2 := root_node_flags c hs
  rw [hm.2.2.2.1] at e2
  unfold hoxml_append_terminator
  simp only [e1, e2]
  rw [if_pos hf]

/-- The exact effect of `context->stack->flags |= g` on a stack of one frame. -/
theorem or_flags_root (c : hoxml_context_t) (f g : Nat) (s : List Nat)
    (hs : c.stack = c.buffer) (hm : root_frame_mem c.mem c.buffer c.buffer_length f s)
    (hL : 17 ≤ c.buffer_length) :
    ∃ m, or_flags c g = { c with mem := m } ∧
      root_frame_mem m c.buffer c.buffer_length ((f ||| g) % 256) s := by
  have hm1 := root_frame_mem_flags c.mem c.buffer c.buffer_length f ((f ||| g) % 256) s hm hL
  refine ⟨_, ?_, hm1⟩
  have e1 := root_touch c hs (by rw [hm.1]; exact hL)
  have e2 := root_node_flags c hs
  rw [hm.2.2.2.1] at e2
  have e3 := root_set_node_flags c (f ||| g) hs (by rw [hm.1]; exact hL)
  unfold or_flags
  simp only [e1, e2, e3]

/-- At the `>` of an empty element that is the only frame, `hoxml_end_tag` returns
element-end and only sets the state and the post state. -/
theorem hoxml_end_tag_root_empty (sc : Bool) (c : hoxml_context_t) (f : Nat) (s : List Nat)
    (hs : c.stack = c.buffer) (hm : root_frame_mem c.mem c.buffer c.buffer_length f s)
    (hL : 17 ≤ c.buffer_length) (h1 : f &&& HOXML_FLAG_END_TAG = 0)
    (h2 : f &&& HOXML_FLAG_EMPTY_ELEMENT ≠ 0) :
    hoxml_end_tag sc c = (HOXML_CODE_ELEMENT_END,
      { c with state := HOXML_STATE_OPEN_TAG, post_state := HOXML_POST_STATE_TAG_END }) := by
  have e1 : ∀ c1 : hoxml_context_t, c1.stack = c.stack → c1.buffer = c.buffer →
      c1.mem = c.mem → touch c1 c.stack HOXML_NODE_TAG = c1 ∧ node_flags c1 c.stack = f := by
    intro c1 h3 h4 h5
    rw [← h3]
    refine ⟨root_touch c1 (by rw [h3, h4, hs]) (by rw [h5, hm.1]; exact hL), ?_⟩
    rw [root_node_flags c1 (by rw [h3, h4, hs]), h5]
    exact hm.2.2.2.1
  have e2 := e1
    { c with state := HOXML_STATE_OPEN_TAG, post_state := HOXML_POST_STATE_TAG_END } rfl rfl rfl
  unfold hoxml_end_tag
  simp only [e2.1, e2.2]
  rw [if_neg (by rw [h1]; exact fun h => h rfl), if_pos h2]

/-- The pop of the only frame: the four public pointers and the stack become `NULL`. -/
theorem hoxml_pop_stack_root (c : hoxml_context_t) (f : Nat) (s : List Nat)
    (hs : c.stack = c.buffer) (hb : 0 < c.buffer)
    (hm : root_frame_mem c.mem c.buffer c.buffer_length f s)
    (hroom : 17 + s.length ≤ c.buffer_length) (h64 : c.buffer + c.buffer_length ≤ 2 ^ 64) :
    ∃ m, hoxml_pop_stack c =
      { c with tag := 0, attribute_ := 0, value := 0, content := 0, stack := 0, mem := m } := by
  have e1 := root_touch c hs (by rw [hm.1]; omega)
  have e2 : ∀ c1 : hoxml_context_t, c1.buffer = c.buffer → c1.mem = c.mem →
      node_parent c1 c.stack = 0 ∧ node_end c1 c.stack = c.buffer + 16 + s.length := by
    intro c1 h1 h2
    constructor
    · show rd_ptr c1 c.stack = 0
      have h3 := rd_ptr_of_in c1 0
      rw [Nat.add_zero, h1, ← hs] at h3
      rw [h3, h2]
      exact hm.2.1
    · show rd_ptr c1 (c.stack + HOXML_NODE_END) = _
      have h3 := rd_ptr_of_in c1 HOXML_NODE_END
      rw [h1, ← hs] at h3
      rw [h3, h2]
      exact hm.2.2.1
  have e3 := e2 { c with tag := 0, attribute_ := 0, value := 0, content := 0 } rfl rfl
  have e4 := e2 { c with tag := 0, attribute_ := 0, value := 0, content := 0, stack := 0 } rfl rfl
  have e5 : ptr_sub (c.buffer + 16 + s.length) c.stack = 16 + s.length := by
    unfold ptr_sub
    rw [hs]
    omega
  refine ⟨splice c.mem 0 (List.replicate (16 + s.length) 0), ?_⟩
  unfold hoxml_pop_stack
  simp only []
  rw [if_pos (by omega), e1]
  simp only [e3.1, e4.2, e5]
  rw [memset0_of_in _ _ _ (by show c.buffer ≤ c.stack; omega)
    (by show c.stack - c.buffer + (16 + s.length) ≤ c.mem.length; rw [hs, hm.1]; omega)]
  show ({ c with tag := 0, attribute_ := 0, value := 0, content := 0, stack := 0, mem := splice c.mem (c.stack - c.buffer) (List.replicate (16 + s.length) 0) } : hoxml_context_t) = _
  rw [hs, Nat.sub_self]

/-- The cleanup after the element-end of the root element, which is not a processing
instruction: the frame is popped and the flag for end-of-document is returned. -/
theorem hoxml_post_state_cleanup_root (sc : Bool) (c : hoxml_context_t) (f : Nat) (s : List Nat)
    (hp : c.post_state = HOXML_POST_STATE_TAG_END)
    (hs : c.stack = c.buffer) (hb : 0 < c.buffer)
    (hm : root_frame_mem c.mem c.buffer c.buffer_length f s)
    (hroom : 17 + s.length ≤ c.buffer_length) (h64 : c.buffer + c.buffer_length ≤ 2 ^ 64)
    (hf : f &&& HOXML_FLAG_PROCESSING_INSTRUCTION = 0) :
    ∃ m, hoxml_post_state_cleanup sc c =
      (1, { c with tag := 0, attribute_ := 0, value := 0, content := 0, stack := 0, mem := m }) := by
  obtain ⟨m, hpop⟩ := hoxml_pop_stack_root c f s hs hb hm hroom h64
  refine ⟨m, ?_⟩
  have e1 := root_touch c hs (by rw [hm.1]; omega)
  have e2 := root_node_flags c hs
  rw [hm.2.2.2.1] at e2
  unfold hoxml_post_state_cleanup
  rw [if_pos (by rw [hp]; decide)]
  simp only [hp, e1, e2, hf, ne_eq, not_true_eq_false, decide_False, Bool.false_and,
    Bool.false_eq_true, if_false, hpop, and_self, if_true]

/-- The C string in the only frame of the stack, once terminated. -/
theorem cstr_root (c : hoxml_context_t) (L f : Nat) (x : List Nat)
    (hm : root_frame_mem c.mem c.buffer L f (x ++ [0])) (hx : ∀ b ∈ x, b ≠ 0) :
    cstr c (c.buffer + 17) = x := by
  have h0 : ∀ x : List Nat, (∀ b ∈ x, b ≠ 0) →
      (x ++ [0]).takeWhile (fun b => b != 0) = x := by
    intro x
    induction x with
    | nil => intro _; rfl
    | cons a t ih =>
      intro h
      have ha : a ≠ 0 := h a (List.mem_cons_self a t)
      rw [List.cons_append, List.takeWhile_cons, if_pos (by simpa using ha),
        ih (fun b hb => h b (List.mem_cons_of_mem a hb))]
  unfold cstr mem_at
  rw [if_pos (by omega), Nat.add_sub_cancel_left]
  rw [takeWhile_congr (x ++ [0]) (c.mem.drop 17), h0 x hx]
  intro j hj
  rw [h0 x hx] at hj
  rw [getD_drop_nat]
  exact hm.2.2.2.2.1 j (by rw [List.length_append, List.length_singleton]; omega)

/-! ## Lemmas on the `switch` for the characters of an empty element -/

theorem name_char_facts : ∀ b, b < 256 → HOXML_IS_NAME_CHAR b = true →
    b ≠ 0 ∧ b ≠ 0x3E ∧ b ≠ 0x2F ∧ HOXML_IS_WHITESPACE b = false ∧
      HOXML_IS_NEW_LINE b = false := by
  decide

theorem name_start_char_facts : ∀ b, b < 256 → HOXML_IS_NAME_START_CHAR b = true →
    b ≠ 0x3F ∧ b ≠ 0x2F ∧ b ≠ 0x21 ∧ HOXML_IS_NAME_CHAR b = true := by
  decide

theorem hoxml_parse_switch_none_lt (sc : Bool) (c : hoxml_context_t) (ch : hoxml_char_t)
    (hst : c.state = HOXML_STATE_NONE) (hd : ch.decoded = 0x3C) :
    hoxml_parse_switch sc c ch = next (hoxml_begin_tag c) := by
  simp [hoxml_parse_switch, hst, hd]

theorem hoxml_parse_switch_tag_begin_name (sc : Bool) (c : hoxml_context_t) (ch : hoxml_char_t)
    (hst : c.state = HOXML_STATE_TAG_BEGIN) (hd : HOXML_IS_NAME_START_CHAR ch.decoded = true)
    (h1 : ch.decoded ≠ 0x3F) (h2 : ch.decoded ≠ 0x2F) (h3 : ch.decoded ≠ 0x21) :
    hoxml_parse_switch sc c ch =
      if (hoxml_append_char c ch).state.ge_none then
        next { hoxml_append_char c ch with state := HOXML_STATE_ELEMENT_NAME1, tag := (hoxml_append_char c ch).stack + HOXML_NODE_TAG }
      else next (hoxml_append_char c ch) := by
  simp [hoxml_parse_switch, hst, hd, h1, h2, h3]

theorem hoxml_parse_switch_name1_char (sc : Bool) (c : hoxml_context_t) (ch : hoxml_char_t)
    (hst : c.state = HOXML_STATE_ELEMENT_NAME1) (hd : HOXML_IS_NAME_CHAR ch.decoded = true)
    (h1 : ch.decoded ≠ 0x3E) (h2 : ch.decoded ≠ 0x2F)
    (h3 : HOXML_IS_WHITESPACE ch.decoded = false) :
    hoxml_parse_switch sc c ch = next (hoxml_append_char c ch) := by
  simp [hoxml_parse_switch, hst, hd, h1, h2, h3]

theorem hoxml_parse_switch_name1_slash (sc : Bool) (c : hoxml_context_t) (ch : hoxml_char_t)
    (hst : c.state = HOXML_STATE_ELEMENT_NAME1) (hd : ch.decoded = 0x2F)
    (hf : head_has c HOXML_FLAG_END_TAG = false) :
    hoxml_parse_switch sc c ch =
      if (hoxml_append_terminator c).state.ge_none then
        ret HOXML_CODE_ELEMENT_BEGIN
          (or_flags (hoxml_append_terminator c) HOXML_FLAG_EMPTY_ELEMENT)
      else next (hoxml_append_terminator c) := by
  simp [hoxml_parse_switch, hst, hd, hf]

theorem hoxml_parse_switch_name1_gt (sc : Bool) (c : hoxml_context_t) (ch : hoxml_char_t)
    (hst : c.state = HOXML_STATE_ELEMENT_NAME1) (hd : ch.decoded = 0x3E) :
    hoxml_parse_switch sc c ch =
      if (hoxml_append_terminator c).state.ge_none then
        ret (hoxml_end_tag sc (hoxml_append_terminator c)).1
          (hoxml_end_tag sc (hoxml_append_terminator c)).2
      else next (hoxml_append_terminator c) := by
  simp [hoxml_parse_switch, hst, hd]

theorem empty_element_doc_getD (pre rest : List Nat) :
    (empty_element_doc (pre ++ rest)).getD (1 + pre.length) 0 =
      (rest ++ [0x2F, 0x3E]).getD 0 0 := by
  unfold empty_element_doc
  rw [Nat.add_comm, List.getD_cons_succ, List.append_assoc,
    List.getD_append_right _ _ _ _ (le_refl _), Nat.sub_self]

theorem empty_element_doc_length (x : List Nat) :
    (empty_element_doc x).length = x.length + 3 := by
  simp [empty_element_doc]

/-- The loop of `hoxml_parse` from inside the name of the element of `<x/>`, `pre` being
the part of the name already in the frame and `rest` the part still to be read: it
returns element-begin at `/`, with the name terminated and the empty-element flag set. -/
theorem hoxml_parse_loop_name (sc : Bool) (xml : Nat) : ∀ (rest pre : List Nat)
    (c : hoxml_context_t) (fuel bti : Nat),
    c.state = HOXML_STATE_ELEMENT_NAME1 → c.stack = c.buffer →
    root_frame_mem c.mem c.buffer c.buffer_length 0 pre →
    c.encoding = HOXML_ENC_UNKNOWN → c.stream_length = 0 → c.xml = xml →
    c.xml_length = (empty_element_doc (pre ++ rest)).length →
    c.iterator = xml + (1 + pre.length) →
    (∀ b ∈ rest, b < 256 ∧ HOXML_IS_NAME_CHAR b = true) →
    pre.length + rest.length + 18 ≤ c.buffer_length → c.buffer + c.buffer_length ≤ 2 ^ 64 →
    rest.length + 1 ≤ fuel →
    ∃ s col it m, hoxml_parse_loop sc xml (empty_element_doc (pre ++ rest)) fuel c bti =
        some (HOXML_CODE_ELEMENT_BEGIN,
          { c with stream := s, column := col, iterator := it, stream_length := 0, mem := m }) ∧
      it = xml + (pre.length + rest.length + 2) ∧
      root_frame_mem m c.buffer c.buffer_length 0x12 (pre ++ rest ++ [0]) := by
  intro rest
  induction rest with
  | nil =>
    intro pre c fuel bti hst hs hm henc hsl hxml hlen hit _ hroom h64 hfuel
    obtain ⟨fuel, rfl⟩ : ∃ n, fuel = n + 1 := ⟨fuel - 1, by omega⟩
    have hN := empty_element_doc_length (pre ++ [])
    rw [List.length_append, List.length_nil] at hN
    rw [List.length_nil] at hroom
    obtain ⟨s, col, hstep⟩ := hoxml_parse_loop_step sc xml (empty_element_doc (pre ++ []))
      fuel c bti (1 + pre.length) 0x2F (by rw [hst]; rfl) hsl henc hxml hit hlen
      (by omega) (by omega) (empty_element_doc_getD pre []) (by decide) (by decide) rfl
    generalize hc1 : ({ c with stream := s, column := col, iterator := xml + (1 + pre.length) + 1, stream_length := 0 } : hoxml_context_t) = c1 at hstep
    have hst1 : c1.state = HOXML_STATE_ELEMENT_NAME1 := by rw [← hc1]; exact hst
    have hs1 : c1.stack = c1.buffer := by rw [← hc1]; exact hs
    have hm1 : root_frame_mem c1.mem c1.buffer c1.buffer_length 0 pre := by rw [← hc1]; exact hm
    have henc1 : c1.encoding = HOXML_ENC_UNKNOWN := by rw [← hc1]; exact henc
    have hL1 : c1.buffer_length = c.buffer_length := by rw [← hc1]
    have hB1 : c1.buffer = c.buffer := by rw [← hc1]
    have hflags : head_has c1 HOXML_FLAG_END_TAG = false := by
      unfold head_has head_flags
      rw [root_node_flags c1 hs1, hm1.2.2.2.1]
      rfl
    rw [hoxml_parse_switch_name1_slash sc c1 { encoded := 0x2F, decoded := 0x2F, bytes := 1 } hst1
      rfl hflags] at hstep
    obtain ⟨m1, e1, hm2⟩ := hoxml_append_terminator_root c1 0 pre hs1 hm1
      (by rw [hL1]; omega) (by rw [hL1, hB1]; exact h64) henc1 rfl
    rw [e1] at hstep
    generalize hc2 : ({ c1 with mem := m1 } : hoxml_context_t) = c2 at hstep
    have hs2 : c2.stack = c2.buffer := by rw [← hc2]; exact hs1
    have hm3 : root_frame_mem c2.mem c2.buffer c2.buffer_length
        ((0 ||| HOXML_FLAG_TERMINATED) % 256) (pre ++ [0]) := by rw [← hc2]; exact hm2
    obtain ⟨m2, e2, hm4⟩ := or_flags_root c2 _ HOXML_FLAG_EMPTY_ELEMENT _ hs2 hm3
      (by rw [← hc2]; show 17 ≤ c1.buffer_length; rw [hL1]; omega)
    rw [e2, if_pos (by rw [← hc2]; show c1.state.ge_none = true; rw [hst1]; rfl)] at hstep
    subst hc2
    subst hc1
    refine ⟨s, col, xml + (1 + pre.length) + 1, m2, hstep,
      by simp only [List.length_nil]; omega, ?_⟩
    rw [List.append_nil]
    exact hm4
  | cons b rest ih =>
    intro pre c fuel bti hst hs hm henc hsl hxml hlen hit hall hroom h64 hfuel
    obtain ⟨fuel, rfl⟩ : ∃ n, fuel = n + 1 := ⟨fuel - 1, by omega⟩
    have hN := empty_element_doc_length (pre ++ b :: rest)
    rw [List.length_append, List.length_cons] at hN
    rw [List.length_cons] at hroom hfuel
    obtain ⟨hb256, hbname⟩ := hall b (List.mem_cons_self b rest)
    obtain ⟨hb0, hb1, hb2, hb3, hb4⟩ := name_char_facts b hb256 hbname
    obtain ⟨s, col, hstep⟩ := hoxml_parse_loop_step sc xml (empty_element_doc (pre ++ b :: rest))
      fuel c bti (1 + pre.length) b (by rw [hst]; rfl) hsl henc hxml hit hlen
      (by omega) (by omega) (empty_element_doc_getD pre (b :: rest)) (by omega) hb256 hb4
    generalize hc1 : ({ c with stream := s, column := col, iterator := xml + (1 + pre.length) + 1, stream_length := 0 } : hoxml_context_t) = c1 at hstep
    have hst1 : c1.state = HOXML_STATE_ELEMENT_NAME1 := by rw [← hc1]; exact hst
    have hs1 : c1.stack = c1.buffer := by rw [← hc1]; exact hs
    have hm1 : root_frame_mem c1.mem c1.buffer c1.buffer_length 0 pre := by rw [← hc1]; exact hm
    have henc1 : c1.encoding = HOXML_ENC_UNKNOWN := by rw [← hc1]; exact henc
    have hL1 : c1.buffer_length = c.buffer_length := by rw [← hc1]
    have hB1 : c1.buffer = c.buffer := by rw [← hc1]
    rw [hoxml_parse_switch_name1_char sc c1 { encoded := b, decoded := b, bytes := 1 } hst1
      hbname hb1 hb2 hb3] at hstep
    obtain ⟨m1, e1, hm2⟩ := hoxml_append_char_root c1
      { encoded := b, decoded := b, bytes := 1 } 0 b pre hs1 hm1
      (by rw [hL1]; omega) (by rw [hL1, hB1]; exact h64) rfl rfl hb256
    rw [e1] at hstep
    have hpre : pre ++ b :: rest = (pre ++ [b]) ++ rest := by simp
    have hlen1 : (pre ++ [b]).length = pre.length + 1 := by simp
    rw [hpre] at hstep hlen ⊢
    generalize hc2 : ({ c1 with mem := m1 } : hoxml_context_t) = c2 at hstep
    obtain ⟨s2, col2, it2, m2, hloop, hit2, hm3⟩ := ih (pre ++ [b]) c2 fuel 1
      (by rw [← hc2]; exact hst1) (by rw [← hc2]; exact hs1) (by rw [← hc2]; exact hm2)
      (by rw [← hc2]; exact henc1) (by rw [← hc2, ← hc1]) (by rw [← hc2, ← hc1]; exact hxml)
      (by rw [← hc2, ← hc1]; exact hlen)
      (by rw [← hc2, ← hc1]; show xml + (1 + pre.length) + 1 = _; rw [hlen1]; omega)
      (fun b1 hb1 => hall b1 (List.mem_cons_of_mem b hb1))
      (by rw [← hc2]; show _ ≤ c1.buffer_length; rw [hL1, hlen1]; omega)
      (by rw [← hc2]; show c1.buffer + c1.buffer_length ≤ _; rw [hL1, hB1]; exact h64)
      (by omega)
    have hfinal := hstep.trans hloop
    subst hc2
    subst hc1
    refine ⟨s2, col2, it2, m2, hfinal, by rw [hit2, hlen1, List.length_cons]; omega, ?_⟩
    exact hm3

/-! ## Lemmas on the entry of `hoxml_parse` -/

theorem hoxml_parse_running (sc : Bool) (c : hoxml_context_t) (xml : Nat) (data : List Nat)
    (hx : xml ≠ 0) (hd : data.length ≠ 0)
    (hst : c.state = HOXML_STATE_NONE ∨ c.state = HOXML_STATE_ELEMENT_NAME1 ∨
      c.state = HOXML_STATE_OPEN_TAG) :
    hoxml_parse sc c xml data = hoxml_parse_body sc c xml data := by
  unfold hoxml_parse
  rw [if_neg (by simp [hx, hd])]
  rcases hst with h | h | h <;> simp only [h]

theorem hoxml_parse_body_continue (sc : Bool) (c : hoxml_context_t) (xml : Nat)
    (data : List Nat) (hp : c.post_state = HOXML_STATE_NONE) (hxml : c.xml = xml) :
    hoxml_parse_body sc c xml data = hoxml_parse_loop sc xml data (c.xml_length + 4) c 0 := by
  have e1 : hoxml_post_state_cleanup sc c = (0, c) := by
    unfold hoxml_post_state_cleanup
    rw [if_neg (by rw [hp]; exact fun h => h rfl)]
  unfold hoxml_parse_body
  simp only [e1]
  rw [if_neg (by exact fun h => h rfl), if_neg (by rw [hxml]; exact fun h => h rfl)]

theorem hoxml_parse_body_adopt (sc : Bool) (c : hoxml_context_t) (xml : Nat)
    (data : List Nat) (hp : c.post_state = HOXML_STATE_NONE) (hxml : c.xml ≠ xml) :
    hoxml_parse_body sc c xml data =
      hoxml_parse_loop sc xml data (data.length + 4)
        { c with xml := xml, xml_length := data.length, iterator := xml } 0 := by
  have e1 : hoxml_post_state_cleanup sc c = (0, c) := by
    unfold hoxml_post_state_cleanup
    rw [if_neg (by rw [hp]; exact fun h => h rfl)]
  unfold hoxml_parse_body
  simp only [e1]
  rw [if_neg (by exact fun h => h rfl), if_pos hxml]

theorem replicate_getD_zero (n i : Nat) : (List.replicate n 0).getD i 0 = 0 := by
  rw [List.getD_eq_getElem?_getD, List.getElem?_replicate]
  split <;> rfl

/-- The first call of `hoxml_parse` on `<x/>` returns element-begin at the `/`. -/
theorem empty_element_first_call (sc : Bool) (B L xml b : Nat) (rest : List Nat)
    (hB : 0 < B) (h64 : B + L ≤ 2 ^ 64) (hL : 25 ≤ L) (hroom : (b :: rest).length + 18 ≤ L)
    (hxml : 0 < xml) (hx : is_byte_name (b :: rest) = true) :
    ∃ c1, hoxml_parse sc (hoxml_init B L) xml (empty_element_doc (b :: rest)) =
        some (HOXML_CODE_ELEMENT_BEGIN, c1) ∧ at_empty_element c1 B L xml (b :: rest) := by
  have hN := empty_element_doc_length (b :: rest)
  rw [List.length_cons] at hN hroom
  have hx1 : b < 256 ∧ HOXML_IS_NAME_START_CHAR b = true ∧
      ∀ b1 ∈ rest, b1 < 256 ∧ HOXML_IS_NAME_CHAR b1 = true := by
    simpa [is_byte_name, and_assoc] using hx
  obtain ⟨hb256, hbstart, hrest⟩ := hx1
  obtain ⟨hb1, hb2, hb3, hbname⟩ := name_start_char_facts b hb256 hbstart
  obtain ⟨hb0, _, _, _, hbnl⟩ := name_char_facts b hb256 hbname
  -- entry
  rw [hoxml_parse_running sc _ xml _ (by omega) (by omega) (Or.inl rfl),
    hoxml_parse_body_adopt sc _ xml _ rfl (by show (0 : Nat) ≠ xml; omega)]
  generalize hca : ({ hoxml_init B L with xml := xml, xml_length := (empty_element_doc (b :: rest)).length, iterator := xml } : hoxml_context_t) = ca
  -- the character `<`
  obtain ⟨s1, col1, hstep1⟩ := hoxml_parse_loop_step sc xml (empty_element_doc (b :: rest))
    ((empty_element_doc (b :: rest)).length + 3) ca 0 0 0x3C (by subst_vars; rfl)
    (by subst_vars; rfl) (by subst_vars; rfl) (by subst_vars; rfl) (by subst_vars; rfl) (by subst_vars; rfl)
    (by omega) (by omega) rfl (by decide) (by decide) rfl
  refine (show ∀ r, hoxml_parse_loop sc xml (empty_element_doc (b :: rest))
      ((empty_element_doc (b :: rest)).length + 3 + 1) ca 0 = r →
      ∃ c1, r = some (HOXML_CODE_ELEMENT_BEGIN, c1) ∧ at_empty_element c1 B L xml (b :: rest)
    from ?_) _ rfl
  intro r hr
  rw [hstep1] at hr
  generalize hcb : ({ ca with stream := s1, column := col1, iterator := xml + 0 + 1, stream_length := 0 } : hoxml_context_t) = cb at hr
  rw [hoxml_parse_switch_none_lt sc cb { encoded := 0x3C, decoded := 0x3C, bytes := 1 }
    (by subst_vars; rfl) rfl] at hr
  obtain ⟨m1, e1, hm1⟩ := hoxml_push_stack_root cb (by subst_vars; rfl)
    (by subst_vars; exact hB) (by subst_vars; exact List.length_replicate _ _)
    (by subst_vars; exact hL) (by subst_vars; exact h64)
    (by subst_vars; exact replicate_getD_zero L)
  have e2 : hoxml_begin_tag cb = { cb with stack := cb.buffer, mem := m1, return_state := HOXML_STATE_NONE, state := HOXML_STATE_TAG_BEGIN } := by
    unfold hoxml_begin_tag
    simp only [e1]
    rw [if_pos (by subst_vars; rfl)]
    subst_vars
    rfl
  rw [e2] at hr
  generalize hcc : ({ cb with stack := cb.buffer, mem := m1, return_state := HOXML_STATE_NONE, state := HOXML_STATE_TAG_BEGIN } : hoxml_context_t) = cc at hr
  -- the first character of the name
  obtain ⟨s2, col2, hstep2⟩ := hoxml_parse_loop_step sc xml (empty_element_doc (b :: rest))
    ((empty_element_doc (b :: rest)).length + 2) cc 1 1 b (by subst_vars; rfl)
    (by subst_vars; rfl) (by subst_vars; rfl) (by subst_vars; rfl)
    (by subst_vars; rfl) (by subst_vars; rfl) (by omega) (by omega) rfl
    (by omega) hb256 hbnl
  replace hr : hoxml_parse_loop sc xml (empty_element_doc (b :: rest))
      ((empty_element_doc (b :: rest)).length + 2 + 1) cc 1 = r := hr
  rw [hstep2] at hr
  generalize hcd : ({ cc with stream := s2, column := col2, iterator := xml + 1 + 1, stream_length := 0 } : hoxml_context_t) = cd at hr
  rw [hoxml_parse_switch_tag_begin_name sc cd { encoded := b, decoded := b, bytes := 1 }
    (by subst_vars; rfl) hbstart hb1 hb2 hb3] at hr
  obtain ⟨m2, e3, hm2⟩ := hoxml_append_char_root cd { encoded := b, decoded := b, bytes := 1 }
    0 b [] (by subst_vars; rfl) (by subst_vars; exact hm1)
    (by subst_vars; show 0 + 18 ≤ L; omega)
    (by subst_vars; exact h64) rfl rfl hb256
  rw [e3, if_pos (by subst_vars; rfl)] at hr
  generalize hce : ({ ({ cd with mem := m2 } : hoxml_context_t) with state := HOXML_STATE_ELEMENT_NAME1, tag := ({ cd with mem := m2 } : hoxml_context_t).stack + HOXML_NODE_TAG } : hoxml_context_t) = ce at hr
  -- the rest of the name and the `/`
  obtain ⟨s3, col3, it3, m3, hloop, hit3, hm3⟩ := hoxml_parse_loop_name sc xml rest [b] ce
    ((empty_element_doc (b :: rest)).length + 2) 1
    (by subst_vars; rfl) (by subst_vars; rfl)
    (by subst_vars; exact hm2)
    (by subst_vars; rfl) (by subst_vars; rfl)
    (by subst_vars; rfl)
    (by subst_vars; rfl)
    (by subst_vars; rfl) hrest
    (by subst_vars; show 1 + rest.length + 18 ≤ L; omega)
    (by subst_vars; exact h64) (by omega)
  replace hr : hoxml_parse_loop sc xml (empty_element_doc ([b] ++ rest))
      ((empty_element_doc (b :: rest)).length + 2) ce 1 = r := hr
  rw [hloop] at hr
  refine ⟨_, hr.symm, ?_⟩
  clear hstep1 hstep2 hloop e1 e2 e3 hr
  subst hce hcd hcc hcb hca
  refine ⟨rfl, rfl, rfl, rfl, rfl, hm3, rfl, rfl, rfl, ?_, ?_, rfl, rfl, rfl, rfl⟩
  · show (empty_element_doc (b :: rest)).length = _
    rw [hN, List.length_cons]
  · show it3 = _
    rw [hit3]
    simp only [List.length_cons, List.length_nil]
    omega

theorem empty_element_doc_getD_gt (x : List Nat) :
    (empty_element_doc x).getD (x.length + 2) 0 = 0x3E := by
  unfold empty_element_doc
  rw [show x.length + 2 = (x.length + 1) + 1 from rfl, List.getD_cons_succ,
    List.getD_append_right _ _ _ _ (by omega)]
  rw [show x.length + 1 - x.length = 1 by omega]
  rfl

/-- The second call of `hoxml_parse` on `<x/>` returns element-end at the `>`; the buffer
and the public pointers are as after the first call. -/
theorem empty_element_second_call (sc : Bool) (c : hoxml_context_t) (B L xml : Nat)
    (x : List Nat) (h : at_empty_element c B L xml x) (hxml : 0 < xml)
    (hroom : x.length + 18 ≤ L) (h64 : B + L ≤ 2 ^ 64) :
    ∃ s col it, hoxml_parse sc c xml (empty_element_doc x) = some (HOXML_CODE_ELEMENT_END,
      { c with stream := s, column := col, iterator := it, stream_length := 0, state := HOXML_STATE_OPEN_TAG, post_state := HOXML_POST_STATE_TAG_END }) := by
  obtain ⟨hst, hp, hs, hB, hL, hm, henc, hsl, hx, hxl, hit, _, _, _, _⟩ := h
  have hN := empty_element_doc_length x
  rw [hoxml_parse_running sc c xml _ (by omega) (by omega) (Or.inr (Or.inl hst)),
    hoxml_parse_body_continue sc c xml _ hp hx]
  obtain ⟨s, col, hstep⟩ := hoxml_parse_loop_step sc xml (empty_element_doc x)
    (c.xml_length + 3) c 0 (x.length + 2) 0x3E (by rw [hst]; rfl) hsl henc hx hit
    (by rw [hxl, hN]) (by omega) (by omega) (empty_element_doc_getD_gt x) (by decide)
    (by decide) rfl
  refine ⟨s, col, xml + (x.length + 2) + 1, ?_⟩
  refine Eq.trans hstep ?_
  generalize hc1 : ({ c with stream := s, column := col, iterator := xml + (x.length + 2) + 1, stream_length := 0 } : hoxml_context_t) = c1
  have hs1 : c1.stack = c1.buffer := by subst hc1; exact hs
  have hm1 : root_frame_mem c1.mem c1.buffer c1.buffer_length 0x12 (x ++ [0]) := by
    subst hc1
    rw [hB, hL]
    exact hm
  have hL1 : 17 ≤ c1.buffer_length := by subst hc1; show 17 ≤ c.buffer_length; omega
  rw [hoxml_parse_switch_name1_gt sc c1 { encoded := 0x3E, decoded := 0x3E, bytes := 1 }
    (by subst hc1; exact hst) rfl]
  rw [hoxml_append_terminator_done c1 _ _ hs1 hm1 hL1 (by decide),
    hoxml_end_tag_root_empty sc c1 _ _ hs1 hm1 hL1 (by decide) (by decide),
    if_pos (by subst hc1; show c.state.ge_none = true; rw [hst]; rfl)]
  subst hc1
  rfl

/-- After the element-end of the only frame, which is not a processing instruction, the
next call of `hoxml_parse` returns end-of-document with the public pointers `NULL`. -/
theorem hoxml_parse_after_root_end (sc : Bool) (c : hoxml_context_t) (xml : Nat)
    (data : List Nat) (f : Nat) (s : List Nat) (hxml : 0 < xml) (hd : data.length ≠ 0)
    (hst : c.state = HOXML_STATE_OPEN_TAG) (hp : c.post_state = HOXML_POST_STATE_TAG_END)
    (hs : c.stack = c.buffer) (hb : 0 < c.buffer)
    (hm : root_frame_mem c.mem c.buffer c.buffer_length f s)
    (hroom : 17 + s.length ≤ c.buffer_length) (h64 : c.buffer + c.buffer_length ≤ 2 ^ 64)
    (hf : f &&& HOXML_FLAG_PROCESSING_INSTRUCTION = 0) :
    ∃ m, hoxml_parse sc c xml data = some (HOXML_CODE_END_OF_DOCUMENT,
      { c with tag := 0, attribute_ := 0, value := 0, content := 0, stack := 0, mem := m }) := by
  obtain ⟨m, e⟩ := hoxml_post_state_cleanup_root sc c f s hp hs hb hm hroom h64 hf
  refine ⟨m, ?_⟩
  rw [hoxml_parse_running sc c xml _ (by omega) hd (Or.inr (Or.inr hst))]
  unfold hoxml_parse_body
  simp only [e]
  rw [if_pos (by decide)]

/-- What the host reads when `tag` points to the terminated name `x` of the only frame and
the other public pointers are `NULL`. -/
theorem observe_root_tag (code : hoxml_code_t) (c : hoxml_context_t) (L f : Nat)
    (x : List Nat) (hm : root_frame_mem c.mem c.buffer L f (x ++ [0]))
    (hx : ∀ b ∈ x, b ≠ 0) (ht : c.tag = c.buffer + 17) (ha : c.attribute_ = 0)
    (hv : c.value = 0) (hc : c.content = 0) : observe code c = tag_token code x := by
  unfold observe observe_string tag_token
  rw [ha, hv, hc, ht, cstr_root c L f x hm hx]
  simp

theorem is_byte_name_facts (x : List Nat) (hx : is_byte_name x = true) :
    (∃ b rest, x = b :: rest) ∧ ∀ b ∈ x, b ≠ 0 := by
  cases x with
  | nil => exact absurd hx (by decide)
  | cons b rest =>
    refine ⟨⟨b, rest, rfl⟩, ?_⟩
    have hx1 : b < 256 ∧ HOXML_IS_NAME_START_CHAR b = true ∧
        ∀ b1 ∈ rest, b1 < 256 ∧ HOXML_IS_NAME_CHAR b1 = true := by
      simpa [is_byte_name, and_assoc] using hx
    intro b1 hb1
    rcases List.mem_cons.mp hb1 with h | h
    · rw [h]
      exact (name_char_facts b hx1.1 (name_start_char_facts b hx1.1 hx1.2.1).2.2.2).1
    · exact (name_char_facts b1 (hx1.2.2 b1 h).1 (hx1.2.2 b1 h).2).1

/-! ## Lemmas on the decoder in utf-8 -/

/-- The masks and the shifted patterns of `hoxml_dec_char` on a promoted `char` are those of
the byte itself, whether `char` is signed or not. -/
theorem char_at_byte_facts : ∀ b, b < 256 → ∀ sc : Bool,
    char_at sc [b] 0 &&& 0x7F = b &&& 0x7F ∧ char_at sc [b] 0 &&& 0x3F = b &&& 0x3F ∧
    char_at sc [b] 0 &&& 0x1F = b &&& 0x1F ∧ char_at sc [b] 0 &&& 0x0F = b &&& 0x0F ∧
    char_at sc [b] 0 &&& 0x07 = b &&& 0x07 ∧
    (asr32 (char_at sc [b] 0) 7 &&& 0x01 = 0x00 ↔ b < 0x80) ∧
    (asr32 (char_at sc [b] 0) 5 &&& 0x07 = 0x06 ↔ 0xC0 ≤ b ∧ b < 0xE0) ∧
    (asr32 (char_at sc [b] 0) 4 &&& 0x0F = 0x0E ↔ 0xE0 ≤ b ∧ b < 0xF0) ∧
    (asr32 (char_at sc [b] 0) 3 &&& 0x1F = 0x1E ↔ 0xF0 ≤ b ∧ b < 0xF8) := by
  decide

theorem char_at_singleton (sc : Bool) (str : List Nat) (i : Nat) :
    char_at sc str i = char_at sc [str.getD i 0] 0 := rfl

theorem getD_lt_256 : ∀ (str : List Nat), (∀ b ∈ str, b < 256) → ∀ i, str.getD i 0 < 256 := by
  intro str
  induction str with
  | nil => intro _ i; exact Nat.zero_lt_succ _
  | cons a t ih =>
    intro h i
    cases i with
    | zero => exact h a (List.mem_cons_self a t)
    | succ j =>
      rw [List.getD_cons_succ]
      exact ih (fun b hb => h b (List.mem_cons_of_mem a hb)) j

theorem shl32_small (x k m : Nat) (hx : x ≤ m) (hm : m * 2 ^ k < 2 ^ 32) :
    shl32 x k = x <<< k := by
  unfold shl32
  rw [Nat.shiftLeft_eq]
  exact Nat.mod_eq_of_lt (lt_of_le_of_lt (Nat.mul_le_mul_right _ hx) hm)

/-- The second half of `hoxml_dec_char`: the sentinel when the byte count exceeds
`str_length`, the byte count unchanged otherwise. -/
theorem hoxml_dec_char_eq (sc : Bool) (str : List Nat) (n : Nat) (enc : hoxml_enc_t) :
    (hoxml_dec_char sc str n enc).bytes =
      (if hoxml_dec_char_bytes sc str enc > n then 0 else hoxml_dec_char_bytes sc str enc) ∧
    (hoxml_dec_char_bytes sc str enc > n →
      hoxml_dec_char sc str n enc = { encoded := 0, decoded := UINT32_MAX, bytes := 0 }) := by
  by_cases h : hoxml_dec_char_bytes sc str enc > n
  · have h1 : hoxml_dec_char sc str n enc =
        { encoded := 0, decoded := UINT32_MAX, bytes := 0 } := by
      cases enc <;> simp only [hoxml_dec_char, hoxml_dec_char_bytes] at h ⊢ <;> rw [if_pos h]
    exact ⟨by rw [h1, if_pos h], fun _ => h1⟩
  · refine ⟨?_, fun h1 => absurd h1 h⟩
    rw [if_neg h]
    cases enc <;> simp only [hoxml_dec_char, hoxml_dec_char_bytes] at h ⊢ <;> rw [if_neg h]

/-! ## The claims -/


/-- C1 (chunking independence) fails on the code: the document `FF FE 3C 00 61 00 2F 00 3E 00`
passed as one slice yields element-begin `a`, element-end `a`, end-of-document, but passed
in chunks of a single byte (each at a new address, the next one after every unexpected-eof)
it yields no token at all and ends in unexpected-eof. -/
theorem chunking_single_bytes_loses_document (sc : Bool) :
    hoxml_host sc 64 (hoxml_init HOST_BUFFER_A 64) HOST_XML_A doc_utf16le_a [] =
      [tag_token HOXML_CODE_ELEMENT_BEGIN [0x61], tag_token HOXML_CODE_ELEMENT_END [0x61],
       bare_token HOXML_CODE_END_OF_DOCUMENT] ∧
    hoxml_host sc 64 (hoxml_init HOST_BUFFER_A 64) HOST_XML_A [0xFF]
        [[0xFE], [0x3C], [0x00], [0x61], [0x00], [0x2F], [0x00], [0x3E], [0x00]] =
      [bare_token HOXML_ERROR_UNEXPECTED_EOF] := by
  cases sc <;> decide

/-- C2 (buffer growth transparency) fails on the code: `<abcdefgh>text</abcdefgh>` parsed
with a buffer of 64 bytes yields element-begin, element-end with content `text`,
end-of-document; parsed with a buffer of 25 bytes that is doubled through `hoxml_realloc`
at every insufficient-memory (the first one is raised by the terminator of the name) it
yields element-begin and then tag-mismatch. -/
theorem realloc_after_failed_terminator_changes_tokens (sc : Bool) :
    hoxml_host sc 64 (hoxml_init HOST_BUFFER_A 64) HOST_XML_A doc_abcdefgh [] =
      [tag_token HOXML_CODE_ELEMENT_BEGIN name_abcdefgh,
       { code := HOXML_CODE_ELEMENT_END, tag := some name_abcdefgh, attribute_ := none,
         value := none, content := some [0x74, 0x65, 0x78, 0x74] },
       bare_token HOXML_CODE_END_OF_DOCUMENT] ∧
    hoxml_host sc 64 (hoxml_init HOST_BUFFER_A 25) HOST_XML_A doc_abcdefgh [] =
      [tag_token HOXML_CODE_ELEMENT_BEGIN name_abcdefgh,
       tag_token HOXML_ERROR_TAG_MISMATCH name_abcdefgh] := by
  cases sc <;> decide

/-- C3 (decode after encode is the identity) fails on the code: for the scalar `0x10400` in
utf-16-be `hoxml_enc_char` reports 4 bytes and produces `D8 00 DC 00`, and `hoxml_dec_char`
applied to these 4 bytes returns the decoded value `0x10000` with byte count 4. -/
theorem enc_dec_utf16_be_roundtrip_fails (sc : Bool) :
    (hoxml_enc_char 0x10400 HOXML_ENC_UTF_16_BE).bytes = 4 ∧
    u32_bytes (hoxml_enc_char 0x10400 HOXML_ENC_UTF_16_BE).encoded = [0xD8, 0x00, 0xDC, 0x00] ∧
    (hoxml_dec_char sc (u32_bytes (hoxml_enc_char 0x10400 HOXML_ENC_UTF_16_BE).encoded) 4
        HOXML_ENC_UTF_16_BE).decoded = 0x10000 ∧
    (hoxml_dec_char sc (u32_bytes (hoxml_enc_char 0x10400 HOXML_ENC_UTF_16_BE).encoded) 4
        HOXML_ENC_UTF_16_BE).bytes = 4 := by
  cases sc <;> decide

/-- C4 (an end tag is a mismatch unless its name equals the open tag's name) fails on the
code: for the input `<a></ab>` the calls of `hoxml_parse` return element-begin and then, at
the end tag `</ab>`, element-end with tag `a` instead of tag-mismatch; the third call
returns end-of-document. -/
theorem end_tag_with_longer_name_is_accepted (sc : Bool) :
    (hoxml_parse_calls sc (hoxml_init HOST_BUFFER_A 64)
        [(HOST_XML_A, doc_a_ab), (HOST_XML_A, doc_a_ab), (HOST_XML_A, doc_a_ab)]).map
      (fun r => (r.1, r.2.state, r.2.fault)) =
    some ([tag_token HOXML_CODE_ELEMENT_BEGIN [0x61],
           { code := HOXML_CODE_ELEMENT_END, tag := some [0x61], attribute_ := none,
             value := none, content := some [] },
           bare_token HOXML_CODE_END_OF_DOCUMENT], HOXML_STATE_OPEN_TAG, false) := by
  cases sc <;> decide

/-- C5 (terminal errors are sticky) fails on the code: for the input `<a><!D` the second
call of `hoxml_parse` returns invalid-document-type-declaration and leaves the context in
that error state, but the third and fourth calls return the syntax error. -/
theorem dtd_error_is_not_sticky (sc : Bool) :
    (hoxml_parse_calls sc (hoxml_init HOST_BUFFER_A 64)
        [(HOST_XML_A, doc_a_dtd), (HOST_XML_A, doc_a_dtd), (HOST_XML_A, doc_a_dtd),
         (HOST_XML_A, doc_a_dtd)]).map
      (fun r => (r.1.map (fun t => t.code), r.2.state, r.2.fault)) =
    some ([HOXML_CODE_ELEMENT_BEGIN, HOXML_ERROR_INVALID_DOCUMENT_TYPE_DECLARATION,
           HOXML_ERROR_SYNTAX, HOXML_ERROR_SYNTAX],
          HOXML_STATE_ERROR_INVALID_DOCUMENT_TYPE_DECLARATION, false) := by
  cases sc <;> decide

/-- C6 (resumption after a slice that ends inside a code point) fails on the code: in
utf-16-le the slice `FF FE 3C` ends one byte short of the two-byte code point `3C 00` and
`hoxml_parse` returns unexpected-eof with one carried byte; the next call with the slice
`00` (exactly the missing byte, at a new address) returns unexpected-eof again and leaves
the context as it was, still in the unexpected-eof state, whereas with the bytes
contiguous (`FF FE 3C 00`) the code point `<` is processed and a frame is pushed. -/
theorem eof_not_left_when_slice_is_exactly_the_missing_byte (sc : Bool) :
    (hoxml_parse_calls sc (hoxml_init HOST_BUFFER_A 64) [(HOST_XML_A, [0xFF, 0xFE, 0x3C])]).map
      (fun r => (r.1, r.2.state, r.2.err_return_state, r.2.stream_length, r.2.stack)) =
      some ([bare_token HOXML_ERROR_UNEXPECTED_EOF], HOXML_STATE_ERROR_UNEXPECTED_EOF,
        HOXML_STATE_NONE, 1, 0) ∧
    (hoxml_parse_calls sc (hoxml_init HOST_BUFFER_A 64)
        [(HOST_XML_A, [0xFF, 0xFE, 0x3C]), (HOST_XML_B, [0x00])]).map
      (fun r => (r.1.map (fun t => t.code), r.2)) =
      (hoxml_parse_calls sc (hoxml_init HOST_BUFFER_A 64) [(HOST_XML_A, [0xFF, 0xFE, 0x3C])]).map
        (fun r => ([HOXML_ERROR_UNEXPECTED_EOF, HOXML_ERROR_UNEXPECTED_EOF], r.2)) ∧
    (hoxml_parse_calls sc (hoxml_init HOST_BUFFER_A 64)
        [(HOST_XML_A, [0xFF, 0xFE, 0x3C, 0x00])]).map
      (fun r => (r.1, r.2.state, r.2.err_return_state, r.2.stream_length, r.2.stack)) =
      some ([bare_token HOXML_ERROR_UNEXPECTED_EOF], HOXML_STATE_ERROR_UNEXPECTED_EOF,
        HOXML_STATE_TAG_BEGIN, 0, HOST_BUFFER_A) := by
  cases sc <;> decide

/-- C7 (new content is parsed whether or not it is passed at the same address) fails on the
code: after `<a>` was parsed at an address and `hoxml_parse` returned unexpected-eof at its
end, the new content `</a>` passed at that same address is not parsed (the call returns
unexpected-eof), whereas passed at a different address it is (the call returns
element-end). -/
theorem same_address_slice_is_not_parsed (sc : Bool) :
    (hoxml_parse_calls sc (hoxml_init HOST_BUFFER_A 64)
        [(HOST_XML_A, slice_open_a), (HOST_XML_A, slice_open_a), (HOST_XML_A, slice_close_a)]).map
      (fun r => (r.1.map (fun t => t.code), r.2.state, r.2.fault)) =
      some ([HOXML_CODE_ELEMENT_BEGIN, HOXML_ERROR_UNEXPECTED_EOF, HOXML_ERROR_UNEXPECTED_EOF],
        HOXML_STATE_ERROR_UNEXPECTED_EOF, false) ∧
    (hoxml_parse_calls sc (hoxml_init HOST_BUFFER_A 64)
        [(HOST_XML_A, slice_open_a), (HOST_XML_A, slice_open_a), (HOST_XML_B, slice_close_a)]).map
      (fun r => (r.1.map (fun t => t.code), r.2.state, r.2.fault)) =
      some ([HOXML_CODE_ELEMENT_BEGIN, HOXML_ERROR_UNEXPECTED_EOF, HOXML_CODE_ELEMENT_END],
        HOXML_STATE_OPEN_TAG, false) := by
  cases sc <;> decide

/-- C8 (insufficient-memory restores cursor, column and line) fails on the code: with a
buffer of 25 bytes and the input `<abcdefg>` followed by a line feed, the first call
returns element-begin with line 1, column 9 and the cursor at offset 9; the second call
fails to append the line feed and returns insufficient-memory with the cursor back at
offset 9 but with line 2 and column `0xFFFFFFFF`. -/
theorem insufficient_memory_on_newline_keeps_line_advance (sc : Bool) :
    (hoxml_parse_calls sc (hoxml_init HOST_BUFFER_A 25) [(HOST_XML_A, doc_abcdefg_lf)]).map
      (fun r => (r.1.map (fun t => t.code), r.2.line, r.2.column, r.2.iterator)) =
      some ([HOXML_CODE_ELEMENT_BEGIN], 1, 9, HOST_XML_A + 9) ∧
    (hoxml_parse_calls sc (hoxml_init HOST_BUFFER_A 25)
        [(HOST_XML_A, doc_abcdefg_lf), (HOST_XML_A, doc_abcdefg_lf)]).map
      (fun r => (r.1.map (fun t => t.code), r.2.line, r.2.column, r.2.iterator, r.2.fault)) =
      some ([HOXML_CODE_ELEMENT_BEGIN, HOXML_ERROR_INSUFFICIENT_MEMORY], 2, 0xFFFFFFFF,
        HOST_XML_A + 9, false) := by
  cases sc <;> decide

/-- C9: on a context with a well-formed stack, `hoxml_realloc` with a buffer strictly longer
than the current one returns with the new buffer address and length installed; if the
state was insufficient-memory the state becomes the stored `err_return_state` and
`err_return_state` becomes none, and in every other state both are unchanged.  With a
length not greater than the current one it returns the context unchanged. -/
theorem hoxml_realloc_installs_buffer_and_restores_state (c : hoxml_context_t)
    (frames : List Nat) (buffer buffer_length : Nat)
    (hok : frames_ok c (c.buffer + c.mem.length) c.stack frames = true) :
    (c.buffer_length < buffer_length →
      ∃ c', hoxml_realloc c buffer buffer_length = some c' ∧
        c'.buffer = buffer ∧ c'.buffer_length = buffer_length ∧
        (c.state = HOXML_STATE_ERROR_INSUFFICIENT_MEMORY →
          c'.state = c.err_return_state ∧ c'.err_return_state = HOXML_STATE_NONE) ∧
        (c.state ≠ HOXML_STATE_ERROR_INSUFFICIENT_MEMORY →
          c'.state = c.state ∧ c'.err_return_state = c.err_return_state)) ∧
    (buffer_length ≤ c.buffer_length → hoxml_realloc c buffer buffer_length = some c) := by
  constructor
  · intro hlen
    obtain ⟨m, hre, -⟩ := hoxml_realloc_some c frames buffer buffer_length hok hlen
    refine ⟨_, hre, rfl, rfl, ?_, ?_⟩
    · intro hs
      simp [hoxml_realloc_finish, hs]
    · intro hs
      simp [hoxml_realloc_finish, hs]
  · intro hle
    simp [hoxml_realloc, hle]

/-- Witness for C9: the context left by an insufficient-memory return (state
insufficient-memory, `err_return_state` element-name-1, one frame) and a buffer of 50
bytes. -/
theorem hoxml_realloc_installs_buffer_and_restores_state_witness :
    frames_ok ctx_insufficient (ctx_insufficient.buffer + ctx_insufficient.mem.length)
      ctx_insufficient.stack [HOST_BUFFER_A] = true ∧
    ctx_insufficient.state = HOXML_STATE_ERROR_INSUFFICIENT_MEMORY ∧
    ctx_insufficient.err_return_state = HOXML_STATE_ELEMENT_NAME1 ∧
    ((ctx_insufficient.buffer_length < 50 →
      ∃ c', hoxml_realloc ctx_insufficient HOST_BUFFER_B 50 = some c' ∧
        c'.buffer = HOST_BUFFER_B ∧ c'.buffer_length = 50 ∧
        (ctx_insufficient.state = HOXML_STATE_ERROR_INSUFFICIENT_MEMORY →
          c'.state = ctx_insufficient.err_return_state ∧
            c'.err_return_state = HOXML_STATE_NONE) ∧
        (ctx_insufficient.state ≠ HOXML_STATE_ERROR_INSUFFICIENT_MEMORY →
          c'.state = ctx_insufficient.state ∧
            c'.err_return_state = ctx_insufficient.err_return_state)) ∧
    (50 ≤ ctx_insufficient.buffer_length →
      hoxml_realloc ctx_insufficient HOST_BUFFER_B 50 = some ctx_insufficient)) :=
  ⟨by decide, by decide, by decide,
    hoxml_realloc_installs_buffer_and_restores_state ctx_insufficient [HOST_BUFFER_A]
      HOST_BUFFER_B 50 (by decide)⟩

/-- C10: for a well-formed context and a strictly longer new buffer (a non-null object
inside the address space), `hoxml_realloc` returns, and afterwards each of `tag`,
`attribute`, `value` and `content` is `NULL` if it was `NULL` and otherwise lies at the
same offset from the new base, with the same C string; the head frame and the `parent` and
`end` links of every frame lie at unchanged offsets; every byte outside the link fields of
the frames is unchanged; and the bytes beyond the old length are zero. -/
theorem hoxml_realloc_keeps_strings_and_links (c : hoxml_context_t) (frames : List Nat)
    (buffer buffer_length : Nat) (hwf : hoxml_wf c frames)
    (hlen : c.buffer_length < buffer_length) (hpos : 0 < buffer)
    (hnew : buffer + buffer_length ≤ 2 ^ 64) :
    ∃ c', hoxml_realloc c buffer buffer_length = some c' ∧
      c'.tag = moved c buffer c.tag ∧ observe_string c' c'.tag = observe_string c c.tag ∧
      c'.attribute_ = moved c buffer c.attribute_ ∧
      observe_string c' c'.attribute_ = observe_string c c.attribute_ ∧
      c'.value = moved c buffer c.value ∧ observe_string c' c'.value = observe_string c c.value ∧
      c'.content = moved c buffer c.content ∧
      observe_string c' c'.content = observe_string c c.content ∧
      c'.stack = moved c buffer c.stack ∧
      (∀ n ∈ frames, node_parent c' (moved c buffer n) = moved c buffer (node_parent c n) ∧
        node_end c' (moved c buffer n) = moved c buffer (node_end c n)) ∧
      (∀ i, (∀ n ∈ frames, i < n - c.buffer ∨ n - c.buffer + 16 ≤ i) →
        c'.mem.getD i 0 = c.mem.getD i 0) ∧
      c'.mem.length = buffer_length ∧
      (∀ i, c.buffer_length ≤ i → c'.mem.getD i 0 = 0) := by
  obtain ⟨hmem, hold, hok, htag, hattr, hval, hcont⟩ := hwf
  obtain ⟨m, hre, hm, hget, hptr⟩ := hoxml_realloc_some c frames buffer buffer_length hok hlen
  have hfr := frames_ok_mem c _ _ _ hok
  have hlinks := frames_ok_links c _ _ _ hok
  have hcopy : ∀ i, (hoxml_realloc_finish { c with mem := m } buffer buffer_length).mem.getD i 0 =
      m.getD i 0 := fun i => by
    rw [hoxml_realloc_finish_mem]
    exact copy_getD m c.buffer_length buffer_length i (by rw [hm, hmem]) (by omega)
  have hs := fun p hp => string_moved c frames buffer buffer_length m p hmem hlen hpos hold hnew
    hm hget (fun n hn => (hfr n hn).1) hp
  obtain ⟨t1, t2⟩ := hs _ htag
  obtain ⟨a1, a2⟩ := hs _ hattr
  obtain ⟨v1, v2⟩ := hs _ hval
  obtain ⟨c1, c2⟩ := hs _ hcont
  have et : (hoxml_realloc_finish { c with mem := m } buffer buffer_length).tag =
      moved c buffer c.tag := t1
  have ea : (hoxml_realloc_finish { c with mem := m } buffer buffer_length).attribute_ =
      moved c buffer c.attribute_ := a1
  have ev : (hoxml_realloc_finish { c with mem := m } buffer buffer_length).value =
      moved c buffer c.value := v1
  have ec : (hoxml_realloc_finish { c with mem := m } buffer buffer_length).content =
      moved c buffer c.content := c1
  refine ⟨_, hre, et, by rw [et]; exact t2, ea, by rw [ea]; exact a2, ev, by rw [ev]; exact v2,
    ec, by rw [ec]; exact c2, ?_, ?_, ?_, ?_, ?_⟩
  · show (if c.stack ≠ 0 then rebase c buffer c.stack else c.stack) = moved c buffer c.stack
    rcases frames_ok_node c _ _ _ hok with h0 | ⟨-, h1, h2⟩
    · simp [h0, moved]
    · by_cases h0 : c.stack = 0
      · simp [h0, moved]
      · rw [if_pos h0]
        exact rebase_eq_moved c buffer _ h0 h1 (by omega) (by omega)
  · intro n hn
    obtain ⟨hb, hbd, h0⟩ := hfr n hn
    obtain ⟨hpar, he1, he2⟩ := hlinks n hn
    obtain ⟨p1, p2⟩ := hptr n hn
    have hmv : moved c buffer n = buffer + (n - c.buffer) := by simp [moved, h0]
    rw [hmv]
    constructor
    · simp only [node_parent, rd_ptr, hoxml_realloc_finish_buffer]
      rw [if_pos (by omega), Nat.add_sub_cancel_left,
        ptr_at_congr m _ _ (fun i _ _ => hcopy i), p2]
      show (if rd_ptr c n = 0 then 0 else rebase c buffer (rd_ptr c n)) =
        moved c buffer (rd_ptr c n)
      rcases hpar with h | ⟨h1, h2⟩
      · have h' : rd_ptr c n = 0 := h
        simp [h', moved]
      · have h1' : c.buffer ≤ rd_ptr c n := h1
        have h2' : rd_ptr c n + 17 ≤ n := h2
        by_cases hz : rd_ptr c n = 0
        · simp [hz, moved]
        · rw [if_neg hz]
          exact rebase_eq_moved c buffer _ hz h1' (by omega) (by omega)
    · simp only [node_end, rd_ptr, hoxml_realloc_finish_buffer, HOXML_NODE_END]
      rw [if_pos (by omega), show buffer + (n - c.buffer) + 8 - buffer = n - c.buffer + 8 by omega,
        ptr_at_congr m _ _ (fun i _ _ => hcopy i), p1]
      have he1' : n + 16 ≤ node_end c n := he1
      have e : node_end c n = if c.buffer ≤ n + 8 then ptr_at c.mem (n + 8 - c.buffer) else 0 := rfl
      rw [← e]
      exact rebase_eq_moved c buffer _ (by omega) (by omega) (by omega) (by omega)
  · intro i hi
    rw [hcopy i]
    exact hget i hi
  · rw [hoxml_realloc_finish_mem]
    exact copy_length m _ _
  · intro i hi
    rw [hcopy i, List.getD_eq_default _ _ (by omega)]

/-- Witness for C10: the context at the attribute token of `<r><a x="1"` (two frames; `tag`,
`attribute` and `value` point to `a`, `x` and `1`) and a new buffer of 128 bytes. -/
theorem hoxml_realloc_keeps_strings_and_links_witness :
    hoxml_wf ctx_at_attribute [HOST_BUFFER_A + 19, HOST_BUFFER_A] ∧
    ctx_at_attribute.buffer_length < 128 ∧ 0 < HOST_BUFFER_B ∧ HOST_BUFFER_B + 128 ≤ 2 ^ 64 ∧
    observe HOXML_CODE_ATTRIBUTE ctx_at_attribute =
      { code := HOXML_CODE_ATTRIBUTE, tag := some [0x61], attribute_ := some [0x78],
        value := some [0x31], content := none } ∧
    ∃ c', hoxml_realloc ctx_at_attribute HOST_BUFFER_B 128 = some c' ∧
      c'.tag = moved ctx_at_attribute HOST_BUFFER_B ctx_at_attribute.tag ∧
      observe_string c' c'.tag = observe_string ctx_at_attribute ctx_at_attribute.tag ∧
      c'.attribute_ = moved ctx_at_attribute HOST_BUFFER_B ctx_at_attribute.attribute_ ∧
      observe_string c' c'.attribute_ =
        observe_string ctx_at_attribute ctx_at_attribute.attribute_ ∧
      c'.value = moved ctx_at_attribute HOST_BUFFER_B ctx_at_attribute.value ∧
      observe_string c' c'.value = observe_string ctx_at_attribute ctx_at_attribute.value ∧
      c'.content = moved ctx_at_attribute HOST_BUFFER_B ctx_at_attribute.content ∧
      observe_string c' c'.content = observe_string ctx_at_attribute ctx_at_attribute.content ∧
      c'.stack = moved ctx_at_attribute HOST_BUFFER_B ctx_at_attribute.stack ∧
      (∀ n ∈ [HOST_BUFFER_A + 19, HOST_BUFFER_A],
        node_parent c' (moved ctx_at_attribute HOST_BUFFER_B n) =
          moved ctx_at_attribute HOST_BUFFER_B (node_parent ctx_at_attribute n) ∧
        node_end c' (moved ctx_at_attribute HOST_BUFFER_B n) =
          moved ctx_at_attribute HOST_BUFFER_B (node_end ctx_at_attribute n)) ∧
      (∀ i, (∀ n ∈ [HOST_BUFFER_A + 19, HOST_BUFFER_A],
          i < n - ctx_at_attribute.buffer ∨ n - ctx_at_attribute.buffer + 16 ≤ i) →
        c'.mem.getD i 0 = ctx_at_attribute.mem.getD i 0) ∧
      c'.mem.length = 128 ∧
      (∀ i, ctx_at_attribute.buffer_length ≤ i → c'.mem.getD i 0 = 0) :=
  ⟨by decide, by decide, by decide, by decide, by decide,
    hoxml_realloc_keeps_strings_and_links ctx_at_attribute [HOST_BUFFER_A + 19, HOST_BUFFER_A]
      HOST_BUFFER_B 128 (by decide) (by decide) (by decide) (by decide)⟩

/-- C11 (at an attribute token `attribute` points to the first byte of the attribute's
name) fails on the code: for the utf-8 document `EF BB BF` `<a é="1"/>` the attribute token
is delivered with `attribute` pointing to the second byte `A9` of the name `C3 A9` (`tag`
is `a` and `value` is `1`).  The stream of `<a x="1" y='2'/>` is as the claim states. -/
theorem attribute_points_to_last_byte_of_first_character (sc : Bool) :
    hoxml_host sc 64 (hoxml_init HOST_BUFFER_A 128) HOST_XML_A doc_attr_utf8 [] =
      [tag_token HOXML_CODE_ELEMENT_BEGIN [0x61],
       { code := HOXML_CODE_ATTRIBUTE, tag := some [0x61], attribute_ := some [0xA9],
         value := some [0x31], content := none },
       tag_token HOXML_CODE_ELEMENT_END [0x61], bare_token HOXML_CODE_END_OF_DOCUMENT] ∧
    hoxml_host sc 64 (hoxml_init HOST_BUFFER_A 128) HOST_XML_A doc_attr_xy [] =
      [tag_token HOXML_CODE_ELEMENT_BEGIN [0x61],
       { code := HOXML_CODE_ATTRIBUTE, tag := some [0x61], attribute_ := some [0x78],
         value := some [0x31], content := none },
       { code := HOXML_CODE_ATTRIBUTE, tag := some [0x61], attribute_ := some [0x79],
         value := some [0x32], content := none },
       tag_token HOXML_CODE_ELEMENT_END [0x61], bare_token HOXML_CODE_END_OF_DOCUMENT] := by
  cases sc <;> decide

/-- C12 (at element-end `content` points to the first byte after the terminator of the
element's name) fails on the code: for the utf-8 document `EF BB BF` `<é>x</é>` the
element-end token is delivered with `content = tag + 2`, the address of the terminator of
the two-byte name `C3 A9`, so the content reads as the empty string although the byte `x`
follows at `tag + 3`. -/
theorem content_points_to_terminator_of_multibyte_name (sc : Bool) :
    hoxml_host sc 64 (hoxml_init HOST_BUFFER_A 128) HOST_XML_A doc_content_utf8 [] =
      [tag_token HOXML_CODE_ELEMENT_BEGIN [0xC3, 0xA9],
       { code := HOXML_CODE_ELEMENT_END, tag := some [0xC3, 0xA9], attribute_ := none,
         value := none, content := some [] },
       bare_token HOXML_CODE_END_OF_DOCUMENT] ∧
    (hoxml_parse_calls sc (hoxml_init HOST_BUFFER_A 128)
        [(HOST_XML_A, doc_content_utf8), (HOST_XML_A, doc_content_utf8)]).map
      (fun r => (r.2.tag, r.2.content, rd8 r.2 (r.2.tag + 2), rd8 r.2 (r.2.tag + 3),
        r.2.fault)) =
      some (HOST_BUFFER_A + 17, HOST_BUFFER_A + 19, 0x00, 0x78, false) := by
  cases sc <;> decide

/-- C13 (a numeric reference is replaced by exactly the encoded bytes of its value, also
directly after another reference) fails on the code: for `<a>&#0065;&#66;</a>` the content
delivered at element-end is `A` followed by `CA 99` (the code point 665) instead of `AB`:
the last digit of the first reference body is not zeroed and is read as part of the
second one. -/
theorem reference_after_reference_reads_stale_digit (sc : Bool) :
    hoxml_host sc 64 (hoxml_init HOST_BUFFER_A 128) HOST_XML_A doc_two_refs [] =
      [tag_token HOXML_CODE_ELEMENT_BEGIN [0x61],
       { code := HOXML_CODE_ELEMENT_END, tag := some [0x61], attribute_ := none,
         value := none, content := some [0x41, 0xCA, 0x99] },
       bare_token HOXML_CODE_END_OF_DOCUMENT] ∧
    u32_bytes (hoxml_enc_char 665 HOXML_ENC_UNKNOWN).encoded = [0xCA, 0x99, 0x00, 0x00] := by
  cases sc <;> decide

/-- C14 (a reference that cannot be resolved is a syntax error) fails on the code: no call
returns the syntax error for `<a>&ltx;</a>` (the entity `ltx` is resolved as `<`), for
`<a>&#xD800;0;</a>` (the `;` after the surrogate `D800` changes nothing, and the digits
that follow extend the same reference to `D8000`) and for `<a>&#x100000041;</a>` (the
value is truncated to 32 bits and resolved as `A`). -/
theorem unresolvable_references_are_accepted (sc : Bool) :
    hoxml_host sc 64 (hoxml_init HOST_BUFFER_A 128) HOST_XML_A doc_ref_ltx [] =
      [tag_token HOXML_CODE_ELEMENT_BEGIN [0x61],
       { code := HOXML_CODE_ELEMENT_END, tag := some [0x61], attribute_ := none,
         value := none, content := some [0x3C] },
       bare_token HOXML_CODE_END_OF_DOCUMENT] ∧
    hoxml_host sc 64 (hoxml_init HOST_BUFFER_A 128) HOST_XML_A doc_ref_surrogate [] =
      [tag_token HOXML_CODE_ELEMENT_BEGIN [0x61],
       { code := HOXML_CODE_ELEMENT_END, tag := some [0x61], attribute_ := none,
         value := none, content := some [0xF3, 0x98, 0x80, 0x80] },
       bare_token HOXML_CODE_END_OF_DOCUMENT] ∧
    hoxml_host sc 64 (hoxml_init HOST_BUFFER_A 128) HOST_XML_A doc_ref_large [] =
      [tag_token HOXML_CODE_ELEMENT_BEGIN [0x61],
       { code := HOXML_CODE_ELEMENT_END, tag := some [0x61], attribute_ := none,
         value := none, content := some [0x41] },
       bare_token HOXML_CODE_END_OF_DOCUMENT] := by
  cases sc <;> decide

/-- C15: for every name `x` of one-byte characters (a name-start character followed by
name characters, no byte-order mark), the document `<x/>` at a non-null address, parsed
from the initial state with a buffer of at least 25 and at least `x.length + 18` bytes that
lies in the address space, yields element-begin with tag `x`, then element-end with tag
`x` and no content (`content` is `NULL`, as are `attribute` and `value`), then
end-of-document; this is what the host loop observes, whatever its remaining fuel and
chunks, and what three successive calls of `hoxml_parse` on the document return. -/
theorem empty_element_yields_begin_end_and_end_of_document (sc : Bool)
    (buffer buffer_length xml : Nat) (x : List Nat) (fuel : Nat) (chunks : List (List Nat))
    (hbuf : 0 < buffer) (h64 : buffer + buffer_length ≤ 2 ^ 64) (h25 : 25 ≤ buffer_length)
    (hroom : x.length + 18 ≤ buffer_length) (hxml : 0 < xml) (hx : is_byte_name x = true) :
    hoxml_host sc (fuel + 3) (hoxml_init buffer buffer_length) xml (empty_element_doc x) chunks =
      [tag_token HOXML_CODE_ELEMENT_BEGIN x, tag_token HOXML_CODE_ELEMENT_END x,
       bare_token HOXML_CODE_END_OF_DOCUMENT] ∧
    (hoxml_parse_calls sc (hoxml_init buffer buffer_length)
        [(xml, empty_element_doc x), (xml, empty_element_doc x),
         (xml, empty_element_doc x)]).map (fun r => r.1) =
      some [tag_token HOXML_CODE_ELEMENT_BEGIN x, tag_token HOXML_CODE_ELEMENT_END x,
        bare_token HOXML_CODE_END_OF_DOCUMENT] := by
  obtain ⟨⟨b, rest, rfl⟩, hnz⟩ := is_byte_name_facts x hx
  obtain ⟨c1, h1, hat⟩ := empty_element_first_call sc buffer buffer_length xml b rest hbuf h64
    h25 hroom hxml hx
  obtain ⟨s, col, it, h2⟩ := empty_element_second_call sc c1 buffer buffer_length xml
    (b :: rest) hat hxml hroom h64
  obtain ⟨hst, hp, hs, hB, hL, hm, henc, hsl, hx1, hxl, hit, htag, hattr, hval, hcont⟩ := hat
  generalize hc2 : ({ c1 with stream := s, column := col, iterator := it, stream_length := 0, state := HOXML_STATE_OPEN_TAG, post_state := HOXML_POST_STATE_TAG_END } : hoxml_context_t) = c2 at h2
  have hm2 : root_frame_mem c2.mem c2.buffer c2.buffer_length 0x12 (b :: rest ++ [0]) := by
    subst hc2
    show root_frame_mem c1.mem c1.buffer c1.buffer_length 0x12 _
    rw [hB, hL]
    exact hm
  have hN := empty_element_doc_length (b :: rest)
  obtain ⟨m, h3⟩ := hoxml_parse_after_root_end sc c2 xml (empty_element_doc (b :: rest)) 0x12
    (b :: rest ++ [0]) hxml (by omega) (by subst hc2; rfl) (by subst hc2; rfl)
    (by subst hc2; exact hs) (by subst hc2; show 0 < c1.buffer; omega) hm2
    (by
      subst hc2
      show 17 + (b :: rest ++ [0]).length ≤ c1.buffer_length
      rw [List.length_append, List.length_singleton]
      omega)
    (by subst hc2; show c1.buffer + c1.buffer_length ≤ _; rw [hB, hL]; exact h64) (by decide)
  have o1 : observe HOXML_CODE_ELEMENT_BEGIN c1 =
      tag_token HOXML_CODE_ELEMENT_BEGIN (b :: rest) :=
    observe_root_tag _ c1 buffer_length 0x12 (b :: rest) (by rw [hB]; exact hm) hnz
      (by rw [htag, hB]) hattr hval hcont
  have o2 : observe HOXML_CODE_ELEMENT_END c2 =
      tag_token HOXML_CODE_ELEMENT_END (b :: rest) :=
    observe_root_tag _ c2 c2.buffer_length 0x12 (b :: rest) hm2 hnz
      (by subst hc2; show c1.tag = c1.buffer + 17; rw [htag, hB])
      (by subst hc2; exact hattr) (by subst hc2; exact hval) (by subst hc2; exact hcont)
  have o3 : observe HOXML_CODE_END_OF_DOCUMENT
      { c2 with tag := 0, attribute_ := 0, value := 0, content := 0, stack := 0, mem := m } =
      bare_token HOXML_CODE_END_OF_DOCUMENT := rfl
  constructor
  · rw [hoxml_host, h1]
    simp only [if_neg (show ¬ HOXML_CODE_ELEMENT_BEGIN = HOXML_ERROR_UNEXPECTED_EOF by decide),
      if_neg (show ¬ HOXML_CODE_ELEMENT_BEGIN = HOXML_ERROR_INSUFFICIENT_MEMORY by decide),
      if_neg (show ¬ HOXML_CODE_ELEMENT_BEGIN.toInt ≤ 0 by decide)]
    rw [hoxml_host, h2]
    simp only [if_neg (show ¬ HOXML_CODE_ELEMENT_END = HOXML_ERROR_UNEXPECTED_EOF by decide),
      if_neg (show ¬ HOXML_CODE_ELEMENT_END = HOXML_ERROR_INSUFFICIENT_MEMORY by decide),
      if_neg (show ¬ HOXML_CODE_ELEMENT_END.toInt ≤ 0 by decide)]
    rw [hoxml_host, h3]
    simp only [if_neg (show ¬ HOXML_CODE_END_OF_DOCUMENT = HOXML_ERROR_UNEXPECTED_EOF by decide),
      if_neg (show ¬ HOXML_CODE_END_OF_DOCUMENT = HOXML_ERROR_INSUFFICIENT_MEMORY by decide),
      if_pos (show HOXML_CODE_END_OF_DOCUMENT.toInt ≤ 0 by decide)]
    rw [o1, o2, o3]
  · simp only [hoxml_parse_calls, h1, h2, h3, Option.map_some', o1, o2, o3]

/-- Witness for C15: the name `a`, `E9`, `-` in a buffer of 64 bytes. -/
theorem empty_element_yields_begin_end_and_end_of_document_witness :
    (0 < HOST_BUFFER_A ∧ HOST_BUFFER_A + 64 ≤ 2 ^ 64 ∧ 25 ≤ 64 ∧
      name_a_e9_dash.length + 18 ≤ 64 ∧ 0 < HOST_XML_A ∧ is_byte_name name_a_e9_dash = true) ∧
    (hoxml_host true (0 + 3) (hoxml_init HOST_BUFFER_A 64) HOST_XML_A
        (empty_element_doc name_a_e9_dash) [] =
      [tag_token HOXML_CODE_ELEMENT_BEGIN name_a_e9_dash,
       tag_token HOXML_CODE_ELEMENT_END name_a_e9_dash,
       bare_token HOXML_CODE_END_OF_DOCUMENT] ∧
    (hoxml_parse_calls true (hoxml_init HOST_BUFFER_A 64)
        [(HOST_XML_A, empty_element_doc name_a_e9_dash),
         (HOST_XML_A, empty_element_doc name_a_e9_dash),
         (HOST_XML_A, empty_element_doc name_a_e9_dash)]).map (fun r => r.1) =
      some [tag_token HOXML_CODE_ELEMENT_BEGIN name_a_e9_dash,
        tag_token HOXML_CODE_ELEMENT_END name_a_e9_dash,
        bare_token HOXML_CODE_END_OF_DOCUMENT]) :=
  ⟨⟨by decide, by decide, by decide, by decide, by decide, by decide⟩,
    empty_element_yields_begin_end_and_end_of_document true HOST_BUFFER_A 64 HOST_XML_A
      name_a_e9_dash 0 [] (by decide) (by decide) (by decide) (by decide) (by decide)
      (by decide)⟩

/-- C16 (a processing instruction with target `xml` inside an open element yields
invalid-document-declaration) fails on the code when the target is directly followed by
`?>`: `<a><?xml?></a>` yields element-begin `a`, processing-instruction-end `xml`,
element-end `a`, end-of-document.  With whitespace after the target
(`<a><?xml version="1.0"?></a>`) the error is returned. -/
theorem xml_target_without_content_is_accepted_inside_element (sc : Bool) :
    hoxml_host sc 64 (hoxml_init HOST_BUFFER_A 128) HOST_XML_A doc_xml_pi_inside [] =
      [tag_token HOXML_CODE_ELEMENT_BEGIN [0x61],
       tag_token HOXML_CODE_PROCESSING_INSTRUCTION_END [0x78, 0x6D, 0x6C],
       { code := HOXML_CODE_ELEMENT_END, tag := some [0x61], attribute_ := none,
         value := none, content := some [] },
       bare_token HOXML_CODE_END_OF_DOCUMENT] ∧
    hoxml_host sc 64 (hoxml_init HOST_BUFFER_A 128) HOST_XML_A doc_xml_decl_inside [] =
      [tag_token HOXML_CODE_ELEMENT_BEGIN [0x61],
       tag_token HOXML_ERROR_INVALID_DOCUMENT_DECLARATION [0x78, 0x6D, 0x6C]] := by
  cases sc <;> decide

/-- C17: when the characters `<`, `!`, `D` are consumed and the `<` was read in the open-tag
state (an element is open) or in the none state (before the root element), with the push
of the frame succeeding, the switch of `hoxml_parse` first begins a tag, then enters the
comment-cdata-or-dtd state, and at `D` it returns invalid-document-type-declaration (which
`hoxml_parse` returns as it stands) and sets that error state if the `<` was read in the
open-tag state, whereas it goes on to the state dtd-begin-1 without any error if the `<`
was read in the none state. -/
theorem doctype_is_rejected_inside_an_element (sc : Bool) (c : hoxml_context_t)
    (lt bang dd : hoxml_char_t) (hlt : lt.decoded = 0x3C) (hbang : bang.decoded = 0x21)
    (hdd : dd.decoded = 0x44)
    (hs : c.state = HOXML_STATE_OPEN_TAG ∨ c.state = HOXML_STATE_NONE)
    (hpush : (hoxml_begin_tag c).state = HOXML_STATE_TAG_BEGIN) :
    hoxml_parse_switch sc c lt = next (hoxml_begin_tag c) ∧
    hoxml_parse_switch sc (hoxml_begin_tag c) bang =
      next (set_state (hoxml_begin_tag c) HOXML_STATE_COMMENT_CDATA_OR_DTD_BEGIN) ∧
    hoxml_parse_switch sc
        (set_state (hoxml_begin_tag c) HOXML_STATE_COMMENT_CDATA_OR_DTD_BEGIN) dd =
      (if c.state = HOXML_STATE_OPEN_TAG then
        ret HOXML_ERROR_INVALID_DOCUMENT_TYPE_DECLARATION
          (set_state (hoxml_begin_tag c) HOXML_STATE_ERROR_INVALID_DOCUMENT_TYPE_DECLARATION)
      else next (set_state (hoxml_begin_tag c) HOXML_STATE_DTD_BEGIN1)) := by
  have hne : c.state ≠ HOXML_STATE_TAG_BEGIN := by
    rcases hs with h | h <;> rw [h] <;> decide
  have hret := hoxml_begin_tag_return_state c hpush hne
  refine ⟨?_, ?_, ?_⟩
  · rcases hs with h | h
    · simp [hoxml_parse_switch, h, hlt]
    · simp [hoxml_parse_switch, h, hlt]
  · simp [hoxml_parse_switch, hpush, hbang]
  · rcases hs with h | h
    · simp [hoxml_parse_switch, set_state, hdd, hret, h]
    · simp [hoxml_parse_switch, set_state, hdd, hret, h]

/-- Witness for C17: the context after `<a>` (open-tag state) and the initial context (none
state); the calls of `hoxml_parse` on `<a><!D` return element-begin and then
invalid-document-type-declaration, and `<!DOCTYPE r ><r/>` is parsed without error. -/
theorem doctype_is_rejected_inside_an_element_witness :
    ctx_open_a.state = HOXML_STATE_OPEN_TAG ∧
    (hoxml_begin_tag ctx_open_a).state = HOXML_STATE_TAG_BEGIN ∧
    (hoxml_parse_switch true ctx_open_a char_lt = next (hoxml_begin_tag ctx_open_a) ∧
      hoxml_parse_switch true (hoxml_begin_tag ctx_open_a) char_bang =
        next (set_state (hoxml_begin_tag ctx_open_a) HOXML_STATE_COMMENT_CDATA_OR_DTD_BEGIN) ∧
      hoxml_parse_switch true
          (set_state (hoxml_begin_tag ctx_open_a) HOXML_STATE_COMMENT_CDATA_OR_DTD_BEGIN)
          char_D =
        (if ctx_open_a.state = HOXML_STATE_OPEN_TAG then
          ret HOXML_ERROR_INVALID_DOCUMENT_TYPE_DECLARATION
            (set_state (hoxml_begin_tag ctx_open_a)
              HOXML_STATE_ERROR_INVALID_DOCUMENT_TYPE_DECLARATION)
        else next (set_state (hoxml_begin_tag ctx_open_a) HOXML_STATE_DTD_BEGIN1))) ∧
    hoxml_host true 64 (hoxml_init HOST_BUFFER_A 64) HOST_XML_A doc_a_dtd [] =
      [tag_token HOXML_CODE_ELEMENT_BEGIN [0x61],
       tag_token HOXML_ERROR_INVALID_DOCUMENT_TYPE_DECLARATION [0x61]] ∧
    hoxml_host true 64 (hoxml_init HOST_BUFFER_A 64) HOST_XML_A doc_doctype_first [] =
      [tag_token HOXML_CODE_ELEMENT_BEGIN [0x72], tag_token HOXML_CODE_ELEMENT_END [0x72],
       bare_token HOXML_CODE_END_OF_DOCUMENT] :=
  ⟨by decide, by decide,
    doctype_is_rejected_inside_an_element true ctx_open_a char_lt char_bang char_D rfl rfl rfl
      (Or.inl (by decide)) (by decide),
    by decide, by decide⟩

/-- C18 (end-of-document is returned only after the root element has been closed) fails on
the code: for `<?pi?><r/>` the calls return processing-instruction-end `pi` and then
end-of-document; no element token is returned and the root element is never read. -/
theorem processing_instruction_before_root_ends_document (sc : Bool) :
    hoxml_host sc 64 (hoxml_init HOST_BUFFER_A 128) HOST_XML_A doc_pi_before_root [] =
      [tag_token HOXML_CODE_PROCESSING_INSTRUCTION_END [0x70, 0x69],
       bare_token HOXML_CODE_END_OF_DOCUMENT] ∧
    (hoxml_parse_calls sc (hoxml_init HOST_BUFFER_A 128)
        [(HOST_XML_A, doc_pi_before_root), (HOST_XML_A, doc_pi_before_root)]).map
      (fun r => (r.1.map (fun t => t.code), r.2.iterator, r.2.fault)) =
      some ([HOXML_CODE_PROCESSING_INSTRUCTION_END, HOXML_CODE_END_OF_DOCUMENT],
        HOST_XML_A + 6, false) := by
  cases sc <;> decide

/-- C19 (the encoding error is returned exactly when the declared encoding contradicts the
byte-order mark, and a declared utf-8 without byte-order mark sets the encoding) fails on
the code for the declaration
`<?xml version='1.0' encoding='UTF-8' standalone="yes"?>`: after a utf-8 byte-order mark
the encoding error is returned although utf-8 is declared, and without byte-order mark
the encoding stays unknown after the declaration. -/
theorem declared_encoding_is_read_at_first_double_quote (sc : Bool) :
    hoxml_host sc 64 (hoxml_init HOST_BUFFER_A 128) HOST_XML_A
        ([0xEF, 0xBB, 0xBF] ++ doc_decl_mixed_quotes) [] =
      [tag_token HOXML_CODE_PROCESSING_INSTRUCTION_BEGIN [0x78, 0x6D, 0x6C],
       { code := HOXML_ERROR_ENCODING, tag := some [0x78, 0x6D, 0x6C], attribute_ := none,
         value := none, content := some str_decl_mixed_quotes }] ∧
    (hoxml_parse_calls sc (hoxml_init HOST_BUFFER_A 128)
        [(HOST_XML_A, doc_decl_mixed_quotes), (HOST_XML_A, doc_decl_mixed_quotes),
         (HOST_XML_A, doc_decl_mixed_quotes)]).map
      (fun r => (r.1.map (fun t => t.code), r.2.encoding, r.2.fault)) =
      some ([HOXML_CODE_PROCESSING_INSTRUCTION_BEGIN, HOXML_CODE_PROCESSING_INSTRUCTION_END,
        HOXML_CODE_ELEMENT_BEGIN], HOXML_ENC_UNKNOWN, false) := by
  cases sc <;> decide

/-- C20: parsing `<?xml version="1.0" encoding="UTF-8"?><r><b>A</b><b>B</b></r>` with a
buffer of 128 bytes yields, in order: processing-instruction-begin with tag `xml`;
processing-instruction-end with content `version="1.0" encoding="UTF-8"`; element-begin
`r`; element-begin `b`; element-end `b` with content `A`; element-begin `b`; element-end
`b` with content `B`; element-end `r`; end-of-document. -/
theorem scenario_declaration_and_nested_elements (sc : Bool) :
    hoxml_host sc 64 (hoxml_init HOST_BUFFER_A 128) HOST_XML_A doc_scenario_1 [] =
      [tag_token HOXML_CODE_PROCESSING_INSTRUCTION_BEGIN [0x78, 0x6D, 0x6C],
       { code := HOXML_CODE_PROCESSING_INSTRUCTION_END, tag := some [0x78, 0x6D, 0x6C],
         attribute_ := none, value := none, content := some str_decl_scenario_1 },
       tag_token HOXML_CODE_ELEMENT_BEGIN [0x72],
       tag_token HOXML_CODE_ELEMENT_BEGIN [0x62],
       { code := HOXML_CODE_ELEMENT_END, tag := some [0x62], attribute_ := none,
         value := none, content := some [0x41] },
       tag_token HOXML_CODE_ELEMENT_BEGIN [0x62],
       { code := HOXML_CODE_ELEMENT_END, tag := some [0x62], attribute_ := none,
         value := none, content := some [0x42] },
       { code := HOXML_CODE_ELEMENT_END, tag := some [0x72], attribute_ := none,
         value := none, content := some [] },
       bare_token HOXML_CODE_END_OF_DOCUMENT] := by
  cases sc <;> decide

/-- Counterexample to C21 as stated: when `hoxml_parse` returns tag-mismatch on
`<a><b></c></a>`, `column` is not 9, the position of `c`. -/
theorem tag_mismatch_column_is_not_the_position_of_the_name :
    (context_after true (hoxml_init HOST_BUFFER_A 128)
      [(HOST_XML_A, doc_mismatch_c), (HOST_XML_A, doc_mismatch_c),
       (HOST_XML_A, doc_mismatch_c)]).column ≠ 9 := by
  decide

/-- C21, amended: parsing `<a><b></c></a>` returns element-begin `a`, element-begin `b` and
then tag-mismatch (with `tag` pointing to the name `c` of the end tag), and after that call
`line` is 1 and `column` is 10, the 1-based position of the `>` that ends the end tag
`</c>`, which is the character last parsed; the iterator is just after that `>`. -/
theorem tag_mismatch_column_is_the_position_of_the_closing_bracket (sc : Bool) :
    (hoxml_parse_calls sc (hoxml_init HOST_BUFFER_A 128)
        [(HOST_XML_A, doc_mismatch_c), (HOST_XML_A, doc_mismatch_c),
         (HOST_XML_A, doc_mismatch_c)]).map
      (fun r => (r.1, r.2.line, r.2.column, r.2.iterator, r.2.fault)) =
      some ([tag_token HOXML_CODE_ELEMENT_BEGIN [0x61], tag_token HOXML_CODE_ELEMENT_BEGIN [0x62],
        tag_token HOXML_ERROR_TAG_MISMATCH [0x63]], 1, 10, HOST_XML_A + 10, false) := by
  cases sc <;> decide

/-- C22: parsing the bytes `FF FE 3C 00 61 00 2F 00 3E 00` in a freshly initialised buffer
yields element-begin `a`, element-end `a`, end-of-document; after the first two bytes alone
the encoding is utf-16-le (the call returns unexpected-eof there), and at both tokens the
encoding is utf-16-le and the four bytes starting at `tag` are `61 00 00 00`. -/
theorem scenario_utf16le_empty_element (sc : Bool) :
    hoxml_host sc 16 (hoxml_init HOST_BUFFER_A 128) HOST_XML_A doc_utf16le_a [] =
      [tag_token HOXML_CODE_ELEMENT_BEGIN [0x61], tag_token HOXML_CODE_ELEMENT_END [0x61],
       bare_token HOXML_CODE_END_OF_DOCUMENT] ∧
    (hoxml_parse sc (hoxml_init HOST_BUFFER_A 128) HOST_XML_A bom_utf16le).map
      (fun r => (r.1, r.2.encoding)) = some (HOXML_ERROR_UNEXPECTED_EOF, HOXML_ENC_UTF_16_LE) ∧
    (hoxml_parse_calls sc (hoxml_init HOST_BUFFER_A 128) [(HOST_XML_A, doc_utf16le_a)]).map
      (fun r => (r.1.map (fun t => t.code), r.2.encoding,
        (List.range 4).map (fun i => rd8 r.2 (r.2.tag + i)), r.2.fault)) =
      some ([HOXML_CODE_ELEMENT_BEGIN], HOXML_ENC_UTF_16_LE, [0x61, 0x00, 0x00, 0x00], false) ∧
    (hoxml_parse_calls sc (hoxml_init HOST_BUFFER_A 128)
        [(HOST_XML_A, doc_utf16le_a), (HOST_XML_A, doc_utf16le_a)]).map
      (fun r => (r.1.map (fun t => t.code), r.2.encoding,
        (List.range 4).map (fun i => rd8 r.2 (r.2.tag + i)), r.2.fault)) =
      some ([HOXML_CODE_ELEMENT_BEGIN, HOXML_CODE_ELEMENT_END], HOXML_ENC_UTF_16_LE,
        [0x61, 0x00, 0x00, 0x00], false) := by
  cases sc <;> decide

/-- C23: parsing `<a>&lt;&#65;&#x42;</a>` yields element-begin `a`, then element-end `a`
whose content is the C string `<AB` (the three characters followed by a zero byte), then
end-of-document. -/
theorem scenario_references_in_content (sc : Bool) :
    hoxml_host sc 16 (hoxml_init HOST_BUFFER_A 128) HOST_XML_A doc_refs_lt_a_b [] =
      [tag_token HOXML_CODE_ELEMENT_BEGIN [0x61],
       { code := HOXML_CODE_ELEMENT_END, tag := some [0x61], attribute_ := none,
         value := none, content := some [0x3C, 0x41, 0x42] },
       bare_token HOXML_CODE_END_OF_DOCUMENT] := by
  cases sc <;> decide

/-- C24: parsing `<a><![CDATA[<b>&]]></a>` yields element-begin `a`, then element-end `a`
whose content is the C string `<b>&` (the four bytes followed by a zero byte), then
end-of-document. -/
theorem scenario_cdata_in_content (sc : Bool) :
    hoxml_host sc 16 (hoxml_init HOST_BUFFER_A 128) HOST_XML_A doc_cdata [] =
      [tag_token HOXML_CODE_ELEMENT_BEGIN [0x61],
       { code := HOXML_CODE_ELEMENT_END, tag := some [0x61], attribute_ := none,
         value := none, content := some [0x3C, 0x62, 0x3E, 0x26] },
       bare_token HOXML_CODE_END_OF_DOCUMENT] := by
  cases sc <;> decide

/-- C25: parsing `<a><!-- </a> --></a>` yields exactly element-begin `a`, element-end `a`
with empty content, end-of-document.  When the input ends right after the comment, the
call made after element-begin returns unexpected-eof at the end of the input, with the
state to resume in (`err_return_state`) equal to the open-tag state in which the `<` of
the comment was read, and with the stack and the whole buffer content as they were after
element-begin.  In
every context, in the three states inside a comment the `switch` returns no code and
changes nothing but the state, which becomes `return_state` at the `>` after `--`. -/
theorem comment_yields_no_token_and_returns_to_the_state (sc : Bool) :
    hoxml_host sc 16 (hoxml_init HOST_BUFFER_A 128) HOST_XML_A doc_comment [] =
      [tag_token HOXML_CODE_ELEMENT_BEGIN [0x61],
       { code := HOXML_CODE_ELEMENT_END, tag := some [0x61], attribute_ := none,
         value := none, content := some [] },
       bare_token HOXML_CODE_END_OF_DOCUMENT] ∧
    (hoxml_parse_calls sc (hoxml_init HOST_BUFFER_A 128) [(HOST_XML_A, slice_comment)]).map
      (fun r => (r.1.map (fun t => t.code), r.2.state, r.2.stack, r.2.iterator)) =
      some ([HOXML_CODE_ELEMENT_BEGIN], HOXML_STATE_OPEN_TAG, HOST_BUFFER_A, HOST_XML_A + 3) ∧
    (hoxml_parse_calls sc (hoxml_init HOST_BUFFER_A 128)
        [(HOST_XML_A, slice_comment), (HOST_XML_A, slice_comment)]).map
      (fun r => (r.1.map (fun t => t.code), r.2.err_return_state, r.2.stack, r.2.iterator,
        r.2.fault)) =
      some ([HOXML_CODE_ELEMENT_BEGIN, HOXML_ERROR_UNEXPECTED_EOF], HOXML_STATE_OPEN_TAG,
        HOST_BUFFER_A, HOST_XML_A + 16, false) ∧
    (hoxml_parse_calls sc (hoxml_init HOST_BUFFER_A 128)
        [(HOST_XML_A, slice_comment), (HOST_XML_A, slice_comment)]).map (fun r => r.2.mem) =
      (hoxml_parse_calls sc (hoxml_init HOST_BUFFER_A 128) [(HOST_XML_A, slice_comment)]).map
        (fun r => r.2.mem) ∧
    (∀ (c : hoxml_context_t) (ch : hoxml_char_t),
      hoxml_parse_switch sc (set_state c HOXML_STATE_COMMENT) ch =
        next (set_state c
          (if ch.decoded = 0x2D then HOXML_STATE_COMMENT_END1 else HOXML_STATE_COMMENT))) ∧
    (∀ (c : hoxml_context_t) (ch : hoxml_char_t),
      hoxml_parse_switch sc (set_state c HOXML_STATE_COMMENT_END1) ch =
        next (set_state c
          (if ch.decoded = 0x2D then HOXML_STATE_COMMENT_END2 else HOXML_STATE_COMMENT))) ∧
    (∀ (c : hoxml_context_t) (ch : hoxml_char_t),
      hoxml_parse_switch sc (set_state c HOXML_STATE_COMMENT_END2) ch =
        next (set_state c
          (if ch.decoded = 0x3E then c.return_state else HOXML_STATE_ERROR_SYNTAX))) := by
  refine ⟨by cases sc <;> decide, by cases sc <;> decide, by cases sc <;> decide,
    by cases sc <;> decide, ?_, ?_, ?_⟩
  · intro c ch
    by_cases h : ch.decoded = 0x2D <;> simp [hoxml_parse_switch, set_state, h]
  · intro c ch
    by_cases h : ch.decoded = 0x2D <;> simp [hoxml_parse_switch, set_state, h]
  · intro c ch
    by_cases h : ch.decoded = 0x3E <;> simp [hoxml_parse_switch, set_state, h]

/-- C26: for every value `v`, `hoxml_enc_char` returns `decoded = v` in every encoding, and
its byte count is 1, 2, 3, 4 in utf-8 and in encoding unknown for `v` in `[0, 0x7F]`,
`[0x80, 0x7FF]`, `[0x800, 0xD7FF]` or `[0xE000, 0xFFFF]`, `[0x10000, 0x10FFFF]`, it is 2
in utf-16-le and utf-16-be for `v` in `[0, 0xD7FF]` or `[0xE000, 0xFFFF]` and 4 for `v` in
`[0x10000, 0x10FFFF]`, and it is 0 for every other `v` (the surrogates and the values above
`0x10FFFF`). -/
theorem hoxml_enc_char_byte_count (v : Nat) :
    (∀ enc, (hoxml_enc_char v enc).decoded = v) ∧
    (hoxml_enc_char v HOXML_ENC_UTF_8).bytes = spec_utf8_bytes v ∧
    (hoxml_enc_char v HOXML_ENC_UNKNOWN).bytes = spec_utf8_bytes v ∧
    (hoxml_enc_char v HOXML_ENC_UTF_16_LE).bytes = spec_utf16_bytes v ∧
    (hoxml_enc_char v HOXML_ENC_UTF_16_BE).bytes = spec_utf16_bytes v ∧
    (spec_utf8_bytes v = 0 ↔ (0xD800 ≤ v ∧ v ≤ 0xDFFF) ∨ 0x10FFFF < v) ∧
    (spec_utf16_bytes v = 0 ↔ (0xD800 ≤ v ∧ v ≤ 0xDFFF) ∨ 0x10FFFF < v) := by
  refine ⟨?_, ?_, ?_, ?_, ?_, ?_, ?_⟩
  · intro enc
    cases enc <;> simp only [hoxml_enc_char] <;> split_ifs <;> rfl
  · simp only [hoxml_enc_char, spec_utf8_bytes]
    split_ifs <;> rfl
  · simp only [hoxml_enc_char, spec_utf8_bytes]
    split_ifs <;> rfl
  · simp only [hoxml_enc_char, spec_utf16_bytes]
    split_ifs <;> rfl
  · simp only [hoxml_enc_char, spec_utf16_bytes]
    split_ifs <;> rfl
  · unfold spec_utf8_bytes
    split_ifs <;> simp <;> omega
  · unfold spec_utf16_bytes
    split_ifs <;> simp <;> omega

/-- C27 (the bytes produced by `hoxml_enc_char` for utf-8 are the standard UTF-8 encoding)
fails on the code in the two-byte case: for the code point `E9` the bytes are `C3 E9`
instead of `C3 A9`, the second byte being `0x80 | (v & 0xFF)` and not `0x80 | (v & 0x3F)`;
the same in encoding unknown.  The utf-8 document `<a>&#233;</a>` is delivered with the
content `C3 E9`. -/
theorem enc_char_utf8_two_bytes_keeps_high_bits (sc : Bool) :
    (hoxml_enc_char 0xE9 HOXML_ENC_UTF_8).bytes = 2 ∧
    u32_bytes (hoxml_enc_char 0xE9 HOXML_ENC_UTF_8).encoded = [0xC3, 0xE9, 0x00, 0x00] ∧
    u32_bytes (hoxml_enc_char 0xE9 HOXML_ENC_UNKNOWN).encoded = [0xC3, 0xE9, 0x00, 0x00] ∧
    (0xC0 ||| (0xE9 >>> 6), 0x80 ||| (0xE9 &&& 0x3F)) = (0xC3, 0xA9) ∧
    hoxml_host sc 16 (hoxml_init HOST_BUFFER_A 128) HOST_XML_A doc_ref_233 [] =
      [tag_token HOXML_CODE_ELEMENT_BEGIN [0x61],
       { code := HOXML_CODE_ELEMENT_END, tag := some [0x61], attribute_ := none,
         value := none, content := some [0xC3, 0xE9] },
       bare_token HOXML_CODE_END_OF_DOCUMENT] := by
  cases sc <;> decide

/-- C28 (`hoxml_enc_char` produces the surrogate pair of `v` in utf-16) fails on the code:
for `v = 0x10400`, whose surrogate pair is `D801 DC00`, the bytes in utf-16-be are
`D8 00 DC 00` (the pair of `0x10000`) instead of `D8 01 DC 00`, and in utf-16-le they are
`00 DC 00 D8`, the four bytes in reverse order with the low surrogate first, instead of
`01 D8 00 DC`; for `v = 0x10FFFF` they are `D8 00 DF FF` instead of `DB FF DF FF`. -/
theorem enc_char_utf16_surrogate_pair_is_wrong :
    hoxml_enc_char 0x10400 HOXML_ENC_UTF_16_BE
        = { encoded := load_u32 [0xD8, 0x00, 0xDC, 0x00], decoded := 0x10400, bytes := 4 } ∧
    hoxml_enc_char 0x10400 HOXML_ENC_UTF_16_LE
        = { encoded := load_u32 [0x00, 0xDC, 0x00, 0xD8], decoded := 0x10400, bytes := 4 } ∧
    hoxml_enc_char 0x10FFFF HOXML_ENC_UTF_16_BE
        = { encoded := load_u32 [0xD8, 0x00, 0xDF, 0xFF], decoded := 0x10FFFF, bytes := 4 } ∧
    (hoxml_enc_char 0x10400 HOXML_ENC_UTF_16_BE).encoded =
      (hoxml_enc_char 0x10000 HOXML_ENC_UTF_16_BE).encoded ∧
    (0xD800 + ((0x10400 - 0x10000) >>> 10), 0xDC00 + ((0x10400 - 0x10000) &&& 0x3FF)) =
      (0xD801, 0xDC00) := by
  decide

/-- C29: for a utf-8 input of bytes whose first byte matches `0xxxxxxx`, `110xxxxx`,
`1110xxxx` or `11110xxx`, with at least 1, 2, 3 or 4 bytes available, `hoxml_dec_char`
returns the byte count 1, 2, 3 or 4 and the decoded value `b0 & 0x7F`,
`(b0 & 0x1F) << 6 | (b1 & 0x3F)`, `(b0 & 0x0F) << 12 | (b1 & 0x3F) << 6 | (b2 & 0x3F)` or
`(b0 & 0x07) << 18 | (b1 & 0x3F) << 12 | (b2 & 0x3F) << 6 | (b3 & 0x3F)`, whether `char` is
signed or not; and in every encoding, when the byte count determined from the first bytes
(`hoxml_dec_char_bytes`) exceeds the bytes available, it returns the decoded value
`0xFFFFFFFF` with byte count 0. -/
theorem hoxml_dec_char_utf8_and_short_input (sc : Bool) (str : List Nat) (n : Nat)
    (hstr : ∀ b ∈ str, b < 256) :
    (str.getD 0 0 < 0x80 → 1 ≤ n →
      (hoxml_dec_char sc str n HOXML_ENC_UTF_8).bytes = 1 ∧
      (hoxml_dec_char sc str n HOXML_ENC_UTF_8).decoded = str.getD 0 0 &&& 0x7F) ∧
    (0xC0 ≤ str.getD 0 0 → str.getD 0 0 < 0xE0 → 2 ≤ n →
      (hoxml_dec_char sc str n HOXML_ENC_UTF_8).bytes = 2 ∧
      (hoxml_dec_char sc str n HOXML_ENC_UTF_8).decoded =
        ((str.getD 0 0 &&& 0x1F) <<< 6) ||| (str.getD 1 0 &&& 0x3F)) ∧
    (0xE0 ≤ str.getD 0 0 → str.getD 0 0 < 0xF0 → 3 ≤ n →
      (hoxml_dec_char sc str n HOXML_ENC_UTF_8).bytes = 3 ∧
      (hoxml_dec_char sc str n HOXML_ENC_UTF_8).decoded =
        ((str.getD 0 0 &&& 0x0F) <<< 12) ||| ((str.getD 1 0 &&& 0x3F) <<< 6) |||
          (str.getD 2 0 &&& 0x3F)) ∧
    (0xF0 ≤ str.getD 0 0 → str.getD 0 0 < 0xF8 → 4 ≤ n →
      (hoxml_dec_char sc str n HOXML_ENC_UTF_8).bytes = 4 ∧
      (hoxml_dec_char sc str n HOXML_ENC_UTF_8).decoded =
        ((str.getD 0 0 &&& 0x07) <<< 18) ||| ((str.getD 1 0 &&& 0x3F) <<< 12) |||
          ((str.getD 2 0 &&& 0x3F) <<< 6) ||| (str.getD 3 0 &&& 0x3F)) ∧
    (∀ enc, n < hoxml_dec_char_bytes sc str enc →
      hoxml_dec_char sc str n enc = { encoded := 0, decoded := UINT32_MAX, bytes := 0 }) := by
  have f0 := char_at_byte_facts (str.getD 0 0) (getD_lt_256 str hstr 0) sc
  have f1 := char_at_byte_facts (str.getD 1 0) (getD_lt_256 str hstr 1) sc
  have f2 := char_at_byte_facts (str.getD 2 0) (getD_lt_256 str hstr 2) sc
  have f3 := char_at_byte_facts (str.getD 3 0) (getD_lt_256 str hstr 3) sc
  rw [← char_at_singleton sc str 0] at f0
  rw [← char_at_singleton sc str 1] at f1
  rw [← char_at_singleton sc str 2] at f2
  rw [← char_at_singleton sc str 3] at f3
  obtain ⟨m7f, _, m1f, m0f, m07, p1, p2, p3, p4⟩ := f0
  have s1 : ∀ x, shl32 (x &&& 0x1F) 6 = (x &&& 0x1F) <<< 6 := fun x =>
    shl32_small _ 6 0x1F Nat.and_le_right (by decide)
  have s2 : ∀ x, shl32 (x &&& 0x0F) 12 = (x &&& 0x0F) <<< 12 := fun x =>
    shl32_small _ 12 0x0F Nat.and_le_right (by decide)
  have s3 : ∀ x, shl32 (x &&& 0x3F) 6 = (x &&& 0x3F) <<< 6 := fun x =>
    shl32_small _ 6 0x3F Nat.and_le_right (by decide)
  have s4 : ∀ x, shl32 (x &&& 0x07) 18 = (x &&& 0x07) <<< 18 := fun x =>
    shl32_small _ 18 0x07 Nat.and_le_right (by decide)
  have s5 : ∀ x, shl32 (x &&& 0x3F) 12 = (x &&& 0x3F) <<< 12 := fun x =>
    shl32_small _ 12 0x3F Nat.and_le_right (by decide)
  refine ⟨?_, ?_, ?_, ?_, ?_⟩
  · intro h1 hn
    have c1 := p1.mpr h1
    simp only [hoxml_dec_char]
    rw [if_pos c1, if_neg (by omega)]
    exact ⟨rfl, m7f⟩
  · intro h1 h2 hn
    have c1 : ¬ asr32 (char_at sc str 0) 7 &&& 0x01 = 0x00 := fun h => by
      have := p1.mp h
      omega
    have c2 := p2.mpr ⟨h1, h2⟩
    simp only [hoxml_dec_char]
    rw [if_neg c1, if_pos c2, if_neg (by omega)]
    refine ⟨rfl, ?_⟩
    show shl32 (char_at sc str 0 &&& 0x1F) 6 ||| (char_at sc str 1 &&& 0x3F) = _
    rw [s1, m1f, f1.2.1]
  · intro h1 h2 hn
    have c1 : ¬ asr32 (char_at sc str 0) 7 &&& 0x01 = 0x00 := fun h => by
      have := p1.mp h
      omega
    have c2 : ¬ asr32 (char_at sc str 0) 5 &&& 0x07 = 0x06 := fun h => by
      have := p2.mp h
      omega
    have c3 := p3.mpr ⟨h1, h2⟩
    simp only [hoxml_dec_char]
    rw [if_neg c1, if_neg c2, if_pos c3, if_neg (by omega)]
    refine ⟨rfl, ?_⟩
    show shl32 (char_at sc str 0 &&& 0x0F) 12 ||| shl32 (char_at sc str 1 &&& 0x3F) 6 |||
      (char_at sc str 2 &&& 0x3F) = _
    rw [s2, s3, m0f, f1.2.1, f2.2.1]
  · intro h1 h2 hn
    have c1 : ¬ asr32 (char_at sc str 0) 7 &&& 0x01 = 0x00 := fun h => by
      have := p1.mp h
      omega
    have c2 : ¬ asr32 (char_at sc str 0) 5 &&& 0x07 = 0x06 := fun h => by
      have := p2.mp h
      omega
    have c3 : ¬ asr32 (char_at sc str 0) 4 &&& 0x0F = 0x0E := fun h => by
      have := p3.mp h
      omega
    have c4 := p4.mpr ⟨h1, h2⟩
    simp only [hoxml_dec_char]
    rw [if_neg c1, if_neg c2, if_neg c3, if_pos c4, if_neg (by omega)]
    refine ⟨rfl, ?_⟩
    show shl32 (char_at sc str 0 &&& 0x07) 18 ||| shl32 (char_at sc str 1 &&& 0x3F) 12 |||
      shl32 (char_at sc str 2 &&& 0x3F) 6 ||| (char_at sc str 3 &&& 0x3F) = _
    rw [s4, s5, s3, m07, f1.2.1, f2.2.1, f3.2.1]
  · intro enc h
    exact (hoxml_dec_char_eq sc str n enc).2 h

/-- Witness for C29: the two bytes `C3 A9` with two bytes available decode as the
two-byte character `E9`, and with one byte available give the sentinel. -/
theorem hoxml_dec_char_utf8_and_short_input_witness :
    (∀ b ∈ str_utf8_e9, b < 256) ∧
    ((hoxml_dec_char true str_utf8_e9 2 HOXML_ENC_UTF_8).bytes = 2 ∧
      (hoxml_dec_char true str_utf8_e9 2 HOXML_ENC_UTF_8).decoded = 0xE9) ∧
    hoxml_dec_char true str_utf8_e9 1 HOXML_ENC_UTF_8 =
      { encoded := 0, decoded := UINT32_MAX, bytes := 0 } :=
  ⟨by decide,
    (hoxml_dec_char_utf8_and_short_input true str_utf8_e9 2 (by decide)).2.1 (by decide)
      (by decide) (by decide),
    (hoxml_dec_char_utf8_and_short_input true str_utf8_e9 1 (by decide)).2.2.2.2
      HOXML_ENC_UTF_8 (by decide)⟩

/-- C30 (`hoxml_strlen` returns the number of code points before the terminator) fails on
the code, which advances by one byte and not by one character per iteration: for the
utf-8 string `C3 A9 61` (two code points) it returns 1, for the utf-16-le string `ab` it
returns 3 and for the utf-16-be string `ab` it returns 4. -/
theorem strlen_steps_bytes_not_characters (sc : Bool) :
    hoxml_strlen sc str_utf8_e9_a HOXML_ENC_UTF_8 = 1 ∧
    hoxml_strlen sc str_utf16le_ab HOXML_ENC_UTF_16_LE = 3 ∧
    hoxml_strlen sc str_utf16be_ab HOXML_ENC_UTF_16_BE = 4 := by
  cases sc <;> decide

/-- C31 (`hoxml_strcmp` returns non-zero exactly for equal strings, and zero when one
string is a proper prefix of the other) fails on the code, which after the loop only tests
that the first byte at the second iterator is zero: `ltx` compared with `lt` gives 1, and in
utf-16-be, where the first byte of every ASCII character is zero, `a` compared with `ab`
and `ab` compared with `a` both give 1.  So the end tag of `<ab></a>`, a tag mismatch in
the unknown encoding, is accepted in utf-16-be. -/
theorem strcmp_shorter_string_compares_equal (sc : Bool) :
    hoxml_strcmp sc str_ltx HOXML_ENC_UNKNOWN str_lt HOXML_ENC_UNKNOWN
      HOXML_CASE_SENSITIVE = 1 ∧
    hoxml_strcmp sc str_utf16be_a HOXML_ENC_UTF_16_BE str_utf16be_ab HOXML_ENC_UTF_16_BE
      HOXML_CASE_SENSITIVE = 1 ∧
    hoxml_strcmp sc str_utf16be_ab HOXML_ENC_UTF_16_BE str_utf16be_a HOXML_ENC_UTF_16_BE
      HOXML_CASE_SENSITIVE = 1 ∧
    (hoxml_host sc 64 (hoxml_init HOST_BUFFER_A 128) HOST_XML_A doc_ab_a []).map
        (fun t => t.code) =
      [HOXML_CODE_ELEMENT_BEGIN, HOXML_ERROR_TAG_MISMATCH] ∧
    (hoxml_host sc 64 (hoxml_init HOST_BUFFER_A 128) HOST_XML_A doc_utf16be_ab_a []).map
        (fun t => t.code) =
      [HOXML_CODE_ELEMENT_BEGIN, HOXML_CODE_ELEMENT_END, HOXML_CODE_END_OF_DOCUMENT] := by
  cases sc <;> decide

/-- C32 (`hoxml_append_terminator` advances `end` by 2 in both utf-16 encodings) fails on
the code for utf-16-le: in the context reached inside the name of `FF FE` `<a`, with
TERMINATED clear and 45 bytes of free space, the call sets TERMINATED, keeps the state and
advances `end` by 1; in the same situation in utf-16-be it advances `end` by 2. -/
theorem append_terminator_utf16le_advances_one_byte (sc : Bool) :
    ((ctx_after_slice sc 64 slice_utf16le_name_a 1).encoding = HOXML_ENC_UTF_16_LE ∧
      head_has (ctx_after_slice sc 64 slice_utf16le_name_a 1) HOXML_FLAG_TERMINATED = false ∧
      node_end (ctx_after_slice sc 64 slice_utf16le_name_a 1)
        (ctx_after_slice sc 64 slice_utf16le_name_a 1).stack = HOST_BUFFER_A + 18) ∧
    ((hoxml_append_terminator (ctx_after_slice sc 64 slice_utf16le_name_a 1)).state =
        HOXML_STATE_ELEMENT_NAME1 ∧
      head_has (hoxml_append_terminator (ctx_after_slice sc 64 slice_utf16le_name_a 1))
        HOXML_FLAG_TERMINATED = true ∧
      node_end (hoxml_append_terminator (ctx_after_slice sc 64 slice_utf16le_name_a 1))
        (ctx_after_slice sc 64 slice_utf16le_name_a 1).stack = HOST_BUFFER_A + 19) ∧
    ((ctx_after_slice sc 64 slice_utf16be_name_a 1).encoding = HOXML_ENC_UTF_16_BE ∧
      node_end (ctx_after_slice sc 64 slice_utf16be_name_a 1)
        (ctx_after_slice sc 64 slice_utf16be_name_a 1).stack = HOST_BUFFER_A + 18 ∧
      node_end (hoxml_append_terminator (ctx_after_slice sc 64 slice_utf16be_name_a 1))
        (ctx_after_slice sc 64 slice_utf16be_name_a 1).stack = HOST_BUFFER_A + 20) := by
  cases sc <;> decide

/-- C33 (a terminator that does not fit leaves the head frame unchanged, so that the retry
after `hoxml_realloc` writes it) fails on the code, which sets TERMINATED before it checks
the space: in the context reached inside the name of `<abcdefgh` with a buffer of 25 bytes
the call stores the state in `err_return_state`, sets insufficient-memory and keeps `end`,
but TERMINATED, clear before, is now set; after `hoxml_realloc` to 50 bytes the second
call changes nothing, so `end` is not advanced. -/
theorem failed_terminator_sets_the_terminated_flag (sc : Bool) :
    (head_has (ctx_after_slice sc 25 slice_name_abcdefgh 1) HOXML_FLAG_TERMINATED = false ∧
      (ctx_after_slice sc 25 slice_name_abcdefgh 1).state = HOXML_STATE_ELEMENT_NAME1 ∧
      node_end (ctx_after_slice sc 25 slice_name_abcdefgh 1)
        (ctx_after_slice sc 25 slice_name_abcdefgh 1).stack = HOST_BUFFER_A + 24) ∧
    ((hoxml_append_terminator (ctx_after_slice sc 25 slice_name_abcdefgh 1)).state =
        HOXML_STATE_ERROR_INSUFFICIENT_MEMORY ∧
      (hoxml_append_terminator (ctx_after_slice sc 25 slice_name_abcdefgh 1)).err_return_state =
        HOXML_STATE_ELEMENT_NAME1 ∧
      node_end (hoxml_append_terminator (ctx_after_slice sc 25 slice_name_abcdefgh 1))
        (ctx_after_slice sc 25 slice_name_abcdefgh 1).stack = HOST_BUFFER_A + 24 ∧
      head_has (hoxml_append_terminator (ctx_after_slice sc 25 slice_name_abcdefgh 1))
        HOXML_FLAG_TERMINATED = true) ∧
    (hoxml_realloc (hoxml_append_terminator (ctx_after_slice sc 25 slice_name_abcdefgh 1))
        HOST_BUFFER_B 50).map
      (fun c => (c.state, c.buffer_length, node_end c c.stack,
        node_end (hoxml_append_terminator c) c.stack,
        decide (hoxml_append_terminator c = c))) =
    some (HOXML_STATE_ELEMENT_NAME1, 50, HOST_BUFFER_B + 24, HOST_BUFFER_B + 24, true) := by
  cases sc <;> decide

/-- C34 (`hoxml_pop_stack` leaves every byte of the popped frame, its end byte included,
equal to zero) fails on the code, whose `memset` has the length `end - node` and stops
before the byte at `end`: in the context reached after `<a>x` the call unlinks the frame
and sets the four strings to null, but the byte `x` at the end of the frame is still in
the buffer.  In `<r><a>xx7</a><b>&#65;</b></r>` the digit `7` left by `a` is read as
part of the reference in `b`, whose content is `CA 91` (the code point 657), not `A`. -/
theorem pop_stack_leaves_the_end_byte (sc : Bool) :
    ((ctx_after_slice sc 64 slice_a_x 2).stack = HOST_BUFFER_A ∧
      node_end (ctx_after_slice sc 64 slice_a_x 2) HOST_BUFFER_A = HOST_BUFFER_A + 19 ∧
      rd8 (ctx_after_slice sc 64 slice_a_x 2) (HOST_BUFFER_A + 19) = 0x78) ∧
    ((hoxml_pop_stack (ctx_after_slice sc 64 slice_a_x 2)).stack = 0 ∧
      (hoxml_pop_stack (ctx_after_slice sc 64 slice_a_x 2)).tag = 0 ∧
      (hoxml_pop_stack (ctx_after_slice sc 64 slice_a_x 2)).attribute_ = 0 ∧
      (hoxml_pop_stack (ctx_after_slice sc 64 slice_a_x 2)).value = 0 ∧
      (hoxml_pop_stack (ctx_after_slice sc 64 slice_a_x 2)).content = 0) ∧
    (rd8 (hoxml_pop_stack (ctx_after_slice sc 64 slice_a_x 2)) (HOST_BUFFER_A + 18) = 0 ∧
      rd8 (hoxml_pop_stack (ctx_after_slice sc 64 slice_a_x 2)) (HOST_BUFFER_A + 19) = 0x78) ∧
    hoxml_host sc 64 (hoxml_init HOST_BUFFER_A 128) HOST_XML_A doc_stale_after_pop [] =
      [tag_token HOXML_CODE_ELEMENT_BEGIN [0x72],
       tag_token HOXML_CODE_ELEMENT_BEGIN [0x61],
       { code := HOXML_CODE_ELEMENT_END, tag := some [0x61], attribute_ := none,
         value := none, content := some [0x78, 0x78, 0x37] },
       tag_token HOXML_CODE_ELEMENT_BEGIN [0x62],
       { code := HOXML_CODE_ELEMENT_END, tag := some [0x62], attribute_ := none,
         value := none, content := some [0xCA, 0x91] },
       { code := HOXML_CODE_ELEMENT_END, tag := some [0x72], attribute_ := none,
         value := none, content := some [] },
       bare_token HOXML_CODE_END_OF_DOCUMENT] := by
  cases sc <;> decide

/-- C35 (the content added by a CDATA section is the text up to the first `]]>`, also when
the text ends in `]` and in every encoding) fails on the code: in `<a><![CDATA[x]]]></a>`
the third `]` sends the parser back to the state for CDATA content, the section is not
closed and the call after element-begin returns unexpected-EOF; in utf-16-le only two of
the four bytes of `]]` are removed, so at element-end the frame of `a` holds `x]` after its
name and `end` is at offset 23, where utf-16-be holds `x` and `end` is at offset 22. -/
theorem cdata_text_ending_in_bracket_is_not_closed (sc : Bool) :
    hoxml_host sc 64 (hoxml_init HOST_BUFFER_A 128) HOST_XML_A doc_cdata_bracket [] =
      [tag_token HOXML_CODE_ELEMENT_BEGIN [0x61],
       bare_token HOXML_ERROR_UNEXPECTED_EOF] ∧
    (hoxml_parse_calls sc (hoxml_init HOST_BUFFER_A 64)
        [(HOST_XML_A, doc_cdata_utf16le), (HOST_XML_A, doc_cdata_utf16le)]).map
      (fun r => (r.1.map (fun t => t.code), (r.2.mem.drop 17).take 8,
        node_end r.2 r.2.stack)) =
    some ([HOXML_CODE_ELEMENT_BEGIN, HOXML_CODE_ELEMENT_END],
      [0x61, 0x00, 0x00, 0x78, 0x00, 0x5D, 0x00, 0x00], HOST_BUFFER_A + 23) ∧
    (hoxml_parse_calls sc (hoxml_init HOST_BUFFER_A 64)
        [(HOST_XML_A, doc_cdata_utf16be), (HOST_XML_A, doc_cdata_utf16be)]).map
      (fun r => (r.1.map (fun t => t.code), (r.2.mem.drop 17).take 8,
        node_end r.2 r.2.stack)) =
    some ([HOXML_CODE_ELEMENT_BEGIN, HOXML_CODE_ELEMENT_END],
      [0x00, 0x61, 0x00, 0x00, 0x00, 0x78, 0x00, 0x00], HOST_BUFFER_A + 22) := by
  cases sc <;> decide

/-- C36 (the character a resolved reference appends is shorter than the body removed, so
`hoxml_end_ref` never fails) fails on the code: `&#9;` is resolved to one byte from a body
of one byte, and in `<a>&#65;&#;</a>` the reference `&#;` without digits is resolved from
the digit `5` that the first reference left behind its character: in the context reached
before its `;` the body is empty (`ref_start = end + 1`), the length `end - ref_start` of
the `memset` in `hoxml_end_ref` is `2 ^ 64 - 1`, which is outside the buffer, and the
call appends the one byte `05`; the content at element-end is `41 05`. -/
theorem end_ref_resolves_an_empty_body (sc : Bool) :
    hoxml_host sc 64 (hoxml_init HOST_BUFFER_A 128) HOST_XML_A doc_ref_tab [] =
      [tag_token HOXML_CODE_ELEMENT_BEGIN [0x61],
       { code := HOXML_CODE_ELEMENT_END, tag := some [0x61], attribute_ := none,
         value := none, content := some [0x09] },
       bare_token HOXML_CODE_END_OF_DOCUMENT] ∧
    ((ctx_after_slice sc 64 slice_empty_ref 2).state = HOXML_STATE_REFERENCE_NUMERIC ∧
      (ctx_after_slice sc 64 slice_empty_ref 2).fault = false ∧
      node_end (ctx_after_slice sc 64 slice_empty_ref 2)
        (ctx_after_slice sc 64 slice_empty_ref 2).stack = HOST_BUFFER_A + 19 ∧
      (ctx_after_slice sc 64 slice_empty_ref 2).ref_start = HOST_BUFFER_A + 20 ∧
      rd8 (ctx_after_slice sc 64 slice_empty_ref 2) (HOST_BUFFER_A + 20) = 0x35) ∧
    (ptr_sub (node_end (ctx_after_slice sc 64 slice_empty_ref 2)
          (ctx_after_slice sc 64 slice_empty_ref 2).stack)
        (ctx_after_slice sc 64 slice_empty_ref 2).ref_start = 2 ^ 64 - 1 ∧
      in_buffer (ctx_after_slice sc 64 slice_empty_ref 2)
        (ctx_after_slice sc 64 slice_empty_ref 2).ref_start (2 ^ 64 - 1) = false) ∧
    ((hoxml_end_ref sc (ctx_after_slice sc 64 slice_empty_ref 2)
          HOXML_REF_TYPE_NUMERIC).state = HOXML_STATE_OPEN_TAG ∧
      (hoxml_end_ref sc (ctx_after_slice sc 64 slice_empty_ref 2)
          HOXML_REF_TYPE_NUMERIC).fault = true ∧
      node_end (hoxml_end_ref sc (ctx_after_slice sc 64 slice_empty_ref 2)
          HOXML_REF_TYPE_NUMERIC) (ctx_after_slice sc 64 slice_empty_ref 2).stack =
        HOST_BUFFER_A + 20 ∧
      rd8 (hoxml_end_ref sc (ctx_after_slice sc 64 slice_empty_ref 2)
          HOXML_REF_TYPE_NUMERIC) (HOST_BUFFER_A + 20) = 0x05) ∧
    hoxml_host sc 64 (hoxml_init HOST_BUFFER_A 128) HOST_XML_A doc_empty_ref [] =
      [tag_token HOXML_CODE_ELEMENT_BEGIN [0x61],
       { code := HOXML_CODE_ELEMENT_END, tag := some [0x61], attribute_ := none,
         value := none, content := some [0x41, 0x05] },
       bare_token HOXML_CODE_END_OF_DOCUMENT] := by
  cases sc <;> decide

/-- C37: in the states for an element name and for the whitespace after it, the character
`/` on a head frame flagged END_TAG sets the syntax error state; from that state the loop
of `hoxml_parse` returns the syntax error at once, and so does every later call with
non-empty input.  For `<x></x/>` the calls return element-begin and the syntax error; for
`<x></x />` the whitespace first returns a second element-begin and the `/` then the
syntax error. -/
theorem end_tag_followed_by_slash_is_a_syntax_error (sc : Bool) (c : hoxml_context_t)
    (ch : hoxml_char_t)
    (hst : c.state = HOXML_STATE_ELEMENT_NAME1 ∨ c.state = HOXML_STATE_ELEMENT_NAME2)
    (hd : ch.decoded = 0x2F) (hf : head_has c HOXML_FLAG_END_TAG = true) :
    hoxml_parse_switch sc c ch =
      next (set_state (touch c c.stack HOXML_NODE_TAG) HOXML_STATE_ERROR_SYNTAX) ∧
    (∀ (xml : Nat) (data : List Nat) (fuel b : Nat),
      hoxml_parse_loop sc xml data (fuel + 1)
          (set_state (touch c c.stack HOXML_NODE_TAG) HOXML_STATE_ERROR_SYNTAX) b =
        some (HOXML_ERROR_SYNTAX,
          set_state (touch c c.stack HOXML_NODE_TAG) HOXML_STATE_ERROR_SYNTAX)) ∧
    (∀ (xml : Nat) (data : List Nat), xml ≠ 0 → data ≠ [] →
      hoxml_parse sc (set_state (touch c c.stack HOXML_NODE_TAG) HOXML_STATE_ERROR_SYNTAX)
          xml data =
        some (HOXML_ERROR_SYNTAX,
          set_state (touch c c.stack HOXML_NODE_TAG) HOXML_STATE_ERROR_SYNTAX)) ∧
    hoxml_host sc 64 (hoxml_init HOST_BUFFER_A 128) HOST_XML_A doc_end_tag_slash [] =
      [tag_token HOXML_CODE_ELEMENT_BEGIN [0x78], tag_token HOXML_ERROR_SYNTAX [0x78]] ∧
    hoxml_host sc 64 (hoxml_init HOST_BUFFER_A 128) HOST_XML_A doc_end_tag_space_slash [] =
      [tag_token HOXML_CODE_ELEMENT_BEGIN [0x78], tag_token HOXML_CODE_ELEMENT_BEGIN [0x78],
       tag_token HOXML_ERROR_SYNTAX [0x78]] := by
  refine ⟨?_, ?_, ?_, by cases sc <;> decide, by cases sc <;> decide⟩
  · rcases hst with hst | hst <;> simp [hoxml_parse_switch, hst, hd, hf]
  · intro xml data fuel b
    have h1 : (set_state (touch c c.stack HOXML_NODE_TAG)
        HOXML_STATE_ERROR_SYNTAX).state.in_loop = false := rfl
    have h2 : (set_state (touch c c.stack HOXML_NODE_TAG) HOXML_STATE_ERROR_SYNTAX).state ≠
        HOXML_STATE_ERROR_INSUFFICIENT_MEMORY := by
      intro h
      cases h
    rw [hoxml_parse_loop, h1, if_neg Bool.false_ne_true, if_neg h2]
  · intro xml data hx hdata
    have hl : data.length ≠ 0 := fun h => hdata (List.length_eq_zero.mp h)
    simp [hoxml_parse, set_state, hx, hl]

/-- Witness for C37: the context reached inside the end tag of `<x></x` is in the state
for an element name and its head frame is flagged END_TAG; the character `/` puts it in
the syntax error state. -/
theorem end_tag_followed_by_slash_is_a_syntax_error_witness :
    ((ctx_after_slice true 64 slice_end_tag_x 2).state = HOXML_STATE_ELEMENT_NAME1 ∨
      (ctx_after_slice true 64 slice_end_tag_x 2).state = HOXML_STATE_ELEMENT_NAME2) ∧
    char_slash.decoded = 0x2F ∧
    head_has (ctx_after_slice true 64 slice_end_tag_x 2) HOXML_FLAG_END_TAG = true ∧
    hoxml_parse_switch true (ctx_after_slice true 64 slice_end_tag_x 2) char_slash =
      next (set_state (touch (ctx_after_slice true 64 slice_end_tag_x 2)
        (ctx_after_slice true 64 slice_end_tag_x 2).stack HOXML_NODE_TAG)
        HOXML_STATE_ERROR_SYNTAX) :=
  ⟨by decide, by decide, by decide,
    (end_tag_followed_by_slash_is_a_syntax_error true
      (ctx_after_slice true 64 slice_end_tag_x 2) char_slash (by decide) (by decide)
      (by decide)).1⟩

/-- C38 (each element of a well-formed document yields one element-begin and one
element-end, also with whitespace before the `>` of its end tag) fails on the code: for
`<a></a >` the whitespace after the name of the end tag returns a second element-begin,
the `>` ends the tag without returning element-end, and the third call returns
unexpected-EOF; with the whitespace in the start tag, `<a ></a>`, the tokens are
element-begin, element-end and end-of-document. -/
theorem whitespace_in_end_tag_yields_element_begin (sc : Bool) :
    hoxml_host sc 64 (hoxml_init HOST_BUFFER_A 128) HOST_XML_A doc_end_tag_space [] =
      [tag_token HOXML_CODE_ELEMENT_BEGIN [0x61], tag_token HOXML_CODE_ELEMENT_BEGIN [0x61],
       bare_token HOXML_ERROR_UNEXPECTED_EOF] ∧
    hoxml_host sc 64 (hoxml_init HOST_BUFFER_A 128) HOST_XML_A doc_start_tag_space [] =
      [tag_token HOXML_CODE_ELEMENT_BEGIN [0x61],
       { code := HOXML_CODE_ELEMENT_END, tag := some [0x61], attribute_ := none,
         value := none, content := some [] },
       bare_token HOXML_CODE_END_OF_DOCUMENT] := by
  cases sc <;> decide

/-- C39 (in every reachable state the bytes of the buffer after the end of the head frame
are zero) fails on the code: the property holds after `hoxml_init`, but after the three
calls that parse `<a>x</a>` up to end-of-document the stack is empty and the buffer still
holds the byte `x` at offset 19, and after the calls that parse `<a>&#0065;` the head frame
ends at offset 19 with the character `A` and the digit `5` is at offset 22. -/
theorem bytes_after_head_end_are_not_all_zero (sc : Bool) :
    spec_zero_after_head (hoxml_init HOST_BUFFER_A 64) = true ∧
    (hoxml_parse_calls sc (hoxml_init HOST_BUFFER_A 64)
        [(HOST_XML_A, doc_a_x), (HOST_XML_A, doc_a_x), (HOST_XML_A, doc_a_x)]).map
      (fun r => (r.1.map (fun t => t.code), r.2.stack, rd8 r.2 (HOST_BUFFER_A + 19),
        spec_zero_after_head r.2)) =
    some ([HOXML_CODE_ELEMENT_BEGIN, HOXML_CODE_ELEMENT_END, HOXML_CODE_END_OF_DOCUMENT],
      0, 0x78, false) ∧
    (hoxml_parse_calls sc (hoxml_init HOST_BUFFER_A 64)
        [(HOST_XML_A, slice_ref_0065), (HOST_XML_A, slice_ref_0065)]).map
      (fun r => (r.1.map (fun t => t.code), node_end r.2 r.2.stack,
        rd8 r.2 (HOST_BUFFER_A + 19), rd8 r.2 (HOST_BUFFER_A + 22),
        spec_zero_after_head r.2)) =
    some ([HOXML_CODE_ELEMENT_BEGIN, HOXML_ERROR_UNEXPECTED_EOF], HOST_BUFFER_A + 19, 0x41,
      0x35, false) := by
  cases sc <;> decide

/-- C40 (after end-of-document every later call returns end-of-document without a
dereference of the empty stack) fails on the code: after the three calls that parse `<a/>`
the stack is null, the state is the one for an open tag and not `HOXML_STATE_DONE`, and
`post_state` is still `HOXML_POST_STATE_TAG_END`; the fourth call returns end-of-document
and leaves these fields as they are, but on its way `hoxml_post_state_cleanup` reads
`context->stack->flags` through the null stack. -/
theorem call_after_end_of_document_reads_null_stack (sc : Bool) :
    (hoxml_parse_calls sc (hoxml_init HOST_BUFFER_A 64)
        [(HOST_XML_A, doc_empty_a), (HOST_XML_A, doc_empty_a), (HOST_XML_A, doc_empty_a)]).map
      (fun r => (r.1.map (fun t => t.code), r.2.stack, r.2.state, r.2.post_state,
        r.2.fault)) =
    some ([HOXML_CODE_ELEMENT_BEGIN, HOXML_CODE_ELEMENT_END, HOXML_CODE_END_OF_DOCUMENT],
      0, HOXML_STATE_OPEN_TAG, HOXML_POST_STATE_TAG_END, false) ∧
    (hoxml_parse_calls sc (hoxml_init HOST_BUFFER_A 64)
        [(HOST_XML_A, doc_empty_a), (HOST_XML_A, doc_empty_a), (HOST_XML_A, doc_empty_a),
         (HOST_XML_A, doc_empty_a)]).map
      (fun r => (r.1.map (fun t => t.code), r.2.stack, r.2.state, r.2.post_state,
        r.2.fault)) =
    some ([HOXML_CODE_ELEMENT_BEGIN, HOXML_CODE_ELEMENT_END, HOXML_CODE_END_OF_DOCUMENT,
        HOXML_CODE_END_OF_DOCUMENT],
      0, HOXML_STATE_OPEN_TAG, HOXML_POST_STATE_TAG_END, true) ∧
    (hoxml_post_state_cleanup sc (context_after sc (hoxml_init HOST_BUFFER_A 64)
        [(HOST_XML_A, doc_empty_a), (HOST_XML_A, doc_empty_a), (HOST_XML_A, doc_empty_a)])).2 =
      touch (context_after sc (hoxml_init HOST_BUFFER_A 64)
        [(HOST_XML_A, doc_empty_a), (HOST_XML_A, doc_empty_a), (HOST_XML_A, doc_empty_a)])
        0 HOXML_NODE_TAG := by
  cases sc <;> decide
